import Mathlib

/-!
LightningTipBot: the idempotent-intent core.

A shallow embedding of `internal/telegram` (transaction.go, users.go, inline_send.go,
inline_receive.go, faucet.go, pay.go).  Handlers are functions on an explicit world:
the state of the collaborators (wallet service, user database, cache), the persisted
intents, and a log of the calls made so far.

Conventions of the embedding:
* a Go `error` is an `Option GoError`; a call that can panic (nil dereference) returns a `Ret`;
* Go pointers are modelled by value; where two Go variables alias one struct, the mutated
  value is written back to both;
* a deferred call is applied after the function body, deferred `Set` before deferred unlock,
  on a normal return and on a panic alike;
* `int64` values are integers, and arithmetic that can overflow goes through `wrapInt64`;
* triggers on one ID run one after the other (the keyed lock serialises them), so the lock
  calls appear in the log and have no further effect;
* messages to users are recorded by recipient and translation key only.
-/

namespace LightningTipBot

/-! ## Errors -/

/-- Modelled from the spec: the error taxonomy of §7. The package `errors` is declared
outside src/; these are the codes the embedded handlers create. -/
inductive TipBotErrorCode
  | UnknownError
  | NotActiveError
  | SelfPaymentError
  | BalanceToLowError
  | UserNoWalletError
  | GetBalanceError
  | InvalidAmountError
  | InvalidAmountPerUserError
  | InvalidSyntaxError
  | DecodeAmountError
  | DecodePerUserAmountError
  deriving DecidableEq, Repr

/-- A non-nil Go `error` value: `text` is `errors.New` / `fmt.Errorf`, `create` is
`errors.Create(code)`, `wrap` is `errors.New(code, err)`. A Go `error` that may be nil is
an `Option GoError`. -/
inductive GoError
  | text (msg : String)
  | create (code : TipBotErrorCode)
  | wrap (code : TipBotErrorCode) (cause : GoError)
  deriving DecidableEq, Repr

/-- Outcome of a Go call that either returns or panics (nil dereference). -/
inductive Ret (α : Type)
  | value (a : α)
  | panicked
  deriving DecidableEq, Repr

deriving instance DecidableEq for Except

/-! ## Go strings and integers -/

/-- The pieces of a list of characters between the occurrences of `sep`. -/
def splitChars (sep : Char) : List Char → List (List Char)
  | [] => [[]]
  | c :: cs =>
    if c = sep then [] :: splitChars sep cs
    else
      match splitChars sep cs with
      | [] => [[c]]
      | h :: t => (c :: h) :: t

/-- Go `strings.Split(s, sep)` for a separator of one character. -/
def Split (s : String) (sep : Char) : List String :=
  (splitChars sep s.data).map String.mk

/-- Go `strings.HasPrefix`. -/
def HasPrefix (s pre : String) : Bool :=
  pre.data.isPrefixOf s.data

/-- Go `strings.HasSuffix`. -/
def HasSuffix (s suf : String) : Bool :=
  suf.data.isSuffixOf s.data

/-- The byte offset of the first occurrence of `sub` in a list of characters, or -1. -/
def indexChars (sub : List Char) : List Char → Int
  | [] => if sub.isEmpty then 0 else -1
  | c :: cs =>
    if sub.isPrefixOf (c :: cs) then 0
    else
      let r := indexChars sub cs
      if r < 0 then -1 else r + c.utf8Size

/-- Go `strings.Index`: the byte offset of the first occurrence of `sub` in `s`, or -1. -/
def Index (s sub : String) : Int :=
  indexChars sub.data s.data

/-- Go `strings.Contains`. -/
def Contains (s sub : String) : Bool :=
  decide (0 ≤ Index s sub)

/-- What follows the first occurrence of `sep` in a list of characters, if there is one. -/
def afterChar (sep : Char) : List Char → Option (List Char)
  | [] => none
  | c :: cs => if c = sep then some cs else afterChar sep cs

/-- Go `len(s)`: the number of bytes of a string. -/
def len (s : String) : Int :=
  s.utf8ByteSize

/-- Go `a % b` on `int64`: a panic when `b` is zero. -/
def goRem (a b : Int) : Ret Int :=
  if b = 0 then .panicked else .value (Int.tmod a b)

/-- Go `a / b` on `int64`: a panic when `b` is zero, else the quotient truncated towards
zero (and wrapped, for the one quotient that overflows). -/
def goQuo (a b : Int) : Ret Int :=
  if b = 0 then .panicked else .value ((Int.tdiv a b + 2 ^ 63) % 2 ^ 64 - 2 ^ 63)

/-! ## Data model -/

/-- The fields of `tb.User` that the handlers read. -/
structure TgUser where
  ID : Int
  Username : String
  FirstName : String
  LanguageCode : String
  deriving DecidableEq, Repr

/-- Modelled from the spec: a wallet reference of the WalletService (§6). The struct
`lnbits.Wallet` is declared outside src/; these are the fields the handlers read or write,
`Balance` in msat. -/
structure Wallet where
  ID : String
  Adminkey : String
  Balance : Int
  deriving DecidableEq, Repr

/-- Modelled from the spec: a participant (originator or counterparty) of an intent. The
struct `lnbits.User` is declared outside src/; these are the fields the handlers read or
write. `Wallet` is a pointer that may be nil; `Telegram` is taken to be non-nil. -/
structure User where
  ID : String
  Name : String
  Initialized : Bool
  Telegram : TgUser
  Wallet : Option Wallet
  StateKey : Nat
  StateData : String
  deriving DecidableEq, Repr

/-- Modelled from the spec: the invoice reference of the WalletService (§6). The struct
`lnbits.Invoice` is declared outside src/; it is the result of both `Invoice` and `Pay`. -/
structure Invoice where
  PaymentHash : String
  PaymentRequest : String
  deriving DecidableEq, Repr

/-- Modelled from the spec: the arguments of `CreateInvoice` (§6); `lnbits.InvoiceParams`
is declared outside src/. -/
structure InvoiceParams where
  Out : Bool
  Amount : Int
  Memo : String
  deriving DecidableEq, Repr

/-- Modelled from the spec: the arguments of `PayInvoice` (§6); `lnbits.PaymentParams` is
declared outside src/. -/
structure PaymentParams where
  Out : Bool
  Bolt11 : String
  deriving DecidableEq, Repr

/-- The `Transaction` record of transaction.go (without `Bot`, the key `ID` and `Time`);
`TxType` is the Go field `Type`. -/
structure Transaction where
  From : User
  To : User
  FromId : Int
  ToId : Int
  FromUser : String
  ToUser : String
  TxType : String
  Amount : Int
  ChatID : Int
  ChatName : String
  Memo : String
  Success : Bool
  FromWallet : String
  ToWallet : String
  FromLNbitsID : String
  ToLNbitsID : String
  Invoice : Invoice
  deriving DecidableEq, Repr

/-- Modelled from the spec: the `ID`, `Active` and `Canceled` of every intent (§3). The
embedded struct `storage.Base` is declared outside src/. -/
structure Base where
  ID : String
  Active : Bool
  Canceled : Bool
  deriving DecidableEq, Repr

/-- The `InlineSend` intent of inline_send.go. -/
structure InlineSend extends Base where
  Message : String
  Amount : Int
  From : User
  To : User
  To_SpecificUser : Bool
  Memo : String
  LanguageCode : String
  deriving DecidableEq, Repr

/-- The fields of `tb.Callback` that the handlers read: its data and who pressed. -/
structure Callback where
  Data : String
  Sender : Option TgUser
  deriving DecidableEq, Repr

/-- The `InlineReceive` intent of inline_receive.go; `Message` is the `tb.Editable` to
edit, which the accept handler sets to the callback. -/
structure InlineReceive extends Base where
  MessageText : String
  Message : Option Callback
  Amount : Int
  From : User
  To : User
  From_SpecificUser : Bool
  Memo : String
  LanguageCode : String
  deriving DecidableEq, Repr

/-- The `InlineFaucet` intent of faucet.go. -/
structure InlineFaucet extends Base where
  Message : String
  Amount : Int
  RemainingAmount : Int
  PerUserAmount : Int
  From : User
  To : List User
  Memo : String
  NTotal : Int
  NTaken : Int
  UserNeedsWallet : Bool
  LanguageCode : String
  deriving DecidableEq, Repr

/-- The `PayData` intent of pay.go (without the success action and the Telegram message). -/
structure PayData extends Base where
  From : User
  Invoice : String
  Hash : String
  Proof : String
  Memo : String
  Message : String
  Amount : Int
  LanguageCode : String
  deriving DecidableEq, Repr

/-- The fields of `lnurl.LNURLAuthParams` (package go-lnurl) that lnurl-auth.go reads;
`Callback` is the callback URL. -/
structure LNURLAuthParams where
  Host : String
  K1 : String
  Callback : String
  deriving DecidableEq, Repr

/-- The fields of `lnurl.LNURLResponse` that lnurl-auth.go reads. -/
structure LNURLResponse where
  Status : String
  Reason : String
  deriving DecidableEq, Repr

/-- The `LnurlAuthState` intent of lnurl-auth.go; `Message` is the text of the Telegram
message with the login buttons. -/
structure LnurlAuthState extends Base where
  From : User
  LNURLAuthParams : LNURLAuthParams
  Comment : String
  LanguageCode : String
  Message : String
  deriving DecidableEq, Repr

/-- The fields of `lnurl.LNURLPayParams` that lnurl-pay.go reads. -/
structure LNURLPayParams where
  Callback : String
  MinSendable : Int
  MaxSendable : Int
  CommentAllowed : Int
  Metadata : String
  deriving DecidableEq, Repr

/-- The fields of `lnurl.LNURLPayValues` that lnurl-pay.go reads (without the success
action). -/
structure LNURLPayValues where
  Status : String
  Reason : String
  PR : String
  deriving DecidableEq, Repr

/-- The `LnurlPayState` intent of lnurl-pay.go. -/
structure LnurlPayState extends Base where
  From : User
  LNURLPayParams : LNURLPayParams
  LNURLPayValues : LNURLPayValues
  Amount : Int
  Comment : String
  DescriptionHash : String
  LanguageCode : String
  deriving DecidableEq, Repr

/-- The fields of a decoded invoice (`decodepay.Bolt11`) that pay.go reads. -/
structure Bolt11 where
  MSatoshi : Int
  Description : String
  deriving DecidableEq, Repr

/-- What a trigger carries: the callback data (the intent ID), the Telegram sender, the
bot user loaded for that sender (`LoadUser(ctx)`), the ID of the chat of the message,
whether that chat is private, and the text of the message (for a command). -/
structure Ctx where
  Data : String
  Sender : TgUser
  User : User
  Chat : Int
  Private : Bool
  Text : String := ""
  deriving DecidableEq, Repr

/-! ## Collaborators, persisted intents, call log -/

/-- One observable call made by the bot. `send` marks the entry into `Transaction.Send`;
`save` is a call of `Set` or `Inactivate` on an intent that was loaded from the store,
`create` the first `Set` of an intent just built with `storage.New` under a new ID (the
call is logged whether or not the write succeeds); `goMessage` is a
message handed to a goroutine. -/
inductive Event
  | lock (id : String)
  | unlock (id : String)
  | info (wallet : String)
  | updateUser (name : String)
  | cacheSet (key : String) (amount : Int)
  | invoice (wallet : String) (params : InvoiceParams)
  | pay (wallet : String) (params : PaymentParams)
  | send (t : Transaction)
  | txSave (t : Transaction)
  | save (id : String)
  | create (id : String)
  | message (recipient : Int) (key : String)
  | goMessage (recipient : Int) (key : String)
  | edit (key : String)
  | delete
  deriving DecidableEq, Repr

/-- Modelled from the spec: the collaborators of §6, whose code is outside src/, as
state transformers on their own state `σ`: the
wallet service (`ClientInfo`, `WalletInvoice`, `WalletPay`), the user database
(`GetUser`, `UpdateUserRecord`, `createWallet`), the transaction table, the cache,
invoices with a settlement event (`createInvoiceWithEvent user amount memo callbackData`),
the QR encoder, and the rendering of user-facing text (`Render lang key args` stands for `i18n.Translate`
followed by `fmt.Sprintf`). A failing call returns a non-nil error.
For the LNURL flows and the pay command: the key signature of a user (`SignKeyAuth`), the
signed login request (`LnurlAuthCallback params sig key` stands for `GetClientForScheme`,
the HTTP GET and the decoding of the answer, each of which returns its error unchanged),
the user-state constants of package `lnbits`, the decoding of the entered-amount state
kept with the user (`ParseEnterAmountState`, giving the ID of the LNURL payment state),
the pay request to the LNURL service (`LnurlPayCallback` stands for the URL parsing,
`GetClientForScheme`, the HTTP GET and the reading of the body, each of which returns its
error after the same message edit; a body that does not decode gives the zero values),
`anyTextHandler`, `getArgumentFromCommand`, the invoice decoder and `RandStringRunes`.
For the faucet command: the amount decoders `decodeAmountFromCommand` and `GetAmount`,
`GetMemoFromCommand` and `MakeProgressbar`. From the Go libraries: whether `pem.Decode`
finds a block (`pemDecode`), `hex.DecodeString` and `base64.StdEncoding.DecodeString`
(byte slices are kept as strings, nil as the empty string), and of package go-lnurl
`ParseInternetIdentifier` (giving name and domain), `FindLNURLInText` and
`LNURLDecodeStrict`; and `strings.ToLower`, which maps every Unicode letter to its lower
case. For the IntentStore (package `storage`): `StoreSet calls id` is the error, if any,
of the write (`Set`, `Inactivate`) made under `id` after the calls logged so far; a write
succeeds or fails as a whole. -/
structure Env (σ : Type) where
  ClientInfo : Wallet → σ → Except GoError Wallet × σ
  WalletInvoice : Wallet → InvoiceParams → σ → Except GoError Invoice × σ
  WalletPay : Wallet → PaymentParams → σ → Except GoError Invoice × σ
  GetUser : TgUser → σ → Except GoError User × σ
  UpdateUserRecord : User → σ → Option GoError × σ
  createWallet : User → σ → (Option GoError × User) × σ
  TransactionsSave : Transaction → σ → Option GoError × σ
  createInvoiceWithEvent : User → Int → String → String → σ → Except GoError Invoice × σ
  QrEncode : String → Option GoError
  CacheGet : String → σ → Option Int
  CacheSet : String → Int → σ → σ
  Render : String → String → List String → String
  MarkdownEscape : String → String
  SignKeyAuth : User → String → String → Except GoError (String × String)
  LnurlAuthCallback : LNURLAuthParams → String → String → σ → Except GoError LNURLResponse × σ
  UserHasEnteredAmount : Nat
  UserStateConfirmPayment : Nat
  ParseEnterAmountState : String → Except GoError String
  LnurlPayCallback : LnurlPayState → σ → Except GoError LNURLPayValues × σ
  anyTextHandler : Ctx → σ → σ
  getArgumentFromCommand : String → Nat → Except GoError String
  Decodepay : String → Except GoError Bolt11
  RandStringRunes : Nat → σ → String × σ
  decodeAmountFromCommand : String → Except GoError Int
  GetAmount : String → Except GoError Int
  GetMemoFromCommand : String → Nat → String
  MakeProgressbar : Int → Int → String
  pemDecode : String → Bool
  hexDecode : String → Option String
  base64Decode : String → Option String
  ParseInternetIdentifier : String → Option (String × String)
  FindLNURLInText : String → Option String
  LNURLDecodeStrict : String → Except GoError String
  ToLower : String → String
  StoreSet : List Event → String → Option GoError

/-- Modelled from the spec: the IntentStore (package `storage`, outside src/) keeps one
record per ID; a `Save` that succeeds overwrites, a `Save` that fails leaves the store as
it was, `Load` fails with NotFound when nothing is stored. -/
def Store (α : Type) : Type := String → Option α

/-- Modelled from the spec: `Load(id)`. -/
def Store.Get {α : Type} (s : Store α) (id : String) : Except GoError α :=
  match s id with
  | some v => .ok v
  | none => .error (.text "not found")

/-- Modelled from the spec: the store once a `Save` under the ID has succeeded: the record
overwrites any prior value. -/
def Store.put {α : Type} (s : Store α) (id : String) (v : α) : Store α :=
  fun k => if k = id then some v else s k

/-- The world a handler runs in. -/
structure World (σ : Type) where
  ext : σ
  sends : Store InlineSend
  receives : Store InlineReceive
  faucets : Store InlineFaucet
  pays : Store PayData
  auths : Store LnurlAuthState
  lnurlPays : Store LnurlPayState
  log : List Event

/-- Append one call to the log. -/
def World.emit {σ : Type} (w : World σ) (e : Event) : World σ :=
  { w with log := w.log ++ [e] }

/-- Replace the collaborators' state. -/
def World.withExt {σ : Type} (w : World σ) (s : σ) : World σ :=
  { w with ext := s }

/-! ## users.go -/

/-- Go `GetUserStr`: "@username", else the first name, else the numeric ID. -/
def GetUserStr (user : TgUser) : String :=
  let userStr := "@" ++ user.Username
  if userStr.utf8ByteSize < 2 ∧ user.FirstName ≠ "" then user.FirstName
  else if userStr.utf8ByteSize < 2 then toString user.ID
  else userStr

/-- Go `GetUserStrMd`: the Markdown form of `GetUserStr`. -/
def GetUserStrMd {σ : Type} (env : Env σ) (user : TgUser) : String :=
  let userStr := "@" ++ user.Username
  if userStr.utf8ByteSize < 2 ∧ user.FirstName ≠ "" then
    "[" ++ user.FirstName ++ "](tg://user?id=" ++ toString user.ID ++ ")"
  else if userStr.utf8ByteSize < 2 then
    "[" ++ toString user.ID ++ "](tg://user?id=" ++ toString user.ID ++ ")"
  else env.MarkdownEscape userStr

/-- Go `bot.GetUserBalance`: the Go pair `(amount, err)`, the user as mutated through the
pointer (`user.Wallet.Balance`), and the world. Every error return leaves `amount = 0`. -/
def GetUserBalance {σ : Type} (env : Env σ) (user : User) (w : World σ) :
    (Int × Option GoError) × User × World σ :=
  match user.Wallet with
  | none => ((0, some (.text "User has no wallet")), user, w)
  | some wal =>
    let w1 := w.emit (.info wal.ID)
    match env.ClientInfo wal w1.ext with
    | (.error e, s) => ((0, some e), user, w1.withExt s)
    | (.ok wallet, s) =>
      let user1 := { user with Wallet := some { wal with Balance := wallet.Balance } }
      let w2 := (w1.withExt s).emit (.updateUser user1.Name)
      match env.UpdateUserRecord user1 w2.ext with
      | (some e, s2) => ((0, some e), user1, w2.withExt s2)
      | (none, s2) =>
        let amount := Int.tdiv wallet.Balance 1000
        let w3 := (w2.withExt s2).emit (.cacheSet (user1.Name ++ "_balance") amount)
        ((amount, none), user1, w3.withExt (env.CacheSet (user1.Name ++ "_balance") amount w3.ext))

/-- Go `bot.GetUserBalanceCached`: the cached figure when there is one, else a fresh query. -/
def GetUserBalanceCached {σ : Type} (env : Env σ) (user : User) (w : World σ) :
    (Int × Option GoError) × User × World σ :=
  match env.CacheGet (user.Name ++ "_balance") w.ext with
  | none => GetUserBalance env user w
  | some cachedBalance => ((cachedBalance, none), user, w)

/-- Go `bot.UserExists`: whether the user database knows the Telegram user. -/
def UserExists {σ : Type} (env : Env σ) (user : TgUser) (w : World σ) :
    Option User × World σ :=
  match env.GetUser user w.ext with
  | (.error _, s) => (none, w.withExt s)
  | (.ok lnbitUser, s) => (some lnbitUser, w.withExt s)

/-- Go `bot.CreateWalletForTelegramUser`; only the error and the user returned on success
are used by the callers. -/
def CreateWalletForTelegramUser {σ : Type} (env : Env σ) (tbUser : TgUser) (w : World σ) :
    Except GoError User × World σ :=
  match UserExists env tbUser w with
  | (some _, w1) => (.error (.text "user already exists"), w1)
  | (none, w1) =>
    let user : User :=
      { ID := "", Name := "", Initialized := false, Telegram := tbUser, Wallet := none,
        StateKey := 0, StateData := "" }
    match env.createWallet user w1.ext with
    | ((some e, _), s) => (.error e, w1.withExt s)
    | ((none, created), s) =>
      -- `createWallet` fills in the wallet fields of the struct it is handed
      let user1 := { created with Telegram := tbUser }
      let w2 := (w1.withExt s).emit (.updateUser user1.Name)
      match env.UpdateUserRecord user1 w2.ext with
      | (some e, s2) => (.error e, w2.withExt s2)
      | (none, s2) => (.ok user1, w2.withExt s2)

/-- Go `ResetUserState`: `user.ResetState()` followed by `UpdateUserRecord`. -/
def ResetUserState {σ : Type} (env : Env σ) (user : User) (w : World σ) : User × World σ :=
  let user1 := { user with StateKey := 0, StateData := "" }
  let w1 := w.emit (.updateUser user1.Name)
  (user1, w1.withExt (env.UpdateUserRecord user1 w1.ext).2)

/-- Go `SetUserState`: set the state key and data of the user, then `UpdateUserRecord`. -/
def SetUserState {σ : Type} (env : Env σ) (user : User) (stateKey : Nat) (stateData : String)
    (w : World σ) : User × World σ :=
  let user1 := { user with StateKey := stateKey, StateData := stateData }
  let w1 := w.emit (.updateUser user1.Name)
  (user1, w1.withExt (env.UpdateUserRecord user1 w1.ext).2)

/-! ## transaction.go -/

/-- Go `NewTransaction` with the option `TransactionType(transactionType)`. -/
def NewTransaction (src dst : User) (amount : Int) (transactionType : String) : Transaction :=
  { From := src, To := dst,
    FromUser := GetUserStr src.Telegram, ToUser := GetUserStr dst.Telegram,
    FromId := src.Telegram.ID, ToId := dst.Telegram.ID,
    Amount := amount, Memo := "Powered by @LightningTipBot", Success := false,
    TxType := transactionType, ChatID := 0, ChatName := "",
    FromWallet := "", ToWallet := "", FromLNbitsID := "", ToLNbitsID := "",
    Invoice := { PaymentHash := "", PaymentRequest := "" } }

/-- The part of `Transaction.SendTransaction` after the balance check (lines 108-147):
invoice on the wallet of `dst`, payment from the wallet of `src`, balance refresh. -/
def SendTransaction.transfer {σ : Type} (env : Env σ) (t : Transaction) (src dst : User)
    (fromWal : Wallet) (amount : Int) (memo : String) (w : World σ) :
    Ret (Bool × Option GoError) × Transaction × User × User × World σ :=
  let t1 := { t with ToWallet := dst.ID, ToLNbitsID := dst.ID }
  match dst.Wallet with
  | none => (.panicked, t1, src, dst, w)
  | some toWal =>
    let params : InvoiceParams := { Amount := amount, Out := false, Memo := memo }
    let w1 := w.emit (.invoice toWal.ID params)
    match env.WalletInvoice toWal params w1.ext with
    | (.error e, s) => (.value (false, some e), t1, src, dst, w1.withExt s)
    | (.ok invoice, s) =>
      let t2 := { t1 with Invoice := invoice }
      let pay : PaymentParams := { Out := true, Bolt11 := invoice.PaymentRequest }
      let w2 := (w1.withExt s).emit (.pay fromWal.ID pay)
      match env.WalletPay fromWal pay w2.ext with
      | (.error e, s2) => (.value (false, some e), t2, src, dst, w2.withExt s2)
      | (.ok _, s2) =>
        match GetUserBalance env src (w2.withExt s2) with
        | ((_, some e), src1, w3) => (.value (false, some e), t2, src1, dst, w3)
        | ((_, none), src1, w3) =>
          match GetUserBalance env dst w3 with
          | ((_, some e), dst1, w4) => (.value (false, some e), t2, src1, dst1, w4)
          | ((_, none), dst1, w4) => (.value (true, none), t2, src1, dst1, w4)

/-- Go `Transaction.SendTransaction`: the Go pair `(success, err)` or a panic, the
transaction, `src` and `dst` as mutated through their pointers, and the world. -/
def SendTransaction {σ : Type} (env : Env σ) (t : Transaction) (src dst : User)
    (amount : Int) (memo : String) (w : World σ) :
    Ret (Bool × Option GoError) × Transaction × User × User × World σ :=
  match src.Wallet with
  | none => (.panicked, t, src, dst, w)
  | some fromWal0 =>
    let t1 := { t with FromWallet := fromWal0.ID, FromLNbitsID := src.ID }
    match GetUserBalance env src w with
    | ((_, some e), src1, w1) => (.value (false, some e), t1, src1, dst, w1)
    | ((balance, none), src1, w1) =>
      if balance < amount then
        (.value (false, some (.text "balance too low.")), t1, src1, dst, w1)
      else
        -- `from.Wallet` is the pointer dereferenced above, its balance refreshed by the query
        SendTransaction.transfer env t1 src1 dst (src1.Wallet.getD fromWal0) amount memo w1

/-- Go `Transaction.Send`: run `SendTransaction` on the transaction's own fields, set
`Success` when it succeeded, save the record; formatting the log line for a failed save
dereferences `err`. `From` and `To` alias the users handed to `SendTransaction`. -/
def Send {σ : Type} (env : Env σ) (t : Transaction) (w : World σ) :
    Ret (Bool × Option GoError) × Transaction × World σ :=
  match SendTransaction env t t.From t.To t.Amount t.Memo (w.emit (.send t)) with
  | (.panicked, t1, src, dst, w1) => (.panicked, { t1 with From := src, To := dst }, w1)
  | (.value (success, err), t1, src, dst, w1) =>
    let t2 := { t1 with From := src, To := dst }
    let t3 := if success then { t2 with Success := success } else t2
    let w2 := w1.emit (.txSave t3)
    match env.TransactionsSave t3 w2.ext with
    | (none, s) => (.value (success, err), t3, w2.withExt s)
    | (some _, s) =>
      match err with
      | none => (.panicked, t3, w2.withExt s)
      | some _ => (.value (success, err), t3, w2.withExt s)

/-! ## Persisting intents -/

/-- Modelled from the spec: the error that a write under `id` returns in this world, nil
when the write succeeds. -/
def World.saveError {σ : Type} (env : Env σ) (w : World σ) (id : String) : Option GoError :=
  env.StoreSet w.log id

/-- Go `Set` on an `InlineSend`: store it under its ID, unless the write fails. -/
def World.setSend {σ : Type} (env : Env σ) (w : World σ) (v : InlineSend) : World σ :=
  { w with
    sends := match w.saveError env v.ID with
      | none => w.sends.put v.ID v
      | some _ => w.sends
    log := w.log ++ [.save v.ID] }

/-- Go `Set` on an `InlineReceive`: store it under its ID, unless the write fails. -/
def World.setReceive {σ : Type} (env : Env σ) (w : World σ) (v : InlineReceive) : World σ :=
  { w with
    receives := match w.saveError env v.ID with
      | none => w.receives.put v.ID v
      | some _ => w.receives
    log := w.log ++ [.save v.ID] }

/-- Go `Set` on an `InlineFaucet`: store it under its ID, unless the write fails. -/
def World.setFaucet {σ : Type} (env : Env σ) (w : World σ) (v : InlineFaucet) : World σ :=
  { w with
    faucets := match w.saveError env v.ID with
      | none => w.faucets.put v.ID v
      | some _ => w.faucets
    log := w.log ++ [.save v.ID] }

/-- Go `Set` on a `PayData`: store it under its ID, unless the write fails. -/
def World.setPay {σ : Type} (env : Env σ) (w : World σ) (v : PayData) : World σ :=
  { w with
    pays := match w.saveError env v.ID with
      | none => w.pays.put v.ID v
      | some _ => w.pays
    log := w.log ++ [.save v.ID] }

/-- The first `Set` of a `PayData` just built with `storage.New`: store it under its ID,
unless the write fails. -/
def World.createPay {σ : Type} (env : Env σ) (w : World σ) (v : PayData) : World σ :=
  { w with
    pays := match w.saveError env v.ID with
      | none => w.pays.put v.ID v
      | some _ => w.pays
    log := w.log ++ [.create v.ID] }

/-- Go `Set` on an `LnurlAuthState`: store it under its ID, unless the write fails. -/
def World.setAuth {σ : Type} (env : Env σ) (w : World σ) (v : LnurlAuthState) : World σ :=
  { w with
    auths := match w.saveError env v.ID with
      | none => w.auths.put v.ID v
      | some _ => w.auths
    log := w.log ++ [.save v.ID] }

/-- Go `Set` on an `LnurlPayState`: store it under its ID, unless the write fails. -/
def World.setLnurlPay {σ : Type} (env : Env σ) (w : World σ) (v : LnurlPayState) : World σ :=
  { w with
    lnurlPays := match w.saveError env v.ID with
      | none => w.lnurlPays.put v.ID v
      | some _ => w.lnurlPays
    log := w.log ++ [.save v.ID] }

/-- Go `int64` / `int` arithmetic wraps around. -/
def wrapInt64 (x : Int) : Int :=
  (x + 2 ^ 63) % 2 ^ 64 - 2 ^ 63

/-! ## inline_send.go -/

/-- Lines 225-258 of `acceptInlineSendHandler`: deactivate, send, report. `dst` is the
receiving user after the wallet check; `aliased` tells whether `inlineSend.To` and `dst`
are the same Go struct, so that the balance refresh inside `Send` reaches the intent. -/
def acceptInlineSendHandler.execute {σ : Type} (env : Env σ) (inlineSend : InlineSend)
    (dst : User) (aliased : Bool) (w : World σ) :
    Ret (Option GoError) × InlineSend × World σ :=
  let fromUser := inlineSend.From
  let amount := inlineSend.Amount
  let toUserStrMd := GetUserStrMd env dst.Telegram
  let fromUserStrMd := GetUserStrMd env fromUser.Telegram
  let toUserStr := GetUserStr dst.Telegram
  let fromUserStr := GetUserStr fromUser.Telegram
  -- set inactive to avoid double-sends
  let inlineSend1 := { inlineSend with Active := false }
  let w1 := w.setSend env inlineSend1
  let transactionMemo := "💸 Send from " ++ fromUserStr ++ " to " ++ toUserStr ++ "."
  let t := { NewTransaction fromUser dst amount "inline send" with Memo := transactionMemo }
  match Send env t w1 with
  | (.panicked, t1, w2) =>
    (.panicked, { inlineSend1 with From := t1.From, To := if aliased then t1.To else inlineSend1.To }, w2)
  | (.value (success, err), t1, w2) =>
    let inlineSend2 :=
      { inlineSend1 with From := t1.From, To := if aliased then t1.To else inlineSend1.To }
    if !success then
      match err with
      | none => (.panicked, inlineSend2, w2)
      | some _ =>
        (.value (some (.create .UnknownError)), inlineSend2, w2.emit (.edit "inlineSendFailedMessage"))
    else
      let message := env.Render inlineSend2.LanguageCode "inlineSendUpdateMessageAccept"
        [toString amount, fromUserStrMd, toUserStrMd]
      let message1 :=
        if inlineSend2.Memo.utf8ByteSize > 0 then
          message ++ env.Render inlineSend2.LanguageCode "inlineSendAppendMemo" [inlineSend2.Memo]
        else message
      let message2 :=
        if !dst.Initialized then
          message1 ++ "\n\n" ++ env.Render inlineSend2.LanguageCode "inlineSendCreateWalletMessage" []
        else message1
      let w3 := ((w2.emit (.edit "inlineSendUpdateMessageAccept")).emit
        (.message dst.Telegram.ID "sendReceivedMessage")).emit
        (.message fromUser.Telegram.ID "sendSentMessage")
      (.value none, { inlineSend2 with Message := message2 }, w3)

/-- Lines 191-258 of `acceptInlineSendHandler`, run between `defer inlineSend.Set` and the
deferred calls: returns the result and the intent as the deferred `Set` will find it. -/
def acceptInlineSendHandler.body {σ : Type} (env : Env σ) (ctx : Ctx) (inlineSend : InlineSend)
    (w : World σ) : Ret (Option GoError) × InlineSend × World σ :=
  let dst := ctx.User
  let fromUser := inlineSend.From
  -- check if this payment goes to a specific user
  if inlineSend.To_SpecificUser ∧ inlineSend.To.Telegram.ID ≠ dst.Telegram.ID then
    (.value (some (.create .UnknownError)), inlineSend, w)
  else
    -- otherwise, we just set it to the user who has clicked
    let inlineSend1 := if inlineSend.To_SpecificUser then inlineSend else { inlineSend with To := dst }
    if fromUser.Telegram.ID = dst.Telegram.ID then
      (.value (some (.create .UnknownError)), inlineSend1,
        w.emit (.message fromUser.Telegram.ID "sendYourselfMessage"))
    else
      -- check if user exists and create a wallet if not
      match UserExists env dst.Telegram w with
      | (some _, w1) =>
        acceptInlineSendHandler.execute env inlineSend1 dst (!inlineSend.To_SpecificUser) w1
      | (none, w1) =>
        match CreateWalletForTelegramUser env dst.Telegram w1 with
        | (.error e, w2) => (.value (some e), inlineSend1, w2)
        | (.ok dst1, w2) => acceptInlineSendHandler.execute env inlineSend1 dst1 false w2

/-- Go `acceptInlineSendHandler`: lock the ID, load, reject an inactive intent, run the
body, then the deferred `Set` and the deferred unlock (both also run on a panic). -/
def acceptInlineSendHandler {σ : Type} (env : Env σ) (ctx : Ctx) (w : World σ) :
    Ret (Option GoError) × World σ :=
  let w0 := w.emit (.lock ctx.Data)
  match w0.sends.Get ctx.Data with
  | .error e => (.value (some e), w0.emit (.unlock ctx.Data))
  | .ok inlineSend =>
    if !inlineSend.Active then
      (.value (some (.create .NotActiveError)), w0.emit (.unlock ctx.Data))
    else
      match acceptInlineSendHandler.body env ctx inlineSend w0 with
      | (r, inlineSend1, w1) => (r, (w1.setSend env inlineSend1).emit (.unlock ctx.Data))

/-- Go `cancelInlineSendHandler`: lock, load, let only the sender through, then `Set` the
intent with `Active = false` and return the error of that `Set`. -/
def cancelInlineSendHandler {σ : Type} (env : Env σ) (ctx : Ctx) (w : World σ) :
    Ret (Option GoError) × World σ :=
  let w0 := w.emit (.lock ctx.Data)
  match w0.sends.Get ctx.Data with
  | .error e => (.value (some e), w0.emit (.unlock ctx.Data))
  | .ok inlineSend =>
    if ctx.Sender.ID ≠ inlineSend.From.Telegram.ID then
      (.value (some (.create .UnknownError)), w0.emit (.unlock ctx.Data))
    else
      let w1 := w0.emit (.edit "sendCancelledMessage")
      -- set the inlineSend inactive
      let inlineSend1 := { inlineSend with Active := false }
      (.value (w1.saveError env inlineSend1.ID),
        (w1.setSend env inlineSend1).emit (.unlock ctx.Data))

/-! ## faucet.go -/

/-- Go `createFaucet`: decode the amount and the amount per user, check them and the balance
of the creator, and build the faucet (not stored yet). Go evaluates
`amount % perUserAmount` only if `perUserAmount >= 5`. The language of the context is
taken to be the sender's; `storage.New` gives `Active = true`. -/
def createFaucet {σ : Type} (env : Env σ) (ctx : Ctx) (text : String) (sender : TgUser)
    (w : World σ) : Ret (Except GoError InlineFaucet) × World σ :=
  match env.decodeAmountFromCommand text with
  | .error e => (.value (.error (.wrap .DecodeAmountError e)), w)
  | .ok amount =>
    match env.getArgumentFromCommand text 2 with
    | .error e => (.value (.error (.wrap .DecodePerUserAmountError e)), w)
    | .ok peruserStr =>
      match env.GetAmount peruserStr with
      | .error e => (.value (.error (.wrap .InvalidAmountError e)), w)
      | .ok perUserAmount =>
        if perUserAmount < 5 then
          (.value (.error (.wrap .InvalidAmountPerUserError (.text "invalid amount per user"))), w)
        else
          match goRem amount perUserAmount with
          | .panicked => (.panicked, w)
          | .value r =>
            if r ≠ 0 then
              (.value (.error (.wrap .InvalidAmountPerUserError (.text "invalid amount per user"))),
                w)
            else
              match goQuo amount perUserAmount with
              | .panicked => (.panicked, w)
              | .value nTotal =>
                let fromUserStr := GetUserStr sender
                match GetUserBalance env ctx.User w with
                | ((_, some e), _, w1) => (.value (.error (.wrap .GetBalanceError e)), w1)
                | ((balance, none), fromUser, w1) =>
                  -- check if fromUser has balance
                  if balance < amount then
                    (.value (.error (.wrap .BalanceToLowError
                      (.text ("[faucet] Balance of user " ++ fromUserStr ++ " too low")))), w1)
                  else
                    -- check for memo in command
                    let memo := env.GetMemoFromCommand text 3
                    let inlineMessage := env.Render sender.LanguageCode "inlineFaucetMessage"
                      [toString perUserAmount, GetUserStrMd env sender, toString amount,
                       toString amount, "0", toString nTotal, env.MakeProgressbar amount amount]
                    let inlineMessage1 :=
                      if memo.utf8ByteSize > 0 then
                        inlineMessage ++ env.Render sender.LanguageCode "inlineFaucetAppendMemo" [memo]
                      else inlineMessage
                    match env.RandStringRunes 10 w1.ext with
                    | (rand, s) =>
                      let id := "faucet:" ++ rand ++ ":" ++ toString amount
                      (.value (.ok
                        { ID := id, Active := true, Canceled := false, Message := inlineMessage1,
                          Amount := amount, From := fromUser, Memo := memo,
                          PerUserAmount := perUserAmount, NTotal := nTotal, NTaken := 0,
                          RemainingAmount := amount, To := [], UserNeedsWallet := false,
                          LanguageCode := sender.LanguageCode }), w1.withExt s)

/-- Go `finishFaucet`: write the closing message, tell the creator who took from the faucet
if it was still active, and set `Active = false` on the struct (the caller saves, or not). -/
def finishFaucet {σ : Type} (env : Env σ) (inlineFaucet : InlineFaucet) (w : World σ) :
    InlineFaucet × World σ :=
  let message := env.Render inlineFaucet.LanguageCode "inlineFaucetEndedMessage"
    [toString inlineFaucet.Amount, toString inlineFaucet.NTaken]
  let message1 :=
    if inlineFaucet.UserNeedsWallet then
      message ++ "\n\n" ++ env.Render inlineFaucet.LanguageCode "inlineFaucetCreateWalletMessage" []
    else message
  let w1 := w.emit (.edit "inlineFaucetEndedMessage")
  -- send update to faucet creator
  let w2 :=
    if inlineFaucet.Active ∧ inlineFaucet.From.Telegram.ID ≠ 0 then
      w1.emit (.message inlineFaucet.From.Telegram.ID "listFaucetTakers")
    else w1
  ({ inlineFaucet with Message := message1, Active := false }, w2)

/-- Lines 304-353 of `acceptInlineFaucetHandler`: one claim by `dst`, once `dst` is known
to have a wallet. -/
def acceptInlineFaucetHandler.claim {σ : Type} (env : Env σ) (inlineFaucet : InlineFaucet)
    (dst : User) (w : World σ) : Ret (Option GoError) × InlineFaucet × World σ :=
  let src := inlineFaucet.From
  let toUserStr := GetUserStr dst.Telegram
  let fromUserStr := GetUserStr src.Telegram
  let inlineFaucet1 :=
    if !dst.Initialized then { inlineFaucet with UserNeedsWallet := true } else inlineFaucet
  let transactionMemo := "🚰 Faucet from " ++ fromUserStr ++ " to " ++ toUserStr ++ "."
  let t := { NewTransaction src dst inlineFaucet1.PerUserAmount "faucet" with Memo := transactionMemo }
  match Send env t w with
  | (.panicked, t1, w1) => (.panicked, { inlineFaucet1 with From := t1.From }, w1)
  | (.value (success, err), t1, w1) =>
    let inlineFaucet2 := { inlineFaucet1 with From := t1.From }
    if !success then
      match err with
      | none => (.panicked, inlineFaucet2, w1)
      | some e =>
        -- if faucet fails, cancel it
        match finishFaucet env inlineFaucet2 w1 with
        | (inlineFaucet3, w2) => (.value (some (.wrap .UnknownError e)), inlineFaucet3, w2)
    else
      let inlineFaucet3 :=
        { inlineFaucet2 with
          NTaken := wrapInt64 (inlineFaucet2.NTaken + 1)
          To := inlineFaucet2.To ++ [t1.To]
          RemainingAmount := wrapInt64 (inlineFaucet2.RemainingAmount - inlineFaucet2.PerUserAmount) }
      let w2 := (w1.emit (.goMessage dst.Telegram.ID "inlineFaucetReceivedMessage")).emit
        (.goMessage src.Telegram.ID "inlineFaucetSentMessage")
      -- build faucet message
      let message := env.Render inlineFaucet3.LanguageCode "inlineFaucetMessage"
        [toString inlineFaucet3.PerUserAmount, GetUserStrMd env inlineFaucet3.From.Telegram,
         toString inlineFaucet3.RemainingAmount, toString inlineFaucet3.Amount,
         toString inlineFaucet3.NTaken, toString inlineFaucet3.NTotal]
      let message1 :=
        if inlineFaucet3.Memo.utf8ByteSize > 0 then
          message ++ env.Render inlineFaucet3.LanguageCode "inlineFaucetAppendMemo" [inlineFaucet3.Memo]
        else message
      let message2 :=
        if inlineFaucet3.UserNeedsWallet then
          message1 ++ "\n\n" ++ env.Render inlineFaucet3.LanguageCode "inlineFaucetCreateWalletMessage" []
        else message1
      let inlineFaucet4 := { inlineFaucet3 with Message := message2 }
      -- update the message if the faucet still has some sats left after this tx
      let w3 :=
        if inlineFaucet4.RemainingAmount ≥ inlineFaucet4.PerUserAmount then
          w2.emit (.edit "inlineFaucetMessage")
        else w2
      (.value none, inlineFaucet4, w3)

/-- Lines 355-360 of `acceptInlineFaucetHandler`: finish the faucet if less than one share
is left, and return nil. -/
def acceptInlineFaucetHandler.finish {σ : Type} (env : Env σ) (inlineFaucet : InlineFaucet)
    (w : World σ) : Ret (Option GoError) × InlineFaucet × World σ :=
  if inlineFaucet.RemainingAmount < inlineFaucet.PerUserAmount then
    -- faucet is depleted
    match finishFaucet env inlineFaucet w with
    | (inlineFaucet1, w1) => (.value none, inlineFaucet1, w1)
  else (.value none, inlineFaucet, w)

/-- A claim followed, unless it returned early, by the closing lines 355-360. -/
def acceptInlineFaucetHandler.claimAndFinish {σ : Type} (env : Env σ)
    (inlineFaucet : InlineFaucet) (dst : User) (w : World σ) :
    Ret (Option GoError) × InlineFaucet × World σ :=
  match acceptInlineFaucetHandler.claim env inlineFaucet dst w with
  | (.value none, inlineFaucet1, w1) => acceptInlineFaucetHandler.finish env inlineFaucet1 w1
  | other => other

/-- Lines 288-360 of `acceptInlineFaucetHandler`, run between `defer inlineFaucet.Set` and
the deferred calls: returns the result and the faucet as the deferred `Set` will find it. -/
def acceptInlineFaucetHandler.body {σ : Type} (env : Env σ) (ctx : Ctx)
    (inlineFaucet : InlineFaucet) (w : World σ) :
    Ret (Option GoError) × InlineFaucet × World σ :=
  let dst := ctx.User
  if inlineFaucet.RemainingAmount ≥ inlineFaucet.PerUserAmount then
    -- check if user exists and create a wallet if not
    match UserExists env dst.Telegram w with
    | (some _, w1) => acceptInlineFaucetHandler.claimAndFinish env inlineFaucet dst w1
    | (none, w1) =>
      match CreateWalletForTelegramUser env dst.Telegram w1 with
      | (.error e, w2) => (.value (some e), inlineFaucet, w2)
      | (.ok dst1, w2) => acceptInlineFaucetHandler.claimAndFinish env inlineFaucet dst1 w2
  else acceptInlineFaucetHandler.finish env inlineFaucet w

/-- Go `acceptInlineFaucetHandler`: lock, load, reject an inactive faucet, the creator and a
repeated claimant, then run the body under the deferred `Set` and unlock. -/
def acceptInlineFaucetHandler {σ : Type} (env : Env σ) (ctx : Ctx) (w : World σ) :
    Ret (Option GoError) × World σ :=
  let dst := ctx.User
  let w0 := w.emit (.lock ctx.Data)
  match w0.faucets.Get ctx.Data with
  | .error e => (.value (some e), w0.emit (.unlock ctx.Data))
  | .ok inlineFaucet =>
    let src := inlineFaucet.From
    -- failsafe for queued users
    if !inlineFaucet.Active then
      match finishFaucet env inlineFaucet w0 with
      | (_, w1) => (.value (some (.create .NotActiveError)), w1.emit (.unlock ctx.Data))
    else if src.Telegram.ID = dst.Telegram.ID then
      (.value (some (.create .SelfPaymentError)), w0.emit (.unlock ctx.Data))
    -- check if to user has already taken from the faucet
    else if inlineFaucet.To.any (fun a => a.Telegram.ID == dst.Telegram.ID) then
      (.value (some (.create .UnknownError)), w0.emit (.unlock ctx.Data))
    else
      match acceptInlineFaucetHandler.body env ctx inlineFaucet w0 with
      | (r, inlineFaucet1, w1) => (r, (w1.setFaucet env inlineFaucet1).emit (.unlock ctx.Data))

/-- Go `cancelInlineFaucet`: the creator (or anyone when `ignoreID`) ends the faucet: `Set`
with `Active = false` and `Canceled = true`; an error of that `Set` is returned. -/
def cancelInlineFaucet {σ : Type} (env : Env σ) (ctx : Ctx) (ignoreID : Bool) (w : World σ) :
    Ret (Option GoError) × World σ :=
  let w0 := w.emit (.lock ctx.Data)
  match w0.faucets.Get ctx.Data with
  | .error e => (.value (some e), w0.emit (.unlock ctx.Data))
  | .ok inlineFaucet =>
    if ignoreID ∨ ctx.Sender.ID = inlineFaucet.From.Telegram.ID then
      let w1 := w0.emit (.edit "inlineFaucetCancelledMessage")
      -- set the inlineFaucet inactive
      let inlineFaucet1 := { inlineFaucet with Active := false, Canceled := true }
      -- the error of `Set` is returned; without one the handler returns nil
      (.value (w1.saveError env inlineFaucet1.ID),
        (w1.setFaucet env inlineFaucet1).emit (.unlock ctx.Data))
    else (.value none, w0.emit (.unlock ctx.Data))

/-! ## pay.go -/

/-- Lines 186-259 of `confirmPayHandler`, run between `defer payData.Set` and the deferred
calls. The success-action messages (not kept in this `PayData`) are left out. -/
def confirmPayHandler.body {σ : Type} (env : Env σ) (ctx : Ctx) (payData : PayData)
    (w : World σ) : Ret (Option GoError) × PayData × World σ :=
  let user := ctx.User
  match user.Wallet with
  | none => (.value (some (.create .UserNoWalletError)), payData, w.emit .delete)
  | some wal =>
    -- reset state immediately
    match ResetUserState env user w with
    | (user1, w1) =>
      -- update button text
      let w2 := w1.emit (.edit "lnurlGettingUserMessage")
      -- pay invoice
      let params : PaymentParams := { Out := true, Bolt11 := payData.Invoice }
      let w3 := w2.emit (.pay wal.ID params)
      match env.WalletPay wal params w3.ext with
      | (.error _, s) =>
        let err := GoError.text (env.Render payData.LanguageCode "invoiceUndefinedErrorMessage" [])
        (.value (some err), payData, (w3.withExt s).emit (.edit "invoicePaymentFailedMessage"))
      | (.ok invoice, s) =>
        let payData1 := { payData with Hash := invoice.PaymentHash }
        -- do balance check for keyboard update
        match GetUserBalance env user1 (w3.withExt s) with
        | (_, _, w4) =>
          let w5 :=
            if ctx.Private then
              (w4.emit .delete).emit (.message ctx.Sender.ID "invoicePaidMessage")
            else
              (w4.emit (.message ctx.Sender.ID "invoicePaidMessage")).emit
                (.edit "invoicePublicPaidMessage")
          (.value none, payData1, w5)

/-- Go `confirmPayHandler`: lock, load, let only the originator through, reject an inactive
intent, then run the body under the deferred `Set` and unlock. -/
def confirmPayHandler {σ : Type} (env : Env σ) (ctx : Ctx) (w : World σ) :
    Ret (Option GoError) × World σ :=
  let w0 := w.emit (.lock ctx.Data)
  match w0.pays.Get ctx.Data with
  | .error e => (.value (some e), w0.emit (.unlock ctx.Data))
  | .ok payData =>
    -- only the correct user can press
    if payData.From.Telegram.ID ≠ ctx.Sender.ID then
      (.value (some (.create .UnknownError)), w0.emit (.unlock ctx.Data))
    else if !payData.Active then
      (.value (some (.create .NotActiveError)),
        ((w0.emit (.edit "errorTryLaterMessage")).emit .delete).emit (.unlock ctx.Data))
    else
      match confirmPayHandler.body env ctx payData w0 with
      | (r, payData1, w1) => (r, (w1.setPay env payData1).emit (.unlock ctx.Data))

/-- Go `cancelPaymentHandler`: reset the user state, lock, load, let only the originator
through, then return the error of `Inactivate`. -/
def cancelPaymentHandler {σ : Type} (env : Env σ) (ctx : Ctx) (w : World σ) :
    Ret (Option GoError) × World σ :=
  match ResetUserState env ctx.User w with
  | (_, w0) =>
    let w1 := w0.emit (.lock ctx.Data)
    match w1.pays.Get ctx.Data with
    | .error e => (.value (some e), w1.emit (.unlock ctx.Data))
    | .ok payData =>
      if payData.From.Telegram.ID ≠ ctx.Sender.ID then
        (.value (some (.create .UnknownError)), w1.emit (.unlock ctx.Data))
      else
        let w2 := (w1.emit .delete).emit (.message ctx.Chat "paymentCancelledMessage")
        let payData1 := { payData with Active := false }
        (.value (w2.saveError env payData1.ID),
          (w2.setPay env payData1).emit (.unlock ctx.Data))

/-- Go `strings.TrimPrefix`. -/
def TrimPrefix (s pre : String) : String :=
  if HasPrefix s pre then s.drop pre.length else s

/-- Go `payHandler`, invoked on "/pay lnbc...": decode the invoice, check the amount against
the balance, show the confirmation and store a new `PayData`. The fee-reserve comparison
is taken on the integers (it only chooses whether a warning is sent);
`NewMessage(m, WithDuration(0, bot))` is logged as the deletion of the command message.
The language of the context is taken to be the sender's; the success action of the context
is not kept in this `PayData`. -/
def payHandler {σ : Type} (env : Env σ) (ctx : Ctx) (w : World σ) :
    Ret (Option GoError) × World σ :=
  -- check and print all commands
  let w0 := w.withExt (env.anyTextHandler ctx w.ext)
  let user := ctx.User
  match user.Wallet with
  | none => (.value (some (.create .UserNoWalletError)), w0)
  | some _ =>
    if (Split ctx.Text ' ').length < 2 then
      (.value (some (.create .InvalidSyntaxError)),
        (w0.emit .delete).emit (.message ctx.Sender.ID "payHelpText"))
    else
      match env.getArgumentFromCommand ctx.Text 1 with
      | .error e =>
        (.value (some (.wrap .InvalidSyntaxError e)),
          (w0.emit .delete).emit (.message ctx.Sender.ID "payHelpText"))
      | .ok arg =>
        -- get rid of the URI prefix
        let paymentRequest := TrimPrefix (env.ToLower arg) "lightning:"
        -- decode invoice
        match env.Decodepay paymentRequest with
        | .error e =>
          (.value (some (.wrap .InvalidSyntaxError e)),
            w0.emit (.message ctx.Sender.ID "payHelpText"))
        | .ok bolt11 =>
          let amount := Int.tdiv bolt11.MSatoshi 1000
          if amount ≤ 0 then
            (.value (some (.create .InvalidAmountError)),
              w0.emit (.message ctx.Sender.ID "invoiceNoAmountMessage"))
          else
            -- check user balance first
            match GetUserBalance env user w0 with
            | ((_, some e), _, w1) =>
              (.value (some (.wrap .GetBalanceError e)),
                (w1.emit .delete).emit (.message ctx.Sender.ID "errorTryLaterMessage"))
            | ((balance, none), user1, w1) =>
              if amount > balance then
                (.value (some (.create .InvalidSyntaxError)),
                  (w1.emit .delete).emit (.message ctx.Sender.ID "insufficientFundsMessage"))
              else
                -- send warning that the invoice might fail due to missing fee reserve
                let w2 :=
                  if amount * 100 > balance * 98 then
                    w1.emit (.message ctx.Sender.ID "feeReserveMessage")
                  else w1
                let confirmText := env.Render ctx.Sender.LanguageCode "confirmPayInvoiceMessage"
                  [toString amount]
                let confirmText1 :=
                  if bolt11.Description.utf8ByteSize > 0 then
                    confirmText ++ env.Render ctx.Sender.LanguageCode "confirmPayAppendMemo"
                      [env.MarkdownEscape bolt11.Description]
                  else confirmText
                -- object that holds all information about the send payment
                match env.RandStringRunes 5 w2.ext with
                | (rand, s) =>
                  let id := "pay:" ++ toString ctx.Sender.ID ++ "-" ++ toString amount ++ "-" ++ rand
                  let w3 := (w2.withExt s).emit (.message ctx.Chat "confirmPayInvoiceMessage")
                  let payData : PayData :=
                    { ID := id, Active := true, Canceled := false, From := user1,
                      Invoice := paymentRequest, Hash := "", Proof := "",
                      Memo := bolt11.Description, Message := confirmText1, Amount := amount,
                      LanguageCode := ctx.Sender.LanguageCode }
                  -- add result to persistent struct
                  let w4 := w3.createPay env payData
                  match SetUserState env user1 env.UserStateConfirmPayment paymentRequest w4 with
                  | (_, w5) => (.value none, w5)

/-! ## inline_receive.go -/

/-- Go `finishInlineReceiveHandler`: reload the intent and announce the payment; it locks only
when it is given a context (`withCtx`), and it stores nothing. -/
def finishInlineReceiveHandler {σ : Type} (_env : Env σ) (withCtx : Bool) (c : Callback)
    (w : World σ) : Ret (Option GoError) × World σ :=
  let w0 := if withCtx then w.emit (.lock c.Data) else w
  let unlock (w1 : World σ) : World σ := if withCtx then w1.emit (.unlock c.Data) else w1
  match w0.receives.Get c.Data with
  | .error e => (.value (some e), unlock w0)
  | .ok inlineReceive =>
    let src := inlineReceive.From
    let dst := inlineReceive.To
    -- the message text is rebuilt on the loaded copy only and sent, never stored
    let w1 := w0.emit (.edit "inlineSendUpdateMessageAccept")
    -- notify users
    let w2 := (w1.emit (.message dst.Telegram.ID "sendReceivedMessage")).emit
      (.message src.Telegram.ID "sendSentMessage")
    (.value none, unlock w2)

/-- Go `sendInlineReceiveHandler`: the internal transfer for an inline receive; the payer is
the user who pressed. The lock call on the same ID is recorded like any other. -/
def sendInlineReceiveHandler {σ : Type} (env : Env σ) (ctx : Ctx) (w : World σ) :
    Ret (Option GoError) × World σ :=
  let w0 := w.emit (.lock ctx.Data)
  match w0.receives.Get ctx.Data with
  | .error e => (.value (some e), w0.emit (.unlock ctx.Data))
  | .ok inlineReceive =>
    if !inlineReceive.Active then
      (.value (some (.create .NotActiveError)), w0.emit (.unlock ctx.Data))
    else
      let dst := inlineReceive.To
      let toUserStr := GetUserStr dst.Telegram
      let fromUserStr := GetUserStr ctx.User.Telegram
      -- balance check of the user
      match GetUserBalanceCached env ctx.User w0 with
      | ((_, some e), _, w1) => (.value (some e), w1.emit (.unlock ctx.Data))
      | ((balance, none), src, w1) =>
        -- check if fromUser has balance
        if balance < inlineReceive.Amount then
          (.value (some (.create .BalanceToLowError)),
            (w1.emit (.message src.Telegram.ID "inlineSendBalanceLowMessage")).emit (.unlock ctx.Data))
        else
          -- set inactive to avoid double-sends
          let inlineReceive1 := { inlineReceive with Active := false }
          let w2 := w1.setReceive env inlineReceive1
          let transactionMemo := "💸 Receive from " ++ fromUserStr ++ " to " ++ toUserStr ++ "."
          let t := { NewTransaction src dst inlineReceive1.Amount "inline receive" with
            Memo := transactionMemo }
          match Send env t w2 with
          | (.panicked, _, w3) => (.panicked, w3.emit (.unlock ctx.Data))
          | (.value (success, err), t1, w3) =>
            if !success then
              match err with
              | none => (.panicked, w3.emit (.unlock ctx.Data))
              | some _ =>
                (.value (some (.create .UnknownError)),
                  (w3.emit (.edit "inlineReceiveFailedMessage")).emit (.unlock ctx.Data))
            else
              let w4 := w3.setReceive env { inlineReceive1 with To := t1.To }
              match finishInlineReceiveHandler env true { Data := ctx.Data, Sender := some ctx.Sender } w4 with
              | (r, w5) => (r, w5.emit (.unlock ctx.Data))

/-- Go `inlineReceiveInvoice`: show an invoice for the receiver's wallet, to be settled from
outside the bot; the invoice itself is kept by the collaborator. The request is logged as
an invoice request for the receiving user. -/
def inlineReceiveInvoice {σ : Type} (env : Env σ) (ctx : Ctx) (inlineReceive : InlineReceive)
    (w : World σ) : World σ :=
  if !inlineReceive.Active then w
  else
    let memo := "Pay to " ++ GetUserStr inlineReceive.To.Telegram
    let w0 := w.emit
      (.invoice inlineReceive.To.ID { Amount := inlineReceive.Amount, Out := false, Memo := memo })
    match env.createInvoiceWithEvent inlineReceive.To inlineReceive.Amount memo
        inlineReceive.ID w0.ext with
    | (.error _, s) => (w0.withExt s).emit (.edit "errorTryLaterMessage")
    | (.ok invoice, s) =>
      match env.QrEncode invoice.PaymentRequest with
      | some _ => (w0.withExt s).emit (.edit "errorTryLaterMessage")
      | none =>
        ((w0.withExt s).emit (.message ctx.Sender.ID "invoice")).emit (.edit "invoice")

/-- Go `acceptInlineReceiveHandler`: the payer presses; the intent is stored with the payer
and the callback before the self-payment check, then either an invoice is shown or the
internal transfer runs. -/
def acceptInlineReceiveHandler {σ : Type} (env : Env σ) (ctx : Ctx) (w : World σ) :
    Ret (Option GoError) × World σ :=
  let w0 := w.emit (.lock ctx.Data)
  match w0.receives.Get ctx.Data with
  | .error e => (.value (some e), w0.emit (.unlock ctx.Data))
  | .ok inlineReceive =>
    if !inlineReceive.Active then
      (.value (some (.create .NotActiveError)), w0.emit (.unlock ctx.Data))
    else
      -- user `from` is the one who is SENDING, user `to` is the one who is RECEIVING
      let src := ctx.User
      -- check if this payment is requested from a specific user
      if inlineReceive.From_SpecificUser ∧ inlineReceive.From.Telegram.ID ≠ src.Telegram.ID then
        (.value (some (.create .UnknownError)), w0.emit (.unlock ctx.Data))
      else
        -- otherwise, we just set it to the user who has clicked
        let inlineReceive1 :=
          if inlineReceive.From_SpecificUser then inlineReceive else { inlineReceive with From := src }
        let inlineReceive2 :=
          { inlineReceive1 with Message := some { Data := ctx.Data, Sender := some ctx.Sender } }
        let w1 := w0.setReceive env inlineReceive2
        let dst := inlineReceive2.To
        if src.Telegram.ID = dst.Telegram.ID then
          (.value (some (.create .SelfPaymentError)),
            (w1.emit (.message src.Telegram.ID "sendYourselfMessage")).emit (.unlock ctx.Data))
        else
          match GetUserBalance env src w1 with
          | ((balance, _), src1, w2) =>
            if src1.Wallet = none ∨ balance < inlineReceive2.Amount then
              -- if user has no wallet, show invoice
              let w3 := w2.emit (.edit "inlineReceiveMessage")
              (.value (some (.create .BalanceToLowError)),
                (inlineReceiveInvoice env ctx inlineReceive2 w3).emit (.unlock ctx.Data))
            else
              -- else, do an internal transaction
              match sendInlineReceiveHandler env { ctx with User := src1 } w2 with
              | (r, w3) => (r, w3.emit (.unlock ctx.Data))

/-- Go `inlineReceiveEvent`: the invoice of an inline receive was settled from outside; the
callback data of the event is the intent ID, `payee` is the user the event notifies. -/
def inlineReceiveEvent {σ : Type} (env : Env σ) (callbackData : String) (payee : TgUser)
    (w : World σ) : Ret (Option GoError) × World σ :=
  let w1 := (w.emit .delete).emit (.message payee.ID "notifyInvoiceReceivedEvent")
  finishInlineReceiveHandler env false { Data := callbackData, Sender := none } w1

/-- Go `cancelInlineReceiveHandler`: lock, load, let only the receiver through, then `Set`
the intent with `Active = false` and return the error of that `Set`. -/
def cancelInlineReceiveHandler {σ : Type} (env : Env σ) (ctx : Ctx) (w : World σ) :
    Ret (Option GoError) × World σ :=
  let w0 := w.emit (.lock ctx.Data)
  match w0.receives.Get ctx.Data with
  | .error e => (.value (some e), w0.emit (.unlock ctx.Data))
  | .ok inlineReceive =>
    if ctx.Sender.ID ≠ inlineReceive.To.Telegram.ID then
      (.value (some (.create .UnknownError)), w0.emit (.unlock ctx.Data))
    else
      let w1 := w0.emit (.edit "inlineReceiveCancelledMessage")
      -- set the inlineReceive inactive
      let inlineReceive1 := { inlineReceive with Active := false }
      (.value (w1.saveError env inlineReceive1.ID),
        (w1.setReceive env inlineReceive1).emit (.unlock ctx.Data))

/-! ## lnurl-auth.go -/

/-- Go `confirmLnurlAuthHandler`: lock, load, reject an inactive login and a user without
wallet, sign, call the service, and return the error of `Inactivate` after an answer other
than "ERROR". On the answer "ERROR" the handler returns the `err` of the decoding, which is
nil there. -/
def confirmLnurlAuthHandler {σ : Type} (env : Env σ) (ctx : Ctx) (w : World σ) :
    Ret (Option GoError) × World σ :=
  let w0 := w.emit (.lock ctx.Data)
  match w0.auths.Get ctx.Data with
  | .error e => (.value (some e), w0.emit (.unlock ctx.Data))
  | .ok lnurlAuthState =>
    if !lnurlAuthState.Active then
      (.value (some (.text "LnurlAuthData not active.")), w0.emit (.unlock ctx.Data))
    else
      let user := ctx.User
      match user.Wallet with
      | none => (.value (some (.create .UserNoWalletError)), w0.emit (.unlock ctx.Data))
      | some _ =>
        let w1 := w0.emit (.edit "lnurlResolvingUrlMessage")
        -- from fiatjaf/go-lnurl
        let p := lnurlAuthState.LNURLAuthParams
        match env.SignKeyAuth user p.Host p.K1 with
        | .error e => (.value (some e), w1.emit (.unlock ctx.Data))
        | .ok (key, sig) =>
          match env.LnurlAuthCallback p sig key w1.ext with
          | (.error e, s) => (.value (some e), (w1.withExt s).emit (.unlock ctx.Data))
          | (.ok sentsigres, s) =>
            if sentsigres.Status = "ERROR" then
              (.value none,
                ((w1.withExt s).emit (.edit "errorReasonMessage")).emit (.unlock ctx.Data))
            else
              let w2 := (w1.withExt s).emit (.edit "lnurlSuccessfulLogin")
              let lnurlAuthState1 := { lnurlAuthState with Active := false }
              (.value (w2.saveError env lnurlAuthState1.ID),
                (w2.setAuth env lnurlAuthState1).emit (.unlock ctx.Data))

/-- Go `cancelLnurlAuthHandler`: lock, load, let only the originator through, then return
the error of `Inactivate`. -/
def cancelLnurlAuthHandler {σ : Type} (env : Env σ) (ctx : Ctx) (w : World σ) :
    Ret (Option GoError) × World σ :=
  let w0 := w.emit (.lock ctx.Data)
  match w0.auths.Get ctx.Data with
  | .error e => (.value (some e), w0.emit (.unlock ctx.Data))
  | .ok lnurlAuthState =>
    -- only the correct user can press
    if lnurlAuthState.From.Telegram.ID ≠ ctx.Sender.ID then
      (.value (some (.create .UnknownError)), w0.emit (.unlock ctx.Data))
    else
      let w1 := w0.emit (.edit "loginCancelledMessage")
      let lnurlAuthState1 := { lnurlAuthState with Active := false }
      (.value (w1.saveError env lnurlAuthState1.ID),
        (w1.setAuth env lnurlAuthState1).emit (.unlock ctx.Data))

/-! ## lnurl-pay.go -/

/-- Go `lnurlPayHandlerSend`: the user has delivered an amount; load the LNURL payment state
named in the user state under its lock, ask the service for an invoice, store the answer
in the state and hand the invoice to `payHandler`. -/
def lnurlPayHandlerSend {σ : Type} (env : Env σ) (ctx : Ctx) (w : World σ) :
    Ret (Option GoError) × World σ :=
  let user := ctx.User
  match user.Wallet with
  | none => (.value (some (.create .UserNoWalletError)), w)
  | some _ =>
    let w0 := w.emit (.message ctx.Sender.ID "lnurlGettingUserMessage")
    -- assert that user has entered an amount
    if user.StateKey ≠ env.UserHasEnteredAmount then
      (.value (some (.text "wrong state key")), w0.emit (.edit "errorTryLaterMessage"))
    else
      -- read the enter amount state from user.StateData
      match env.ParseEnterAmountState user.StateData with
      | .error e => (.value (some e), w0.emit (.edit "errorTryLaterMessage"))
      | .ok id =>
        -- use the enter amount state of the user to load the LNURL payment state
        let w1 := w0.emit (.lock id)
        match w1.lnurlPays.Get id with
        | .error e =>
          (.value (some e), (w1.emit (.edit "errorTryLaterMessage")).emit (.unlock id))
        | .ok lnurlPayState =>
          match env.LnurlPayCallback lnurlPayState w1.ext with
          | (.error e, s) =>
            (.value (some e),
              ((w1.withExt s).emit (.edit "errorTryLaterMessage")).emit (.unlock id))
          | (.ok response2, s) =>
            if response2.Status = "ERROR" ∨ response2.PR.utf8ByteSize < 1 then
              let error_reason :=
                if response2.Reason.utf8ByteSize > 0 then response2.Reason
                else "Could not receive invoice."
              (.value (some (.text ("error in LNURLPayValues: " ++ error_reason))),
                ((w1.withExt s).emit (.edit "lnurlPaymentFailed")).emit (.unlock id))
            else
              -- all good
              let lnurlPayState1 := { lnurlPayState with LNURLPayValues := response2 }
              -- add result to persistent struct
              let w2 := ((w1.withExt s).setLnurlPay env lnurlPayState1).emit .delete
              match payHandler env { ctx with Text := "/pay " ++ response2.PR } w2 with
              | (r, w3) => (r, w3.emit (.unlock id))

/-! ## satdress.go -/

/-- The fields of `satdress.LNDParams`; the certificate bytes are kept as a string, nil
as the empty string. -/
structure LNDParams where
  Cert : String
  Host : String
  Macaroon : String
  CertString : String
  deriving DecidableEq, Repr

/-- The fields of `satdress.LNBitsParams`. -/
structure LNBitsParams where
  Host : String
  Key : String
  deriving DecidableEq, Repr

/-- A value of the interface `satdress.BackendParams`. -/
inductive BackendParams
  | lnd (p : LNDParams)
  | lnbits (p : LNBitsParams)
  deriving DecidableEq, Repr

/-- Go `parseCertificateToPem`: the certificate itself if it is PEM, else its hex or base64
decoding if that is PEM, else nil. -/
def parseCertificateToPem {σ : Type} (env : Env σ) (cert : String) : String :=
  if env.pemDecode cert then
    -- already PEM
    cert
  else
    match env.hexDecode cert with
    | some dec => if env.pemDecode dec then dec else ""
    | none =>
      -- not HEX
      match env.base64Decode cert with
      | none => ""
      | some dec => if env.pemDecode dec then dec else ""

/-- Go `parseUserSettingInput` on the text "/node add <Type> <Host> <Macaroon> <Cert>". In
the `lnd` case the certificate is parsed into a variable `pem` declared with `:=` inside
the `if` block, so the `pem` of the returned struct is the outer one, still nil. -/
def parseUserSettingInput {σ : Type} (env : Env σ) (text : String) :
    Except GoError BackendParams :=
  let splits := Split text ' '
  let splitlen := splits.length
  if splitlen < 4 then .error (.text "not enough arguments")
  else
    if env.ToLower (splits.getD 2 "") = "lnd" then
      if splitlen < 5 ∨ splitlen > 7 then
        .error (.text "wrong format. Use <Type> <Host> <Macaroon> [<Cert>]")
      else
        let host := splits.getD 3 ""
        let macaroon := splits.getD 4 ""
        let pem := ""
        if splitlen = 6 ∧ (parseCertificateToPem env (splits.getD 5 "")).utf8ByteSize < 1 then
          .error (.text "certificate has invalid format")
        else
          if (Split host '.').length = 0 then .error (.text "host has wrong format")
          else .ok (.lnd { Cert := pem, Host := host, Macaroon := macaroon, CertString := pem })
    else if env.ToLower (splits.getD 2 "") = "lnbits" then
      if splitlen < 5 ∨ splitlen > 6 then .error (.text "wrong format. Use <Type> <Host> <Key>")
      else
        let host := splits.getD 3 ""
        let key := splits.getD 4 ""
        let host1 := if HasSuffix host "/" then host.dropRight 1 else host
        if (Split host1 '.').length = 0 then .error (.text "host has wrong format")
        else .ok (.lnbits { Host := host1, Key := key })
    else .error (.text "unknown backend type. Supported types: `lnd`, `lnbits`")

/-! ## lnurl.go -/

/-- Lines 208-238 of `HandleLNURL`: the URL that the input resolves to, before it is parsed
and dispatched on its tag. The variable `rawurl` is still the empty string where the
scheme of an `lnurlp://` (etc.) input is chosen. -/
def HandleLNURL.rawurl {σ : Type} (env : Env σ) (rawlnurl : String) :
    Ret (Except GoError String) :=
  let rawurl := ""
  match env.ParseInternetIdentifier rawlnurl with
  | some (name, domain) =>
    let isOnion := Index domain ".onion" = len domain - 6
    let rawurl1 := domain ++ "/.well-known/lnurlp/" ++ name
    if isOnion then .value (.ok ("http://" ++ rawurl1))
    else .value (.ok ("https://" ++ rawurl1))
  | none =>
    if HasPrefix rawlnurl "http" then .value (.ok rawlnurl)
    else if HasPrefix rawlnurl "lnurlp://" || HasPrefix rawlnurl "lnurlw://" ||
        HasPrefix rawlnurl "lnurla://" || HasPrefix rawlnurl "keyauth://" then
      let scheme :=
        if Contains rawurl ".onion/" || HasSuffix rawurl ".onion" then "http:" else "https:"
      -- `strings.SplitN(rawlnurl, ":", 2)[1]`
      match afterChar ':' rawlnurl.data with
      | none => .panicked
      | some location => .value (.ok (scheme ++ String.mk location))
    else
      match env.FindLNURLInText rawlnurl with
      | none => .value (.error (.text ("invalid bech32-encoded lnurl: " ++ rawlnurl)))
      | some lnurl_str =>
        match env.LNURLDecodeStrict lnurl_str with
        | .error e => .value (.error e)
        | .ok decoded => .value (.ok decoded)

/-- Run a handler on a sequence of triggers, one after the other. -/
def runTriggers {σ : Type} (handler : Ctx → World σ → Ret (Option GoError) × World σ) :
    List Ctx → World σ → List (Ret (Option GoError)) × World σ
  | [], w => ([], w)
  | c :: cs, w =>
    match handler c w with
    | (r, w1) =>
      match runTriggers handler cs w1 with
      | (rs, w2) => (r :: rs, w2)

/-! ## Reading the call log -/

/-- Whether the event is an invoice request. -/
def Event.isInvoice : Event → Bool
  | .invoice _ _ => true
  | _ => false

/-- Whether the event is a wallet `Pay` call. -/
def Event.isPay : Event → Bool
  | .pay _ _ => true
  | _ => false

/-- Whether the event is an entry into `Transaction.Send`. -/
def Event.isSend : Event → Bool
  | .send _ => true
  | _ => false

/-- Whether the event is a save of a transaction record. -/
def Event.isTxSave : Event → Bool
  | .txSave _ => true
  | _ => false

/-- The invoice requests and `Pay` calls of a log, in order. -/
def walletMoves (log : List Event) : List Event :=
  log.filter (fun e => e.isInvoice || e.isPay)

/-- The number of entries into `Transaction.Send` in a log. -/
def sendCount (log : List Event) : Nat :=
  (log.filter Event.isSend).length

/-- The number of `Pay` calls in a log. -/
def payCount (log : List Event) : Nat :=
  (log.filter Event.isPay).length

/-- The transaction records saved in a log, in order. -/
def savedRecords : List Event → List Transaction
  | [] => []
  | .txSave t :: rest => t :: savedRecords rest
  | _ :: rest => savedRecords rest

/-- The IDs of the intents stored for the first time, oldest first. -/
def createdRecords : List Event → List String
  | [] => []
  | .create id :: l => id :: createdRecords l
  | _ :: l => createdRecords l

/-- Whether the event is a call to the wallet service (balance query, invoice request,
`Pay`) or an entry into `Transaction.Send`. -/
def Event.isWalletCall : Event → Bool
  | .info _ => true
  | .invoice _ _ => true
  | .pay _ _ => true
  | .send _ => true
  | _ => false

/-- The wallet calls of a log, in order. -/
def walletCalls (log : List Event) : List Event :=
  log.filter Event.isWalletCall

/-- What the lock calls, saves and notifications of a log amount to. `held` lists the IDs
whose lock is held, an unlock releasing the ID altogether; `nest` has one entry per lock
call not yet matched by an unlock call, and `peak` is the largest number of unmatched lock
calls on one ID seen so far; `ok` tells that every save so far was the save of an ID in
`held`; `covered` tells that every notification so far (sent, or handed to a goroutine)
was issued while some lock was held. -/
structure LockState where
  held : List String
  nest : List String
  peak : Nat
  ok : Bool
  covered : Bool
  deriving DecidableEq, Repr

/-- Nothing locked, nothing saved, nothing sent. -/
def LockState.start : LockState :=
  { held := [], nest := [], peak := 0, ok := true, covered := true }

/-- Account for one event. -/
def lockStep (s : LockState) : Event → LockState
  | .lock id =>
    { s with held := id :: s.held, nest := id :: s.nest,
             peak := max s.peak ((id :: s.nest).count id) }
  | .unlock id => { s with held := s.held.filter (fun k => k ≠ id), nest := s.nest.erase id }
  | .save id => { s with ok := s.ok && decide (id ∈ s.held) }
  | .message _ _ => { s with covered := s.covered && !s.held.isEmpty }
  | .goMessage _ _ => { s with covered := s.covered && !s.held.isEmpty }
  | _ => s

/-- The state after `n` nested lock calls on `id`, all matched by their unlock calls, with
saves of `id` and notifications in between only. -/
def LockState.nested (s : LockState) (id : String) (n : Nat) : LockState :=
  { s with held := s.held.filter (fun k => k ≠ id), peak := max s.peak (s.nest.count id + n) }

/-- The part of the state that lock calls and saves decide: all but `covered`. -/
def LockState.core (s : LockState) : List String × List String × Nat × Bool :=
  (s.held, s.nest, s.peak, s.ok)

/-- Account for the events of a log, in order, from the state `s`. -/
def lockTrace (s : LockState) (log : List Event) : LockState :=
  log.foldl lockStep s

/-- The lock state after the whole log of a world that started with nothing locked. -/
def World.locks {σ : Type} (w : World σ) : LockState :=
  lockTrace LockState.start w.log

/-- Every record of the six intent stores is stored under its own ID, as `Set` does. -/
def World.Keyed {σ : Type} (w : World σ) : Prop :=
  (∀ k v, w.sends k = some v → v.ID = k) ∧ (∀ k v, w.receives k = some v → v.ID = k) ∧
  (∀ k v, w.faucets k = some v → v.ID = k) ∧ (∀ k v, w.pays k = some v → v.ID = k) ∧
  (∀ k v, w.auths k = some v → v.ID = k) ∧ (∀ k v, w.lnurlPays k = some v → v.ID = k)

/-- Whether the event moves money or writes a record: an invoice request, a `Pay` call, an
entry into `Send`, or a save of a transaction record or of an intent. -/
def Event.isEffect : Event → Bool
  | .invoice _ _ => true
  | .pay _ _ => true
  | .send _ => true
  | .txSave _ => true
  | .save _ => true
  | _ => false

/-- The persisted intents of a world. -/
def World.intents {σ : Type} (w : World σ) :
    Store InlineSend × Store InlineReceive × Store InlineFaucet × Store PayData :=
  (w.sends, w.receives, w.faucets, w.pays)

/-- Whether the event writes a record or enters `Send`: what a wallet call never does. -/
def Event.isRecord : Event → Bool
  | .send _ => true
  | .txSave _ => true
  | .save _ => true
  | _ => false

/-- The world `w1` continues `w`: same persisted intents, and the log grew by events that
are not `bad`. -/
def Grows {σ : Type} (bad : Event → Bool) (w w1 : World σ) : Prop :=
  w1.intents = w.intents ∧ ∃ l, w1.log = w.log ++ l ∧ ∀ e ∈ l, bad e = false

/-- What one claim does to the faucet handed to the deferred `Set`, relative to the faucet
`f` that was loaded and the claimant `who`: `taken` (Send succeeded), `failed` (Send
returned an error), `crashed` (panic after entering Send), `noWallet` (no Send: the wallet
could not be created), `depleted` (no Send: less than one share was left). -/
def FaucetOutcome (f f1 : InlineFaucet) (who : TgUser) (r : Ret (Option GoError))
    (sends : Nat) : Prop :=
  (r = .value none ∧ f.PerUserAmount ≤ f.RemainingAmount ∧ sends = 1 ∧
    f1.RemainingAmount = wrapInt64 (f.RemainingAmount - f.PerUserAmount) ∧
    f1.NTaken = wrapInt64 (f.NTaken + 1) ∧
    (∃ u, f1.To = f.To ++ [u] ∧ u.Telegram = who) ∧
    (f1.Active = true ↔ f1.PerUserAmount ≤ f1.RemainingAmount)) ∨
  ((∃ e, r = .value (some e)) ∧ sends = 1 ∧ f1.RemainingAmount = f.RemainingAmount ∧
    f1.NTaken = f.NTaken ∧ f1.To = f.To ∧ f1.Active = false) ∨
  (r = .panicked ∧ sends = 1 ∧ f1.RemainingAmount = f.RemainingAmount ∧
    f1.NTaken = f.NTaken ∧ f1.To = f.To ∧ f1.Active = true) ∨
  ((∃ e, r = .value (some e)) ∧ sends = 0 ∧ f1.RemainingAmount = f.RemainingAmount ∧
    f1.NTaken = f.NTaken ∧ f1.To = f.To ∧ f1.Active = true) ∨
  (r = .value none ∧ f.RemainingAmount < f.PerUserAmount ∧ sends = 0 ∧
    f1.RemainingAmount = f.RemainingAmount ∧ f1.NTaken = f.NTaken ∧ f1.To = f.To ∧
    f1.Active = false)

/-- One trigger on a faucet: a press on Collect, or a press on Cancel. -/
inductive FaucetTrigger
  | accept (ctx : Ctx)
  | cancel (ctx : Ctx)
  deriving DecidableEq, Repr

/-- The context of a faucet trigger. -/
def FaucetTrigger.ctx : FaucetTrigger → Ctx
  | .accept c => c
  | .cancel c => c

/-- Run one faucet trigger: `acceptInlineFaucetHandler`, or `cancelInlineFaucetHandler`,
which calls `cancelInlineFaucet` with `ignoreID = false`. -/
def runFaucetTrigger {σ : Type} (env : Env σ) (t : FaucetTrigger) (w : World σ) : World σ :=
  match t with
  | .accept c => (acceptInlineFaucetHandler env c w).2
  | .cancel c => (cancelInlineFaucet env c false w).2

/-- Run faucet triggers one after the other. -/
def runFaucetTriggers {σ : Type} (env : Env σ) : List FaucetTrigger → World σ → World σ
  | [], w => w
  | t :: ts, w => runFaucetTriggers env ts (runFaucetTrigger env t w)

/-- The faucet state invariant: the remaining amount is what the takers left, it lies
between 0 and the amount, the takers are counted and are at most `NTotal`, the share
divides what remains, and the takers are distinct users other than the creator. -/
def FaucetInv (f : InlineFaucet) : Prop :=
  f.RemainingAmount = f.Amount - f.NTaken * f.PerUserAmount ∧
  0 ≤ f.RemainingAmount ∧ f.RemainingAmount ≤ f.Amount ∧
  f.NTaken = f.To.length ∧ f.NTaken ≤ f.NTotal ∧
  f.PerUserAmount ∣ f.RemainingAmount ∧
  (f.To.map (fun a => a.Telegram.ID)).Nodup ∧
  ∀ a ∈ f.To, a.Telegram.ID ≠ f.From.Telegram.ID

instance (f : InlineFaucet) : Decidable (FaucetInv f) := by
  unfold FaucetInv
  infer_instance

/-- What every state of one faucet keeps from its creation, besides the invariant: its ID,
its creator, a share of at least 5 that was multiplied out to the amount, an amount that
is a non-negative `int64`. -/
def FaucetKept (id : String) (creator : TgUser) (f : InlineFaucet) : Prop :=
  f.ID = id ∧ f.From.Telegram = creator ∧ 5 ≤ f.PerUserAmount ∧
  f.NTotal * f.PerUserAmount = f.Amount ∧ f.Amount < 2 ^ 63 ∧ FaucetInv f

/-! ## An exact wallet service without fees -/

/-- The books of a wallet service: the balance of every wallet, in sat, the invoices
issued so far (payment request, wallet to be paid, amount in sat), newest first, and the
wallets that issue no invoice. -/
structure Ledger where
  balance : String → Int
  invoices : List (String × String × Int)
  closed : List String

/-- Modelled from the spec: the fake wallet layer of the tests, returning exact amounts.
It keeps exact books and takes no fee. `Info` reports the balance in msat; an invoice is
refused by a closed wallet and unless its amount is positive; `Pay` is refused unless the
invoice is known and the payer can afford it, and then moves exactly the invoiced amount
from the payer to the wallet that issued the invoice. The other collaborators never fail
and keep no state. -/
def ledgerEnv : Env Ledger where
  ClientInfo := fun wal l => (.ok { wal with Balance := l.balance wal.ID * 1000 }, l)
  WalletInvoice := fun wal p l =>
    if p.Amount ≤ 0 then (.error (.text "amount must be positive"), l)
    else if wal.ID ∈ l.closed then (.error (.text "wallet is closed"), l)
    else
      let pr := "lnbc" ++ toString l.invoices.length
      (.ok { PaymentHash := pr, PaymentRequest := pr },
        { l with invoices := (pr, wal.ID, p.Amount) :: l.invoices })
  WalletPay := fun wal p l =>
    match l.invoices.find? (fun i => i.1 == p.Bolt11) with
    | none => (.error (.text "unknown invoice"), l)
    | some (pr, payee, amount) =>
      if l.balance wal.ID < amount then (.error (.text "insufficient balance"), l)
      else
        (.ok { PaymentHash := pr, PaymentRequest := pr },
          { l with balance := fun k =>
              (if k = payee then amount else 0) + (l.balance k - if k = wal.ID then amount else 0) })
  GetUser := fun tg l =>
    (.ok { ID := "", Name := tg.Username, Initialized := true, Telegram := tg, Wallet := none,
           StateKey := 0, StateData := "" }, l)
  UpdateUserRecord := fun _ l => (none, l)
  createWallet := fun u l => ((none, u), l)
  TransactionsSave := fun _ l => (none, l)
  createInvoiceWithEvent := fun _ _ _ _ l => (.error (.text "not offered"), l)
  QrEncode := fun _ => none
  CacheGet := fun _ _ => none
  CacheSet := fun _ _ l => l
  Render := fun _ key _ => key
  MarkdownEscape := fun x => x
  SignKeyAuth := fun _ _ _ => .error (.text "not offered")
  LnurlAuthCallback := fun _ _ _ l => (.error (.text "not offered"), l)
  UserHasEnteredAmount := 6
  UserStateConfirmPayment := 1
  ParseEnterAmountState := fun _ => .error (.text "not offered")
  LnurlPayCallback := fun _ l => (.error (.text "not offered"), l)
  anyTextHandler := fun _ l => l
  getArgumentFromCommand := fun _ _ => .error (.text "not offered")
  Decodepay := fun _ => .error (.text "not offered")
  RandStringRunes := fun _ l => ("", l)
  decodeAmountFromCommand := fun _ => .error (.text "not offered")
  GetAmount := fun _ => .error (.text "not offered")
  GetMemoFromCommand := fun _ _ => ""
  MakeProgressbar := fun _ _ => ""
  pemDecode := fun _ => false
  hexDecode := fun _ => none
  base64Decode := fun _ => none
  ParseInternetIdentifier := fun _ => none
  FindLNURLInText := fun _ => none
  LNURLDecodeStrict := fun _ => .error (.text "not offered")
  ToLower := fun x => x
  StoreSet := fun _ _ => none

/-- Books in which every wallet holds 100 sat, no invoice was issued, and the wallet of
`dave` is closed. -/
def exampleLedger : Ledger :=
  { balance := fun _ => 100, invoices := [], closed := ["dave"] }

/-- A world on the exact wallet service, with nothing stored and an empty log. -/
def ledgerWorld (l : Ledger) : World Ledger :=
  { ext := l, sends := fun _ => none, receives := fun _ => none, faucets := fun _ => none,
    pays := fun _ => none, auths := fun _ => none, lnurlPays := fun _ => none, log := [] }

/-! ## Collaborators for worked examples -/

/-- The value of a hexadecimal digit. -/
def hexDigit (c : Char) : Option Nat :=
  if '0' ≤ c ∧ c ≤ '9' then some (c.toNat - 48)
  else if 'a' ≤ c ∧ c ≤ 'f' then some (c.toNat - 87)
  else if 'A' ≤ c ∧ c ≤ 'F' then some (c.toNat - 55)
  else none

/-- The text whose bytes a hexadecimal text lists, for bytes below 128. -/
def hexChars : List Char → Option (List Char)
  | [] => some []
  | [_] => none
  | a :: b :: cs =>
    match hexDigit a, hexDigit b, hexChars cs with
    | some x, some y, some r => if 16 * x + y < 128 then some (Char.ofNat (16 * x + y) :: r) else none
    | _, _, _ => none

/-- A self-signed X.509 certificate (Ed25519, subject CN=n), PEM-encoded. -/
def exampleCertificate : String :=
  "-----BEGIN CERTIFICATE-----\n" ++
  "MIIBLDCB36ADAgECAhQzbwBWoTjfLWfLq5KGrGRZ8IS+GDAFBgMrZXAwDDEKMAgG\n" ++
  "A1UEAwwBbjAeFw0yNjExMDQxODU4NTRaFw0zNjExMDExODU4NTRaMAwxCjAIBgNV\n" ++
  "BAMMAW4wKjAFBgMrZXADIQB4PBKmFc+du3iR4yNu/Qn20LcMRtCYD0nU3TvxuEjX\n" ++
  "/6NTMFEwHQYDVR0OBBYEFGRJexrQjfN1T+yEjHkKrUuPSJLFMB8GA1UdIwQYMBaA\n" ++
  "FGRJexrQjfN1T+yEjHkKrUuPSJLFMA8GA1UdEwEB/wQFMAMBAf8wBQYDK2VwA0EA\n" ++
  "6nsUzAOvk/bAbl4+FeWsOgh1qunQ1mvkLu0p1GClu+PJx6fZfwxBVwbh9DKLb5Cd\n" ++
  "CuN0OHOPl3fsbCX5dsb9Dg==\n" ++
  "-----END CERTIFICATE-----\n"

/-- The example certificate as one hexadecimal token. -/
def exampleCertificateHex : String :=
  "2d2d2d2d2d424547494e2043455254494649434154452d2d2d2d2d0a4d4949424c44434233364144" ++
  "416745434168517a627742576f546a664c57664c71354b477247525a3849532b4744414642674d72" ++
  "5a5841774444454b4d4167470a4131554541777742626a4165467730794e6a45784d4451784f4455" ++
  "344e5452614677307a4e6a45784d4445784f4455344e5452614d417778436a414942674e560a4241" ++
  "4d4d415734774b6a414642674d725a5841444951423450424b6d46632b647533695234794e752f51" ++
  "6e32304c634d5274435944306e553354767875456a580a2f364e544d464577485159445652304f42" ++
  "4259454647524a657872516a664e31542b79456a486b4b72557550534a4c464d4238474131556449" ++
  "7751594d4261410a4647524a657872516a664e31542b79456a486b4b72557550534a4c464d413847" ++
  "41315564457745422f7751464d414d4241663877425159444b325677413045410a366e73557a414f" ++
  "766b2f6241626c342b466557734f67683171756e51316d766b4c7530703147436c752b504a783666" ++
  "5a667778425677626839444b4c623543640a43754e304f484f506c33667362435835647362394467" ++
  "3d3d0a2d2d2d2d2d454e442043455254494649434154452d2d2d2d2d0a"

/-- How the example collaborators behave: `Info` calls are numbered from 0 and fail from
`infoFailsFrom` on; every wallet holds `balanceMsat`; an LNURL service answers with status
"ERROR" when `lnurlRefuses`; every write to the IntentStore fails when `storeFails`;
`saveFails` is about the transaction table. -/
structure Scenario where
  infoFailsFrom : Option Nat
  invoiceFails : Bool
  payFails : Bool
  saveFails : Bool
  balanceMsat : Int
  lnurlRefuses : Bool := false
  storeFails : Bool := false

/-- Every collaborator call succeeds and every wallet holds 100 sat. -/
def Scenario.allGood : Scenario :=
  { infoFailsFrom := none, invoiceFails := false, payFails := false, saveFails := false,
    balanceMsat := 100000 }

/-- Collaborators following a scenario; their state is the number of `Info` calls so far.
Every Telegram user is known to the user database. The texts of the examples are ASCII,
on which `strings.ToLower` lower-cases the letters A-Z; `pem.Decode` finds a block in a
text that is one CERTIFICATE block, as the example certificate is, and none in a text
without a BEGIN line; `hex.DecodeString` is computed for texts of bytes below 128; no
example is a base64 text. An amount "-10" is decoded to -10: `createFaucet` is run on
whatever its decoder returns. -/
def exampleEnv (sc : Scenario) : Env Nat where
  ClientInfo := fun wal n =>
    match sc.infoFailsFrom with
    | some k =>
      if k ≤ n then (.error (.text "lnbits unreachable"), n + 1)
      else (.ok { wal with Balance := sc.balanceMsat }, n + 1)
    | none => (.ok { wal with Balance := sc.balanceMsat }, n + 1)
  WalletInvoice := fun _ _ n =>
    if sc.invoiceFails then (.error (.text "invoice refused"), n)
    else (.ok { PaymentHash := "hash", PaymentRequest := "lnbc1example" }, n)
  WalletPay := fun _ p n =>
    if sc.payFails then (.error (.text "payment refused"), n)
    else (.ok { PaymentHash := "hash", PaymentRequest := p.Bolt11 }, n)
  GetUser := fun tg n =>
    (.ok { ID := "", Name := tg.Username, Initialized := true, Telegram := tg, Wallet := none,
           StateKey := 0, StateData := "" }, n)
  UpdateUserRecord := fun _ n => (none, n)
  createWallet := fun u n => ((none, u), n)
  TransactionsSave := fun _ n => (if sc.saveFails then some (.text "db down") else none, n)
  createInvoiceWithEvent := fun _ _ _ _ n =>
    (.ok { PaymentHash := "hash", PaymentRequest := "lnbc1example" }, n)
  QrEncode := fun _ => none
  CacheGet := fun _ _ => none
  CacheSet := fun _ _ n => n
  Render := fun _ key _ => key
  MarkdownEscape := fun x => x
  SignKeyAuth := fun _ _ k1 => .ok ("key", "sig:" ++ k1)
  LnurlAuthCallback := fun _ _ _ n =>
    (if sc.lnurlRefuses then .ok { Status := "ERROR", Reason := "refused" }
      else .ok { Status := "OK", Reason := "" }, n)
  UserHasEnteredAmount := 6
  UserStateConfirmPayment := 1
  ParseEnterAmountState := fun data => .ok data
  LnurlPayCallback := fun _ n =>
    (if sc.lnurlRefuses then .ok { Status := "ERROR", Reason := "refused", PR := "" }
      else .ok { Status := "OK", Reason := "", PR := "lnbc1example" }, n)
  anyTextHandler := fun _ n => n
  getArgumentFromCommand := fun text which =>
    match (Split text ' ').get? which with
    | some arg => .ok arg
    | none => .error (.text "message doesn't contain enough arguments")
  Decodepay := fun _ => .ok { MSatoshi := 10000, Description := "" }
  RandStringRunes := fun _ n => ("abcde", n)
  decodeAmountFromCommand := fun text =>
    match (Split text ' ').get? 1 with
    | some "30" => .ok 30
    | some "100" => .ok 100
    | some "-10" => .ok (-10)
    | _ => .error (.text "message doesn't contain any amount")
  GetAmount := fun input =>
    match input with
    | "10" => .ok 10
    | "7" => .ok 7
    | "5" => .ok 5
    | "3" => .ok 3
    | "0" => .ok 0
    | _ => .error (.text "not an amount")
  GetMemoFromCommand := fun _ _ => ""
  MakeProgressbar := fun _ _ => ""
  pemDecode := fun x =>
    HasPrefix x "-----BEGIN CERTIFICATE-----\n" && HasSuffix x "\n-----END CERTIFICATE-----\n"
  hexDecode := fun x => (hexChars x.data).map String.mk
  base64Decode := fun _ => none
  ParseInternetIdentifier := fun x =>
    match Split x '@' with
    | [name, domain] => some (name, domain)
    | _ => none
  FindLNURLInText := fun _ => none
  LNURLDecodeStrict := fun _ => .error (.text "not an lnurl")
  ToLower := fun x => String.mk (x.data.map Char.toLower)
  StoreSet := fun _ _ => if sc.storeFails then some (.text "db down") else none

/-- An initialized user with a wallet, for worked examples. -/
def exampleUser (id : Int) (name : String) : User :=
  { ID := name, Name := name, Initialized := true,
    Telegram := { ID := id, Username := name, FirstName := name, LanguageCode := "en" },
    Wallet := some { ID := name, Adminkey := "key", Balance := 0 },
    StateKey := 0, StateData := "" }

/-- A trigger on intent `id` pressed by `user`. -/
def exampleCtx (id : String) (user : User) : Ctx :=
  { Data := id, Sender := user.Telegram, User := user, Chat := user.Telegram.ID, Private := true }

/-- A world with nothing stored and an empty log. -/
def emptyWorld : World Nat :=
  { ext := 0, sends := fun _ => none, receives := fun _ => none, faucets := fun _ => none,
    pays := fun _ => none, auths := fun _ => none, lnurlPays := fun _ => none, log := [] }

/-- The creator of the example intents. -/
def alice : User := exampleUser 1 "alice"

/-- A user of the worked examples. -/
def bob : User := exampleUser 2 "bob"

/-- A user of the worked examples. -/
def carol : User := exampleUser 3 "carol"

/-- A user of the worked examples. -/
def dave : User := exampleUser 4 "dave"

/-- A user of the worked examples. -/
def erin : User := exampleUser 5 "erin"

/-- An active faucet of `alice`, stored under "faucet:1", nothing taken yet. -/
def exampleFaucet (remaining perUser : Int) : InlineFaucet :=
  { ID := "faucet:1", Active := true, Canceled := false, Message := "", Amount := remaining,
    RemainingAmount := remaining, PerUserAmount := perUser, From := alice, To := [], Memo := "",
    NTotal := 0, NTaken := 0, UserNeedsWallet := false, LanguageCode := "en" }

/-- An active inline send of 10 sat by `alice` to whoever accepts, stored under "send:1". -/
def exampleSend : InlineSend :=
  { ID := "send:1", Active := true, Canceled := false, Message := "", Amount := 10,
    From := alice, To := alice, To_SpecificUser := false, Memo := "", LanguageCode := "en" }

/-- An active inline receive of 10 sat for `alice` from whoever accepts, stored under
"receive:1". -/
def exampleReceive : InlineReceive :=
  { ID := "receive:1", Active := true, Canceled := false, MessageText := "", Message := none,
    Amount := 10, From := alice, To := alice, From_SpecificUser := false, Memo := "",
    LanguageCode := "en" }

/-- An active payment of 10 sat by `alice`, stored under "pay:1". -/
def examplePay : PayData :=
  { ID := "pay:1", Active := true, Canceled := false, From := alice, Invoice := "lnbc1example",
    Hash := "", Proof := "", Memo := "", Message := "", Amount := 10, LanguageCode := "en" }

/-- The empty world with one faucet stored under its ID. -/
def worldWithFaucet (f : InlineFaucet) : World Nat :=
  { emptyWorld with faucets := emptyWorld.faucets.put f.ID f }

/-- The empty world with the example inline send, inline receive and payment stored. -/
def exampleWorld : World Nat :=
  { emptyWorld with
    sends := emptyWorld.sends.put exampleSend.ID exampleSend
    receives := emptyWorld.receives.put exampleReceive.ID exampleReceive
    pays := emptyWorld.pays.put examplePay.ID examplePay }

/-- An active login of `alice` at "example.org", stored under "lnurlauth:1". -/
def exampleAuth : LnurlAuthState :=
  { ID := "lnurlauth:1", Active := true, Canceled := false, From := alice,
    LNURLAuthParams := { Host := "example.org", K1 := "k1", Callback := "https://example.org/login" },
    Comment := "", LanguageCode := "en", Message := "" }

/-- An LNURL payment of 10 sat by `alice`, stored under "lnurlp:1". -/
def exampleLnurlPay : LnurlPayState :=
  { ID := "lnurlp:1", Active := true, Canceled := false, From := alice,
    LNURLPayParams := { Callback := "https://example.org/pay", MinSendable := 1000,
                        MaxSendable := 100000, CommentAllowed := 0, Metadata := "" },
    LNURLPayValues := { Status := "", Reason := "", PR := "" },
    Amount := 10000, Comment := "", DescriptionHash := "", LanguageCode := "en" }

/-- The example world with the example login and LNURL payment stored as well. -/
def lnurlWorld : World Nat :=
  { exampleWorld with
    auths := emptyWorld.auths.put exampleAuth.ID exampleAuth
    lnurlPays := emptyWorld.lnurlPays.put exampleLnurlPay.ID exampleLnurlPay }

/-- The user `alice` after she entered the amount for the example LNURL payment. -/
def aliceEntered : User :=
  { alice with StateKey := 6, StateData := "lnurlp:1" }

/-- A user without a wallet. -/
def frank : User :=
  { exampleUser 6 "frank" with Wallet := none }

/-- The faucet that `createFaucet` returns to `alice`, who holds 100 sat, on
"/faucet 30 10". -/
def createdFaucet : InlineFaucet :=
  { ID := "faucet:abcde:30", Active := true, Canceled := false, Message := "inlineFaucetMessage",
    Amount := 30, RemainingAmount := 30, PerUserAmount := 10,
    From := { alice with Wallet := some { ID := "alice", Adminkey := "key", Balance := 100000 } },
    To := [], Memo := "", NTotal := 3, NTaken := 0, UserNeedsWallet := false,
    LanguageCode := "en" }

/-- The faucet that `createFaucet` returns to `alice`, who holds 100 sat, on
"/faucet -10 5". -/
def createdNegativeFaucet : InlineFaucet :=
  { ID := "faucet:abcde:-10", Active := true, Canceled := false,
    Message := "inlineFaucetMessage", Amount := -10, RemainingAmount := -10,
    PerUserAmount := 5,
    From := { alice with Wallet := some { ID := "alice", Adminkey := "key", Balance := 100000 } },
    To := [], Memo := "", NTotal := -2, NTaken := 0, UserNeedsWallet := false,
    LanguageCode := "en" }

/-- Triggers on the created faucet: `bob` collects twice, `alice` tries to collect, `erin`
tries to cancel, `carol` collects, `alice` cancels, `dave` tries to collect. -/
def exampleFaucetTriggers : List FaucetTrigger :=
  [.accept (exampleCtx "faucet:abcde:30" bob), .accept (exampleCtx "faucet:abcde:30" bob),
   .accept (exampleCtx "faucet:abcde:30" alice), .cancel (exampleCtx "faucet:abcde:30" erin),
   .accept (exampleCtx "faucet:abcde:30" carol), .cancel (exampleCtx "faucet:abcde:30" alice),
   .accept (exampleCtx "faucet:abcde:30" dave)]

/-- Three claims on the example faucet, by `bob`, `carol` and `dave`. -/
def exampleTakers : List Ctx :=
  [exampleCtx "faucet:1" bob, exampleCtx "faucet:1" carol, exampleCtx "faucet:1" dave]

/-! ## Theorems -/

/-! ### The log only grows -/

@[simp]
theorem emit_log {σ : Type} (w : World σ) (e : Event) : (w.emit e).log = w.log ++ [e] := rfl
@[simp]
theorem emit_ext {σ : Type} (w : World σ) (e : Event) : (w.emit e).ext = w.ext := rfl
@[simp]
theorem emit_intents {σ : Type} (w : World σ) (e : Event) : (w.emit e).intents = w.intents := rfl
@[simp]
theorem withExt_log {σ : Type} (w : World σ) (s : σ) : (w.withExt s).log = w.log := rfl
@[simp]
theorem withExt_ext {σ : Type} (w : World σ) (s : σ) : (w.withExt s).ext = s := rfl
@[simp]
theorem withExt_intents {σ : Type} (w : World σ) (s : σ) : (w.withExt s).intents = w.intents := rfl

theorem Grows.refl {σ : Type} (bad : Event → Bool) (w : World σ) : Grows bad w w :=
  ⟨rfl, [], by simp, by simp⟩

theorem Grows.trans {σ : Type} {bad : Event → Bool} {w w1 w2 : World σ}
    (h1 : Grows bad w w1) (h2 : Grows bad w1 w2) : Grows bad w w2 := by
  obtain ⟨hi1, l1, hl1, hq1⟩ := h1
  obtain ⟨hi2, l2, hl2, hq2⟩ := h2
  refine ⟨hi2.trans hi1, l1 ++ l2, by rw [hl2, hl1, List.append_assoc], ?_⟩
  intro e he
  rcases List.mem_append.1 he with h | h
  · exact hq1 e h
  · exact hq2 e h

theorem Grows.emit {σ : Type} {bad : Event → Bool} (w : World σ) (e : Event)
    (he : bad e = false) : Grows bad w (w.emit e) :=
  ⟨rfl, [e], rfl, by simpa using he⟩

theorem Grows.withExt {σ : Type} (bad : Event → Bool) (w : World σ) (s : σ) :
    Grows bad w (w.withExt s) :=
  ⟨rfl, [], by simp, by simp⟩

theorem Grows.mono {σ : Type} {bad bad1 : Event → Bool} {w w1 : World σ}
    (h : Grows bad w w1) (hb : ∀ e, bad e = false → bad1 e = false) : Grows bad1 w w1 := by
  obtain ⟨hi, l, hl, hq⟩ := h
  exact ⟨hi, l, hl, fun e he => hb e (hq e he)⟩

theorem isEffect_isRecord (e : Event) (h : e.isEffect = false) : e.isRecord = false := by
  cases e <;> simp_all [Event.isEffect, Event.isRecord]

theorem isEffect_isSend (e : Event) (h : e.isEffect = false) : e.isSend = false := by
  cases e <;> simp_all [Event.isEffect, Event.isSend]

theorem isEffect_isPay (e : Event) (h : e.isEffect = false) : e.isPay = false := by
  cases e <;> simp_all [Event.isEffect, Event.isPay]

theorem isRecord_isSend (e : Event) (h : e.isRecord = false) : e.isSend = false := by
  cases e <;> simp_all [Event.isRecord, Event.isSend]

theorem walletMoves_append (l1 l2 : List Event) :
    walletMoves (l1 ++ l2) = walletMoves l1 ++ walletMoves l2 := by
  simp [walletMoves]

theorem savedRecords_append (l1 l2 : List Event) :
    savedRecords (l1 ++ l2) = savedRecords l1 ++ savedRecords l2 := by
  induction l1 with
  | nil => simp [savedRecords]
  | cons e l ih => cases e <;> simp [savedRecords, ih]

theorem sendCount_append (l1 l2 : List Event) :
    sendCount (l1 ++ l2) = sendCount l1 + sendCount l2 := by
  simp [sendCount]

theorem payCount_append (l1 l2 : List Event) :
    payCount (l1 ++ l2) = payCount l1 + payCount l2 := by
  simp [payCount]

theorem walletMoves_quiet (l : List Event) (h : ∀ e ∈ l, e.isEffect = false) :
    walletMoves l = [] := by
  simp only [walletMoves, List.filter_eq_nil_iff]
  intro e he
  have := h e he
  cases e <;> simp_all [Event.isEffect, Event.isInvoice, Event.isPay]

theorem savedRecords_none (l : List Event) (h : ∀ e ∈ l, e.isRecord = false) :
    savedRecords l = [] := by
  induction l with
  | nil => rfl
  | cons e l ih =>
    have he := h e (List.mem_cons_self _ _)
    have hl := ih (fun x hx => h x (List.mem_cons_of_mem _ hx))
    cases e <;> simp_all [savedRecords, Event.isRecord]

theorem sendCount_none (l : List Event) (h : ∀ e ∈ l, e.isSend = false) : sendCount l = 0 := by
  simp only [sendCount, List.length_eq_zero, List.filter_eq_nil_iff]
  intro e he
  simp [h e he]

theorem payCount_none (l : List Event) (h : ∀ e ∈ l, e.isPay = false) : payCount l = 0 := by
  simp only [payCount, List.length_eq_zero, List.filter_eq_nil_iff]
  intro e he
  simp [h e he]

theorem Grows.walletMoves {σ : Type} {w w1 : World σ} (h : Grows Event.isEffect w w1) :
    walletMoves w1.log = walletMoves w.log := by
  obtain ⟨-, l, hl, hq⟩ := h
  rw [hl, walletMoves_append, walletMoves_quiet l hq, List.append_nil]

theorem Grows.savedRecords {σ : Type} {w w1 : World σ} (h : Grows Event.isRecord w w1) :
    savedRecords w1.log = savedRecords w.log := by
  obtain ⟨-, l, hl, hq⟩ := h
  rw [hl, savedRecords_append, savedRecords_none l hq, List.append_nil]

theorem Grows.sendCount {σ : Type} {w w1 : World σ} (h : Grows Event.isSend w w1) :
    sendCount w1.log = sendCount w.log := by
  obtain ⟨-, l, hl, hq⟩ := h
  rw [hl, sendCount_append, sendCount_none l hq, Nat.add_zero]

theorem Grows.payCount {σ : Type} {w w1 : World σ} (h : Grows Event.isPay w w1) :
    payCount w1.log = payCount w.log := by
  obtain ⟨-, l, hl, hq⟩ := h
  rw [hl, payCount_append, payCount_none l hq, Nat.add_zero]

/-! ### users.go -/

theorem GetUserBalance_quiet {σ : Type} (env : Env σ) (user : User) (w : World σ) :
    Grows Event.isEffect w (GetUserBalance env user w).2.2 := by
  unfold GetUserBalance
  split
  · exact Grows.refl _ w
  · dsimp only
    split
    · repeat
        first
        | exact Grows.refl _ _
        | refine Grows.trans ?_ (Grows.emit _ _ rfl)
        | refine Grows.trans ?_ (Grows.withExt _ _ _)
    · split <;>
      repeat
        first
        | exact Grows.refl _ _
        | refine Grows.trans ?_ (Grows.emit _ _ rfl)
        | refine Grows.trans ?_ (Grows.withExt _ _ _)

/-- A balance query that reports no error was made on a user with a wallet, and leaves the
user with the same wallet, its balance refreshed. -/
theorem GetUserBalance_wallet {σ : Type} (env : Env σ) (user : User) (w : World σ)
    (b : Int) (user1 : User) (w1 : World σ)
    (h : GetUserBalance env user w = ((b, none), user1, w1)) :
    ∃ wal wal1, user.Wallet = some wal ∧ user1.Wallet = some wal1 ∧ wal1.ID = wal.ID := by
  unfold GetUserBalance at h
  cases hw : user.Wallet with
  | none => simp [hw] at h
  | some wal =>
    simp only [hw] at h
    split at h
    · simp at h
    · split at h
      · simp at h
      · rename_i wallet _ _ _ _ _
        simp only [Prod.mk.injEq] at h
        obtain ⟨-, hu, -⟩ := h
        refine ⟨wal, { wal with Balance := wallet.Balance }, rfl, ?_, rfl⟩
        rw [← hu]

theorem GetUserBalanceCached_quiet {σ : Type} (env : Env σ) (user : User) (w : World σ) :
    Grows Event.isEffect w (GetUserBalanceCached env user w).2.2 := by
  unfold GetUserBalanceCached
  split
  · exact GetUserBalance_quiet env user w
  · exact Grows.refl _ w

theorem UserExists_quiet {σ : Type} (env : Env σ) (user : TgUser) (w : World σ) :
    Grows Event.isEffect w (UserExists env user w).2 := by
  unfold UserExists
  split <;> exact Grows.withExt _ _ _

theorem CreateWalletForTelegramUser_quiet {σ : Type} (env : Env σ) (user : TgUser)
    (w : World σ) : Grows Event.isEffect w (CreateWalletForTelegramUser env user w).2 := by
  unfold CreateWalletForTelegramUser
  have h1 := UserExists_quiet env user w
  split
  · rename_i heq
    rw [heq] at h1
    exact h1
  · rename_i heq
    rw [heq] at h1
    dsimp only
    split
    · exact h1.trans (Grows.withExt _ _ _)
    · split <;>
      · refine h1.trans ?_
        repeat
          first
          | exact Grows.refl _ _
          | refine Grows.trans ?_ (Grows.emit _ _ rfl)
          | refine Grows.trans ?_ (Grows.withExt _ _ _)

theorem ResetUserState_quiet {σ : Type} (env : Env σ) (user : User) (w : World σ) :
    Grows Event.isEffect w (ResetUserState env user w).2 := by
  unfold ResetUserState
  exact (Grows.emit _ _ rfl).trans (Grows.withExt _ _ _)

/-! ### Writes to the store -/

/-- A write either stores the record or leaves the store as it was. -/
theorem setSend_store {σ : Type} (env : Env σ) (w : World σ) (v : InlineSend) :
    (w.setSend env v).sends = w.sends.put v.ID v ∨ (w.setSend env v).sends = w.sends := by
  unfold World.setSend
  cases World.saveError env w v.ID with
  | none => exact Or.inl rfl
  | some e => exact Or.inr rfl

/-- A write that succeeds stores the record. -/
theorem setSend_store_ok {σ : Type} (env : Env σ) (w : World σ) (v : InlineSend)
    (h : env.StoreSet w.log v.ID = none) : (w.setSend env v).sends = w.sends.put v.ID v := by
  simp [World.setSend, World.saveError, h]

/-- A write either stores the record or leaves the store as it was. -/
theorem setReceive_store {σ : Type} (env : Env σ) (w : World σ) (v : InlineReceive) :
    (w.setReceive env v).receives = w.receives.put v.ID v ∨ (w.setReceive env v).receives = w.receives := by
  unfold World.setReceive
  cases World.saveError env w v.ID with
  | none => exact Or.inl rfl
  | some e => exact Or.inr rfl

/-- A write that succeeds stores the record. -/
theorem setReceive_store_ok {σ : Type} (env : Env σ) (w : World σ) (v : InlineReceive)
    (h : env.StoreSet w.log v.ID = none) : (w.setReceive env v).receives = w.receives.put v.ID v := by
  simp [World.setReceive, World.saveError, h]

/-- A write either stores the record or leaves the store as it was. -/
theorem setFaucet_store {σ : Type} (env : Env σ) (w : World σ) (v : InlineFaucet) :
    (w.setFaucet env v).faucets = w.faucets.put v.ID v ∨ (w.setFaucet env v).faucets = w.faucets := by
  unfold World.setFaucet
  cases World.saveError env w v.ID with
  | none => exact Or.inl rfl
  | some e => exact Or.inr rfl

/-- A write that succeeds stores the record. -/
theorem setFaucet_store_ok {σ : Type} (env : Env σ) (w : World σ) (v : InlineFaucet)
    (h : env.StoreSet w.log v.ID = none) : (w.setFaucet env v).faucets = w.faucets.put v.ID v := by
  simp [World.setFaucet, World.saveError, h]

/-- A write either stores the record or leaves the store as it was. -/
theorem setPay_store {σ : Type} (env : Env σ) (w : World σ) (v : PayData) :
    (w.setPay env v).pays = w.pays.put v.ID v ∨ (w.setPay env v).pays = w.pays := by
  unfold World.setPay
  cases World.saveError env w v.ID with
  | none => exact Or.inl rfl
  | some e => exact Or.inr rfl

/-- A write that succeeds stores the record. -/
theorem setPay_store_ok {σ : Type} (env : Env σ) (w : World σ) (v : PayData)
    (h : env.StoreSet w.log v.ID = none) : (w.setPay env v).pays = w.pays.put v.ID v := by
  simp [World.setPay, World.saveError, h]

/-- A write either stores the record or leaves the store as it was. -/
theorem createPay_store {σ : Type} (env : Env σ) (w : World σ) (v : PayData) :
    (w.createPay env v).pays = w.pays.put v.ID v ∨ (w.createPay env v).pays = w.pays := by
  unfold World.createPay
  cases World.saveError env w v.ID with
  | none => exact Or.inl rfl
  | some e => exact Or.inr rfl

/-- A write that succeeds stores the record. -/
theorem createPay_store_ok {σ : Type} (env : Env σ) (w : World σ) (v : PayData)
    (h : env.StoreSet w.log v.ID = none) : (w.createPay env v).pays = w.pays.put v.ID v := by
  simp [World.createPay, World.saveError, h]

/-- A write either stores the record or leaves the store as it was. -/
theorem setAuth_store {σ : Type} (env : Env σ) (w : World σ) (v : LnurlAuthState) :
    (w.setAuth env v).auths = w.auths.put v.ID v ∨ (w.setAuth env v).auths = w.auths := by
  unfold World.setAuth
  cases World.saveError env w v.ID with
  | none => exact Or.inl rfl
  | some e => exact Or.inr rfl

/-- A write that succeeds stores the record. -/
theorem setAuth_store_ok {σ : Type} (env : Env σ) (w : World σ) (v : LnurlAuthState)
    (h : env.StoreSet w.log v.ID = none) : (w.setAuth env v).auths = w.auths.put v.ID v := by
  simp [World.setAuth, World.saveError, h]

/-- A write either stores the record or leaves the store as it was. -/
theorem setLnurlPay_store {σ : Type} (env : Env σ) (w : World σ) (v : LnurlPayState) :
    (w.setLnurlPay env v).lnurlPays = w.lnurlPays.put v.ID v ∨ (w.setLnurlPay env v).lnurlPays = w.lnurlPays := by
  unfold World.setLnurlPay
  cases World.saveError env w v.ID with
  | none => exact Or.inl rfl
  | some e => exact Or.inr rfl

/-- A write that succeeds stores the record. -/
theorem setLnurlPay_store_ok {σ : Type} (env : Env σ) (w : World σ) (v : LnurlPayState)
    (h : env.StoreSet w.log v.ID = none) : (w.setLnurlPay env v).lnurlPays = w.lnurlPays.put v.ID v := by
  simp [World.setLnurlPay, World.saveError, h]

/-! ### transaction.go -/

/-- The transfer part, case by case on what the wallet of `dst` answers to the invoice
request and what the wallet of `src` answers to the payment. -/
theorem transfer_cases {σ : Type} (env : Env σ) (t : Transaction) (src dst : User)
    (fromWal : Wallet) (amount : Int) (memo : String) (w : World σ) :
    (dst.Wallet = none ∧
      SendTransaction.transfer env t src dst fromWal amount memo w =
        (.panicked, { t with ToWallet := dst.ID, ToLNbitsID := dst.ID }, src, dst, w)) ∨
    (∃ toWal e s, dst.Wallet = some toWal ∧
      env.WalletInvoice toWal { Out := false, Amount := amount, Memo := memo } w.ext = (.error e, s) ∧
      SendTransaction.transfer env t src dst fromWal amount memo w =
        (.value (false, some e), { t with ToWallet := dst.ID, ToLNbitsID := dst.ID }, src, dst,
          (w.emit (.invoice toWal.ID { Out := false, Amount := amount, Memo := memo })).withExt s)) ∨
    (∃ toWal inv s, dst.Wallet = some toWal ∧
      env.WalletInvoice toWal { Out := false, Amount := amount, Memo := memo } w.ext = (.ok inv, s) ∧
      ∃ w2, Grows Event.isEffect
          (((w.emit (.invoice toWal.ID { Out := false, Amount := amount, Memo := memo })).withExt s).emit
            (.pay fromWal.ID { Out := true, Bolt11 := inv.PaymentRequest })) w2 ∧
        (SendTransaction.transfer env t src dst fromWal amount memo w).2.2.2.2 = w2 ∧
        (SendTransaction.transfer env t src dst fromWal amount memo w).2.1.Invoice = inv ∧
        (SendTransaction.transfer env t src dst fromWal amount memo w).1 ≠ .panicked ∧
        ∀ e s2, env.WalletPay fromWal { Out := true, Bolt11 := inv.PaymentRequest } s = (.error e, s2) →
          (SendTransaction.transfer env t src dst fromWal amount memo w).1 = .value (false, some e)) := by
  unfold SendTransaction.transfer
  cases hd : dst.Wallet with
  | none => left; simp
  | some toWal =>
    right
    dsimp only
    cases hi : env.WalletInvoice toWal { Out := false, Amount := amount, Memo := memo }
        (w.emit (.invoice toWal.ID { Out := false, Amount := amount, Memo := memo })).ext with
    | mk ri s =>
      cases ri with
      | error e =>
        left
        exact ⟨toWal, e, s, rfl, by simpa using hi, rfl⟩
      | ok inv =>
        right
        refine ⟨toWal, inv, s, rfl, by simpa using hi, ?_⟩
        dsimp only
        cases hp : env.WalletPay fromWal { Out := true, Bolt11 := inv.PaymentRequest }
            (((w.emit (.invoice toWal.ID { Out := false, Amount := amount, Memo := memo })).withExt s).emit
              (.pay fromWal.ID { Out := true, Bolt11 := inv.PaymentRequest })).ext with
        | mk rp s2 =>
          cases rp with
          | error e =>
            refine ⟨_, ?_, rfl, rfl, by simp, ?_⟩
            · exact Grows.withExt _ _ _
            · intro e1 s3 h
              simp only [emit_ext, withExt_ext] at hp
              rw [hp] at h
              simp only [Prod.mk.injEq, Except.error.injEq] at h
              rw [h.1]
          | ok p =>
            dsimp only
            have hb1 := GetUserBalance_quiet env src
              ((((w.emit (.invoice toWal.ID { Out := false, Amount := amount, Memo := memo })).withExt s).emit
                (.pay fromWal.ID { Out := true, Bolt11 := inv.PaymentRequest })).withExt s2)
            have hpe : ∀ e1 s3, env.WalletPay fromWal { Out := true, Bolt11 := inv.PaymentRequest } s
                = (Except.error e1, s3) → False := by
              intro e1 s3 h
              simp only [emit_ext, withExt_ext] at hp
              rw [hp] at h
              simp at h
            split
            · rename_i heq
              rw [heq] at hb1
              exact ⟨_, (Grows.withExt _ _ _).trans hb1, rfl, rfl, by simp,
                fun e1 s3 h => (hpe e1 s3 h).elim⟩
            · rename_i heq
              rw [heq] at hb1
              have hb2 := GetUserBalance_quiet env dst (by assumption)
              split
              · rename_i heq2
                rw [heq2] at hb2
                exact ⟨_, ((Grows.withExt _ _ _).trans hb1).trans hb2, rfl, rfl, by simp,
                  fun e1 s3 h => (hpe e1 s3 h).elim⟩
              · rename_i heq2
                rw [heq2] at hb2
                exact ⟨_, ((Grows.withExt _ _ _).trans hb1).trans hb2, rfl, rfl, by simp,
                  fun e1 s3 h => (hpe e1 s3 h).elim⟩

/-- C3 (send balance check). Let the fresh balance query of `src` (`GetUserBalance`, never
the cached figure) answer `balance`. If `balance < amount`, `SendTransaction` returns
`(false, err)` with a non-nil error and stops in the world the query left: no invoice
request and no `Pay` call is made. If `amount ≤ balance` (equality included) the next call
is the invoice request for `amount` with `memo` on the wallet of `dst`. -/
theorem C3_send_balance_check {σ : Type} (env : Env σ) (t : Transaction) (src dst : User)
    (amount : Int) (memo : String) (w : World σ) (balance : Int) (src1 : User) (w1 : World σ)
    (hq : GetUserBalance env src w = ((balance, none), src1, w1)) :
    (balance < amount →
      (∃ e, (SendTransaction env t src dst amount memo w).1 = .value (false, some e)) ∧
      (SendTransaction env t src dst amount memo w).2.2.2.2 = w1 ∧
      walletMoves w1.log = walletMoves w.log) ∧
    (amount ≤ balance → ∀ toWal, dst.Wallet = some toWal → ∃ rest,
      (SendTransaction env t src dst amount memo w).2.2.2.2.log =
        w1.log ++ Event.invoice toWal.ID { Out := false, Amount := amount, Memo := memo } :: rest) := by
  obtain ⟨wal, wal1, hwal, hwal1, -⟩ := GetUserBalance_wallet env src w balance src1 w1 hq
  have hquiet := GetUserBalance_quiet env src w
  rw [hq] at hquiet
  constructor
  · intro hlt
    have hST : SendTransaction env t src dst amount memo w =
        (.value (false, some (.text "balance too low.")),
          { t with FromWallet := wal.ID, FromLNbitsID := src.ID }, src1, dst, w1) := by
      unfold SendTransaction
      simp only [hwal, hq, hlt, if_true]
    rw [hST]
    exact ⟨⟨_, rfl⟩, rfl, hquiet.walletMoves⟩
  · intro hle toWal htw
    unfold SendTransaction
    simp only [hwal, hq, not_lt.2 hle, if_false, hwal1, Option.getD_some]
    rcases transfer_cases env { t with FromWallet := wal.ID, FromLNbitsID := src.ID } src1 dst wal1
      amount memo w1 with h | h | h
    · rw [htw] at h
      simp at h
    · obtain ⟨toWal1, e, s, hd, -, heq⟩ := h
      rw [htw] at hd
      obtain rfl := Option.some.inj hd
      rw [heq]
      exact ⟨[], by simp⟩
    · obtain ⟨toWal1, inv, s, hd, -, w2, hg, heq, -⟩ := h
      rw [htw] at hd
      obtain rfl := Option.some.inj hd
      rw [heq]
      obtain ⟨-, l, hl, -⟩ := hg
      exact ⟨Event.pay wal1.ID { Out := true, Bolt11 := inv.PaymentRequest } :: l, by rw [hl]; simp⟩

/-- C6 (send step order). Every run of `SendTransaction` goes one of three ways:
no invoice request and no `Pay` call at all; or the invoice request on the wallet of `dst`
failed, the call returns `(false, that error)` and no `Pay` call was made; or the invoice
was created and exactly one `Pay` call follows it, from the wallet of `src`, on the payment
request of that very invoice, and if that `Pay` fails the call returns `(false, that error)`. -/
theorem C6_send_step_order {σ : Type} (env : Env σ) (t : Transaction) (src dst : User)
    (amount : Int) (memo : String) (w : World σ) :
    walletMoves (SendTransaction env t src dst amount memo w).2.2.2.2.log = walletMoves w.log ∨
    (∃ toWal e s w1, dst.Wallet = some toWal ∧ Grows Event.isEffect w w1 ∧
      env.WalletInvoice toWal { Out := false, Amount := amount, Memo := memo } w1.ext = (.error e, s) ∧
      (SendTransaction env t src dst amount memo w).1 = .value (false, some e) ∧
      walletMoves (SendTransaction env t src dst amount memo w).2.2.2.2.log =
        walletMoves w.log ++ [.invoice toWal.ID { Out := false, Amount := amount, Memo := memo }]) ∨
    (∃ toWal fromWal fromWal1 inv s w1, dst.Wallet = some toWal ∧ src.Wallet = some fromWal ∧
      fromWal1.ID = fromWal.ID ∧ Grows Event.isEffect w w1 ∧
      env.WalletInvoice toWal { Out := false, Amount := amount, Memo := memo } w1.ext = (.ok inv, s) ∧
      walletMoves (SendTransaction env t src dst amount memo w).2.2.2.2.log =
        walletMoves w.log ++ [.invoice toWal.ID { Out := false, Amount := amount, Memo := memo },
          .pay fromWal.ID { Out := true, Bolt11 := inv.PaymentRequest }] ∧
      ∀ e s2, env.WalletPay fromWal1 { Out := true, Bolt11 := inv.PaymentRequest } s = (.error e, s2) →
        (SendTransaction env t src dst amount memo w).1 = .value (false, some e)) := by
  cases hsw : src.Wallet with
  | none =>
    left
    unfold SendTransaction
    simp only [hsw]
  | some wal =>
    cases hq : GetUserBalance env src w with
    | mk r rest =>
      obtain ⟨balance, err⟩ := r
      obtain ⟨src1, w1⟩ := rest
      have hquiet := GetUserBalance_quiet env src w
      rw [hq] at hquiet
      cases err with
      | some e =>
        left
        unfold SendTransaction
        simp only [hsw, hq]
        exact hquiet.walletMoves
      | none =>
        obtain ⟨wal0, wal1, hwal, hwal1, hid⟩ := GetUserBalance_wallet env src w balance src1 w1 hq
        rw [hsw] at hwal
        obtain rfl := Option.some.inj hwal
        by_cases hlt : balance < amount
        · left
          unfold SendTransaction
          simp only [hsw, hq, hlt, if_true]
          exact hquiet.walletMoves
        · have hST : SendTransaction env t src dst amount memo w =
              SendTransaction.transfer env { t with FromWallet := wal.ID, FromLNbitsID := src.ID }
                src1 dst wal1 amount memo w1 := by
            unfold SendTransaction
            simp only [hsw, hq, hlt, if_false, hwal1, Option.getD_some]
          rw [hST]
          rcases transfer_cases env { t with FromWallet := wal.ID, FromLNbitsID := src.ID } src1 dst
            wal1 amount memo w1 with h | h | h
          · left
            rw [h.2]
            exact hquiet.walletMoves
          · right; left
            obtain ⟨toWal, e, s, hd, hinv, heq⟩ := h
            refine ⟨toWal, e, s, w1, hd, hquiet, hinv, by rw [heq], ?_⟩
            rw [heq]
            simp only [withExt_log, emit_log, walletMoves_append, hquiet.walletMoves]
            simp [walletMoves, Event.isInvoice]
          · right; right
            obtain ⟨toWal, inv, s, hd, hinv, w2, hg, heq, -, -, hpay⟩ := h
            refine ⟨toWal, wal, wal1, inv, s, w1, hd, rfl, hid, hquiet, hinv, ?_, hpay⟩
            rw [heq, hg.walletMoves]
            simp only [withExt_log, emit_log, walletMoves_append, hquiet.walletMoves, hid]
            simp [walletMoves, Event.isInvoice, Event.isPay]

/-- Go `SendTransaction` writes no record and leaves the persisted intents alone; it does not
touch the `Success` field. -/
theorem SendTransaction_grows {σ : Type} (env : Env σ) (t : Transaction) (src dst : User)
    (amount : Int) (memo : String) (w : World σ) :
    Grows Event.isRecord w (SendTransaction env t src dst amount memo w).2.2.2.2 ∧
    (SendTransaction env t src dst amount memo w).2.1.Success = t.Success := by
  have hmono : ∀ {a b : World σ}, Grows Event.isEffect a b → Grows Event.isRecord a b :=
    fun h => h.mono isEffect_isRecord
  cases hsw : src.Wallet with
  | none =>
    unfold SendTransaction
    simp only [hsw]
    exact ⟨Grows.refl _ _, trivial⟩
  | some wal =>
    cases hq : GetUserBalance env src w with
    | mk r rest =>
      obtain ⟨balance, err⟩ := r
      obtain ⟨src1, w1⟩ := rest
      have hquiet := GetUserBalance_quiet env src w
      rw [hq] at hquiet
      cases err with
      | some e =>
        unfold SendTransaction
        simp only [hsw, hq]
        exact ⟨hmono hquiet, trivial⟩
      | none =>
        obtain ⟨wal0, wal1, hwal, hwal1, hid⟩ := GetUserBalance_wallet env src w balance src1 w1 hq
        by_cases hlt : balance < amount
        · unfold SendTransaction
          simp only [hsw, hq, hlt, if_true]
          exact ⟨hmono hquiet, trivial⟩
        · have hST : SendTransaction env t src dst amount memo w =
              SendTransaction.transfer env { t with FromWallet := wal.ID, FromLNbitsID := src.ID }
                src1 dst wal1 amount memo w1 := by
            unfold SendTransaction
            simp only [hsw, hq, hlt, if_false, hwal1, Option.getD_some]
          rw [hST]
          constructor
          · rcases transfer_cases env { t with FromWallet := wal.ID, FromLNbitsID := src.ID } src1
              dst wal1 amount memo w1 with h | h | h
            · rw [h.2]
              exact hmono hquiet
            · obtain ⟨toWal, e, s, -, -, heq⟩ := h
              rw [heq]
              exact (hmono hquiet).trans ((Grows.emit _ _ rfl).trans (Grows.withExt _ _ _))
            · obtain ⟨toWal, inv, s, -, -, w2, hg, heq, -⟩ := h
              rw [heq]
              exact (hmono hquiet).trans ((((Grows.emit _ _ rfl).trans (Grows.withExt _ _ _)).trans
                (Grows.emit _ _ rfl)).trans (hmono hg))
          · unfold SendTransaction.transfer
            dsimp only
            repeat
              first
              | rfl
              | split

/-- C4 (audit record). For a transaction as `NewTransaction` builds it (`Success = false`),
whenever `SendTransaction` returns `(success, err)`, on the success path as on every failure
path, `Send` saves the record exactly once, as its last call and hence after every wallet
call of the movement, and the saved record has `Success = success`, the flag `Send` returns. -/
theorem C4_audit_record {σ : Type} (env : Env σ) (t : Transaction) (w : World σ)
    (hfresh : t.Success = false) (success : Bool) (err : Option GoError)
    (t1 : Transaction) (src1 dst1 : User) (w1 : World σ)
    (hst : SendTransaction env t t.From t.To t.Amount t.Memo (w.emit (.send t)) =
      (.value (success, err), t1, src1, dst1, w1)) :
    ∃ record, (Send env t w).2.2.log = w1.log ++ [.txSave record] ∧
      savedRecords (Send env t w).2.2.log = savedRecords w.log ++ [record] ∧
      record.Success = success ∧
      ∀ s e, (Send env t w).1 = .value (s, e) → s = success ∧ e = err := by
  have hg := SendTransaction_grows env t t.From t.To t.Amount t.Memo (w.emit (.send t))
  rw [hst] at hg
  obtain ⟨hgrow, hsucc⟩ := hg
  have hsaved : savedRecords w1.log = savedRecords w.log := by
    rw [hgrow.savedRecords, emit_log, savedRecords_append]
    simp [savedRecords]
  have hrec : (if success = true then
      { ({ t1 with From := src1, To := dst1 } : Transaction) with Success := success }
      else { t1 with From := src1, To := dst1 }).Success = success := by
    cases success with
    | true => rfl
    | false => simpa [hfresh] using hsucc
  refine ⟨if success = true then
      { ({ t1 with From := src1, To := dst1 } : Transaction) with Success := success }
      else { t1 with From := src1, To := dst1 }, ?_, ?_, hrec, ?_⟩
  · unfold Send
    simp only [hst]
    split
    · rfl
    · split <;> rfl
  · unfold Send
    simp only [hst]
    split
    · simp [savedRecords_append, hsaved, savedRecords]
    · split <;> simp [savedRecords_append, hsaved, savedRecords]
  · intro s e h
    unfold Send at h
    simp only [hst] at h
    split at h
    · simpa using h.symm
    · split at h
      · simp at h
      · simpa using h.symm

/-! ### What one `Send` does to the world -/

/-- Go `Send` leaves the persisted intents alone and enters `Send` exactly once. -/
theorem Send_world {σ : Type} (env : Env σ) (t : Transaction) (w : World σ) :
    (Send env t w).2.2.intents = w.intents ∧
    sendCount (Send env t w).2.2.log = sendCount w.log + 1 := by
  have hg := (SendTransaction_grows env t t.From t.To t.Amount t.Memo (w.emit (.send t))).1
  have hc := (hg.mono isRecord_isSend).sendCount
  have hi := hg.1
  have h0 : sendCount (w.emit (.send t)).log = sendCount w.log + 1 := by
    simp [sendCount_append, sendCount, Event.isSend]
  rw [h0] at hc
  rw [emit_intents] at hi
  unfold Send
  split
  · rename_i heq
    rw [heq] at hc hi
    exact ⟨hi, hc⟩
  · rename_i heq
    rw [heq] at hc hi
    dsimp only
    split
    · exact ⟨hi, by simpa [sendCount_append, sendCount, Event.isSend] using hc⟩
    · split <;> exact ⟨hi, by simpa [sendCount_append, sendCount, Event.isSend] using hc⟩

theorem intents_sends {σ : Type} {w w1 : World σ} (h : w1.intents = w.intents) :
    w1.sends = w.sends := by
  simp only [World.intents, Prod.mk.injEq] at h
  exact h.1

theorem intents_receives {σ : Type} {w w1 : World σ} (h : w1.intents = w.intents) :
    w1.receives = w.receives := by
  simp only [World.intents, Prod.mk.injEq] at h
  exact h.2.1

theorem intents_faucets {σ : Type} {w w1 : World σ} (h : w1.intents = w.intents) :
    w1.faucets = w.faucets := by
  simp only [World.intents, Prod.mk.injEq] at h
  exact h.2.2.1

theorem intents_pays {σ : Type} {w w1 : World σ} (h : w1.intents = w.intents) :
    w1.pays = w.pays := by
  simp only [World.intents, Prod.mk.injEq] at h
  exact h.2.2.2

theorem Store.put_same {α : Type} (s : Store α) (id : String) (v : α) : (s.put id v) id = some v := by
  simp [Store.put]

theorem Store.Get_some {α : Type} (s : Store α) (id : String) (v : α) (h : s id = some v) :
    s.Get id = .ok v := by
  simp [Store.Get, h]

/-! ### inline_send.go -/

/-- Once the accept handler executes the send (lines 225-258), the intent it hands to the
deferred `Set` is inactive, and `Send` was entered exactly once. -/
theorem execute_spec {σ : Type} (env : Env σ) (inlineSend : InlineSend) (dst : User)
    (aliased : Bool) (w : World σ) :
    (acceptInlineSendHandler.execute env inlineSend dst aliased w).2.1.ID = inlineSend.ID ∧
    (acceptInlineSendHandler.execute env inlineSend dst aliased w).2.1.Active = false ∧
    sendCount (acceptInlineSendHandler.execute env inlineSend dst aliased w).2.2.log =
      sendCount w.log + 1 := by
  unfold acceptInlineSendHandler.execute
  dsimp only
  generalize hS : Send env _ (w.setSend env _) = out
  have hw := Send_world env
    ({ NewTransaction inlineSend.From dst inlineSend.Amount "inline send" with
        Memo := "💸 Send from " ++ GetUserStr inlineSend.From.Telegram ++ " to " ++
          GetUserStr dst.Telegram ++ "." })
    (w.setSend env { inlineSend with Active := false })
  rw [hS] at hw
  have h0 : sendCount (w.setSend env { inlineSend with Active := false }).log = sendCount w.log := by
    simp [World.setSend, sendCount_append, sendCount, Event.isSend]
  rw [h0] at hw
  obtain ⟨r, t1, w2⟩ := out
  cases r with
  | panicked => exact ⟨rfl, rfl, hw.2⟩
  | value p =>
    obtain ⟨success, err⟩ := p
    cases success with
    | false =>
      cases err with
      | none => exact ⟨rfl, rfl, hw.2⟩
      | some e =>
        refine ⟨rfl, rfl, ?_⟩
        simpa [sendCount_append, sendCount, Event.isSend] using hw.2
    | true =>
      refine ⟨rfl, rfl, ?_⟩
      simpa [sendCount_append, sendCount, Event.isSend] using hw.2

/-- The body of the accept handler keeps the ID; either it never enters `Send`, or it
enters `Send` exactly once and hands an inactive intent to the deferred `Set`. -/
theorem acceptInlineSend_body_spec {σ : Type} (env : Env σ) (ctx : Ctx) (inlineSend : InlineSend)
    (w : World σ) :
    (acceptInlineSendHandler.body env ctx inlineSend w).2.1.ID = inlineSend.ID ∧
    (sendCount (acceptInlineSendHandler.body env ctx inlineSend w).2.2.log = sendCount w.log ∨
      (sendCount (acceptInlineSendHandler.body env ctx inlineSend w).2.2.log = sendCount w.log + 1 ∧
        (acceptInlineSendHandler.body env ctx inlineSend w).2.1.Active = false)) := by
  unfold acceptInlineSendHandler.body
  dsimp only
  split
  · exact ⟨rfl, Or.inl rfl⟩
  · have hid : (if inlineSend.To_SpecificUser = true then inlineSend
        else { inlineSend with To := ctx.User }).ID = inlineSend.ID := by
      split <;> rfl
    split
    · refine ⟨hid, Or.inl ?_⟩
      simp [sendCount_append, sendCount, Event.isSend]
    · have hu := ((UserExists_quiet env ctx.User.Telegram w).mono isEffect_isSend).sendCount
      split
      · rename_i heq
        rw [heq] at hu
        obtain ⟨h1, h2, h3⟩ := execute_spec env
          (if inlineSend.To_SpecificUser = true then inlineSend else { inlineSend with To := ctx.User })
          ctx.User (!inlineSend.To_SpecificUser) (by assumption)
        exact ⟨h1.trans hid, Or.inr ⟨by rw [h3, hu], h2⟩⟩
      · rename_i heq
        rw [heq] at hu
        have hc := ((CreateWalletForTelegramUser_quiet env ctx.User.Telegram (by assumption)).mono
          isEffect_isSend).sendCount
        split
        · rename_i heq2
          rw [heq2] at hc
          exact ⟨hid, Or.inl (by rw [hc, hu])⟩
        · rename_i heq2
          rw [heq2] at hc
          obtain ⟨h1, h2, h3⟩ := execute_spec env
            (if inlineSend.To_SpecificUser = true then inlineSend else { inlineSend with To := ctx.User })
            (by assumption) false (by assumption)
          exact ⟨h1.trans hid, Or.inr ⟨by rw [h3, hc, hu], h2⟩⟩

/-- One accept trigger on a stored inline send: an inactive intent is rejected with
`NotActiveError`, untouched and without a `Send`; an active one, when the writes under the
ID succeed, is stored again under the same ID, with at most one `Send`, and inactive if
`Send` was entered. -/
theorem acceptInlineSend_step {σ : Type} (env : Env σ) (ctx : Ctx) (w : World σ)
    (s : InlineSend) (hs : w.sends ctx.Data = some s) (hid : s.ID = ctx.Data) :
    (s.Active = false →
      (acceptInlineSendHandler env ctx w).1 = .value (some (.create .NotActiveError)) ∧
      (acceptInlineSendHandler env ctx w).2.sends = w.sends ∧
      sendCount (acceptInlineSendHandler env ctx w).2.log = sendCount w.log) ∧
    (s.Active = true → (∀ l, env.StoreSet l ctx.Data = none) →
      ∃ s1, (acceptInlineSendHandler env ctx w).2.sends ctx.Data = some s1 ∧
      s1.ID = ctx.Data ∧
      (sendCount (acceptInlineSendHandler env ctx w).2.log = sendCount w.log ∨
        (sendCount (acceptInlineSendHandler env ctx w).2.log = sendCount w.log + 1 ∧
          s1.Active = false))) := by
  have hget : (w.emit (.lock ctx.Data)).sends.Get ctx.Data = .ok s :=
    Store.Get_some _ _ _ hs
  constructor
  · intro hact
    unfold acceptInlineSendHandler
    simp only [hget, hact]
    refine ⟨rfl, rfl, ?_⟩
    simp [sendCount_append, sendCount, Event.isSend]
  · intro hact hsave
    unfold acceptInlineSendHandler
    simp only [hget, hact]
    obtain ⟨h1, h2⟩ := acceptInlineSend_body_spec env ctx s (w.emit (.lock ctx.Data))
    generalize acceptInlineSendHandler.body env ctx s (w.emit (.lock ctx.Data)) = out at h1 h2
    obtain ⟨r, s1, w1⟩ := out
    have hkey : s1.ID = ctx.Data := h1.trans hid
    refine ⟨s1, ?_, hkey, ?_⟩
    · simp [World.setSend, World.saveError, World.emit, hkey, hsave, Store.put]
    · have h0 : sendCount (w.emit (.lock ctx.Data)).log = sendCount w.log := by
        simp [sendCount_append, sendCount, Event.isSend]
      rw [h0] at h2
      rcases h2 with h2 | ⟨h2, h3⟩
      · left
        simpa [World.setSend, sendCount_append, sendCount, Event.isSend] using h2
      · right
        exact ⟨by simpa [World.setSend, sendCount_append, sendCount, Event.isSend] using h2, h3⟩

theorem runTriggers_cons {σ : Type} (handler : Ctx → World σ → Ret (Option GoError) × World σ)
    (c : Ctx) (cs : List Ctx) (w : World σ) :
    runTriggers handler (c :: cs) w =
      ((handler c w).1 :: (runTriggers handler cs (handler c w).2).1,
        (runTriggers handler cs (handler c w).2).2) := rfl

/-- Triggers on an inactive inline send are all rejected, store nothing and send nothing. -/
theorem acceptInlineSend_run_spent {σ : Type} (env : Env σ) (id : String) (cs : List Ctx) :
    ∀ (w : World σ) (s : InlineSend), w.sends id = some s → s.ID = id → s.Active = false →
      (∀ c ∈ cs, c.Data = id) →
      (∀ r ∈ (runTriggers (acceptInlineSendHandler env) cs w).1,
        r = .value (some (.create .NotActiveError))) ∧
      (runTriggers (acceptInlineSendHandler env) cs w).2.sends = w.sends ∧
      sendCount (runTriggers (acceptInlineSendHandler env) cs w).2.log = sendCount w.log := by
  induction cs with
  | nil => intro w s _ _ _ _; exact ⟨by simp [runTriggers], rfl, rfl⟩
  | cons c cs ih =>
    intro w s hs hid hact hcs
    have hc : c.Data = id := hcs c (List.mem_cons_self _ _)
    subst hc
    obtain ⟨h1, h2, h3⟩ := (acceptInlineSend_step env c w s hs hid).1 hact
    obtain ⟨i1, i2, i3⟩ := ih (acceptInlineSendHandler env c w).2 s (by rw [h2]; exact hs) hid hact
      (fun x hx => hcs x (List.mem_cons_of_mem _ hx))
    rw [runTriggers_cons]
    refine ⟨?_, by rw [i2, h2], by rw [i3, h3]⟩
    intro r hr
    rcases List.mem_cons.1 hr with h | h
    · rw [h, h1]
    · exact i1 r h

/-- Over any sequence of accept triggers on a stored inline send, when the writes under the
ID succeed: either `Send` was never entered, or it was entered exactly once and the stored
intent is inactive. -/
theorem acceptInlineSend_run {σ : Type} (env : Env σ) (id : String) (cs : List Ctx)
    (hsave : ∀ l, env.StoreSet l id = none) :
    ∀ (w : World σ) (s : InlineSend), w.sends id = some s → s.ID = id →
      (∀ c ∈ cs, c.Data = id) →
      ∃ s1, (runTriggers (acceptInlineSendHandler env) cs w).2.sends id = some s1 ∧ s1.ID = id ∧
        (sendCount (runTriggers (acceptInlineSendHandler env) cs w).2.log = sendCount w.log ∨
          (sendCount (runTriggers (acceptInlineSendHandler env) cs w).2.log = sendCount w.log + 1 ∧
            s1.Active = false)) := by
  induction cs with
  | nil => intro w s hs hid _; exact ⟨s, hs, hid, Or.inl rfl⟩
  | cons c cs ih =>
    intro w s hs hid hcs
    have hc : c.Data = id := hcs c (List.mem_cons_self _ _)
    have hrest : ∀ x ∈ cs, x.Data = id := fun x hx => hcs x (List.mem_cons_of_mem _ hx)
    subst hc
    rw [runTriggers_cons]
    cases hact : s.Active with
    | false =>
      obtain ⟨-, h2, h3⟩ := (acceptInlineSend_step env c w s hs hid).1 hact
      obtain ⟨s1, i1, i2, i3⟩ := ih (acceptInlineSendHandler env c w).2 s
        (by rw [h2]; exact hs) hid hrest
      exact ⟨s1, i1, i2, by rw [h3] at i3; exact i3⟩
    | true =>
      obtain ⟨s1, h1, h2, h3⟩ := (acceptInlineSend_step env c w s hs hid).2 hact hsave
      rcases h3 with h3 | ⟨h3, h4⟩
      · obtain ⟨s2, i1, i2, i3⟩ := ih (acceptInlineSendHandler env c w).2 s1 h1 h2 hrest
        exact ⟨s2, i1, i2, by rw [h3] at i3; exact i3⟩
      · obtain ⟨-, i2, i3⟩ := acceptInlineSend_run_spent env c.Data cs
          (acceptInlineSendHandler env c w).2 s1 h1 h2 h4 hrest
        exact ⟨s1, by rw [i2]; exact h1, h2, Or.inr ⟨by rw [i3, h3], h4⟩⟩

/-- C1, counterexample: every write to the store fails. `bob` accepts the example inline
send and is paid; the intent is still stored active, so `carol` accepts it too and is paid
as well: `Send` was entered twice and the second trigger was not rejected. -/
theorem C1_counterexample_failed_save_sends_twice :
    sendCount (runTriggers (acceptInlineSendHandler
        (exampleEnv { Scenario.allGood with storeFails := true }))
      [exampleCtx "send:1" bob, exampleCtx "send:1" carol] exampleWorld).2.log = 2 ∧
    (runTriggers (acceptInlineSendHandler
        (exampleEnv { Scenario.allGood with storeFails := true }))
      [exampleCtx "send:1" bob, exampleCtx "send:1" carol] exampleWorld).1 =
      [.value none, .value none] ∧
    payCount (runTriggers (acceptInlineSendHandler
        (exampleEnv { Scenario.allGood with storeFails := true }))
      [exampleCtx "send:1" bob, exampleCtx "send:1" carol] exampleWorld).2.log = 2 ∧
    ((runTriggers (acceptInlineSendHandler
        (exampleEnv { Scenario.allGood with storeFails := true }))
      [exampleCtx "send:1" bob, exampleCtx "send:1" carol] exampleWorld).2.sends "send:1").map
      (fun s => s.Active) = some true := by
  decide

/-- C1 as amended (inline send, at most once, while the store works). Take an inline send
stored under its ID, writes under that ID that succeed, and any finite sequence
`pre ++ post` of accept triggers on that ID, with any clickers and any behaviour of the
other collaborators. Over the whole sequence `Send` is entered at most once; and if `Send`
was entered during `pre`, every trigger of `post` returns `NotActiveError` and enters no
`Send`. -/
theorem C1_inline_send_at_most_once {σ : Type} (env : Env σ) (id : String) (s : InlineSend)
    (w : World σ) (pre post : List Ctx)
    (hsave : ∀ l, env.StoreSet l id = none)
    (hs : w.sends id = some s) (hid : s.ID = id)
    (hpre : ∀ c ∈ pre, c.Data = id) (hpost : ∀ c ∈ post, c.Data = id) :
    sendCount (runTriggers (acceptInlineSendHandler env) post
        (runTriggers (acceptInlineSendHandler env) pre w).2).2.log ≤ sendCount w.log + 1 ∧
    (sendCount w.log < sendCount (runTriggers (acceptInlineSendHandler env) pre w).2.log →
      (∀ r ∈ (runTriggers (acceptInlineSendHandler env) post
          (runTriggers (acceptInlineSendHandler env) pre w).2).1,
        r = .value (some (.create .NotActiveError))) ∧
      sendCount (runTriggers (acceptInlineSendHandler env) post
          (runTriggers (acceptInlineSendHandler env) pre w).2).2.log =
        sendCount (runTriggers (acceptInlineSendHandler env) pre w).2.log) := by
  obtain ⟨s1, h1, h2, h3⟩ := acceptInlineSend_run env id pre hsave w s hs hid hpre
  constructor
  · rcases h3 with h3 | ⟨h3, h4⟩
    · obtain ⟨s2, -, -, i3⟩ := acceptInlineSend_run env id post hsave _ s1 h1 h2 hpost
      rcases i3 with i3 | ⟨i3, -⟩ <;> omega
    · obtain ⟨-, -, i3⟩ := acceptInlineSend_run_spent env id post _ s1 h1 h2 h4 hpost
      omega
  · intro hlt
    rcases h3 with h3 | ⟨h3, h4⟩
    · omega
    · obtain ⟨i1, -, i3⟩ := acceptInlineSend_run_spent env id post _ s1 h1 h2 h4 hpost
      exact ⟨i1, i3⟩

/-! ### Who a transaction is between -/

theorem GetUserBalance_telegram {σ : Type} (env : Env σ) (user : User) (w : World σ) :
    (GetUserBalance env user w).2.1.Telegram = user.Telegram := by
  unfold GetUserBalance
  split
  · rfl
  · dsimp only
    split
    · rfl
    · split <;> rfl

theorem GetUserBalance_telegram_eq {σ : Type} {env : Env σ} {user : User} {w : World σ}
    {r : Int × Option GoError} {user1 : User} {w1 : World σ}
    (h : GetUserBalance env user w = (r, user1, w1)) : user1.Telegram = user.Telegram := by
  have := GetUserBalance_telegram env user w
  rw [h] at this
  exact this

theorem transfer_telegram {σ : Type} (env : Env σ) (t : Transaction) (src dst : User)
    (fromWal : Wallet) (amount : Int) (memo : String) (w : World σ) :
    (SendTransaction.transfer env t src dst fromWal amount memo w).2.2.1.Telegram = src.Telegram ∧
    (SendTransaction.transfer env t src dst fromWal amount memo w).2.2.2.1.Telegram = dst.Telegram := by
  unfold SendTransaction.transfer
  dsimp only
  split
  · exact ⟨rfl, rfl⟩
  · split
    · exact ⟨rfl, rfl⟩
    · split
      · exact ⟨rfl, rfl⟩
      · split
        · rename_i heq
          exact ⟨GetUserBalance_telegram_eq heq, rfl⟩
        · rename_i heq
          split
          · rename_i heq2
            exact ⟨GetUserBalance_telegram_eq heq, GetUserBalance_telegram_eq heq2⟩
          · rename_i heq2
            exact ⟨GetUserBalance_telegram_eq heq, GetUserBalance_telegram_eq heq2⟩

theorem SendTransaction_telegram {σ : Type} (env : Env σ) (t : Transaction) (src dst : User)
    (amount : Int) (memo : String) (w : World σ) :
    (SendTransaction env t src dst amount memo w).2.2.1.Telegram = src.Telegram ∧
    (SendTransaction env t src dst amount memo w).2.2.2.1.Telegram = dst.Telegram := by
  unfold SendTransaction
  split
  · exact ⟨rfl, rfl⟩
  · dsimp only
    split
    · rename_i heq
      exact ⟨GetUserBalance_telegram_eq heq, rfl⟩
    · rename_i heq
      have h1 := GetUserBalance_telegram_eq heq
      split
      · exact ⟨h1, rfl⟩
      · exact ⟨(transfer_telegram env _ _ _ _ _ _ _).1.trans h1,
          (transfer_telegram env _ _ _ _ _ _ _).2⟩

/-- Go `Send` changes neither participant's Telegram identity. -/
theorem Send_telegram {σ : Type} (env : Env σ) (t : Transaction) (w : World σ) :
    (Send env t w).2.1.From.Telegram = t.From.Telegram ∧
    (Send env t w).2.1.To.Telegram = t.To.Telegram := by
  obtain ⟨h1, h2⟩ := SendTransaction_telegram env t t.From t.To t.Amount t.Memo (w.emit (.send t))
  unfold Send
  split
  · rename_i heq
    rw [heq] at h1 h2
    exact ⟨h1, h2⟩
  · rename_i heq
    rw [heq] at h1 h2
    dsimp only
    split
    · split <;> exact ⟨h1, h2⟩
    · split <;> split <;> exact ⟨h1, h2⟩

/-! ### faucet.go -/

theorem finishFaucet_spec {σ : Type} (env : Env σ) (f : InlineFaucet) (w : World σ) :
    (finishFaucet env f w).1 = { f with
      Message := (finishFaucet env f w).1.Message, Active := false } ∧
    Grows Event.isEffect w (finishFaucet env f w).2 := by
  unfold finishFaucet
  dsimp only
  refine ⟨rfl, ?_⟩
  split
  · exact (Grows.emit _ _ rfl).trans (Grows.emit _ _ rfl)
  · exact Grows.emit _ _ rfl

/-- One claim once the claimant has a wallet (lines 304-353): `Send` is entered exactly
once. If it succeeds the claimant is appended to `To`, `NTaken` goes up by one and
`RemainingAmount` down by `PerUserAmount`; if it fails the faucet is finished with the
counters untouched; if it panics nothing but the cached balances changed. -/
theorem faucet_claim_spec {σ : Type} (env : Env σ) (f : InlineFaucet) (dst : User) (w : World σ) :
    (acceptInlineFaucetHandler.claim env f dst w).2.2.intents = w.intents ∧
    sendCount (acceptInlineFaucetHandler.claim env f dst w).2.2.log = sendCount w.log + 1 ∧
    (acceptInlineFaucetHandler.claim env f dst w).2.1.ID = f.ID ∧
    (acceptInlineFaucetHandler.claim env f dst w).2.1.PerUserAmount = f.PerUserAmount ∧
    (acceptInlineFaucetHandler.claim env f dst w).2.1.From.Telegram = f.From.Telegram ∧
    (((acceptInlineFaucetHandler.claim env f dst w).1 = .value none ∧
        (acceptInlineFaucetHandler.claim env f dst w).2.1.RemainingAmount =
          wrapInt64 (f.RemainingAmount - f.PerUserAmount) ∧
        (acceptInlineFaucetHandler.claim env f dst w).2.1.NTaken = wrapInt64 (f.NTaken + 1) ∧
        (∃ u, (acceptInlineFaucetHandler.claim env f dst w).2.1.To = f.To ++ [u] ∧
          u.Telegram = dst.Telegram) ∧
        (acceptInlineFaucetHandler.claim env f dst w).2.1.Active = f.Active) ∨
      ((acceptInlineFaucetHandler.claim env f dst w).1 = .panicked ∧
        (acceptInlineFaucetHandler.claim env f dst w).2.1.RemainingAmount = f.RemainingAmount ∧
        (acceptInlineFaucetHandler.claim env f dst w).2.1.NTaken = f.NTaken ∧
        (acceptInlineFaucetHandler.claim env f dst w).2.1.To = f.To ∧
        (acceptInlineFaucetHandler.claim env f dst w).2.1.Active = f.Active) ∨
      (∃ e, (acceptInlineFaucetHandler.claim env f dst w).1 = .value (some e) ∧
        (acceptInlineFaucetHandler.claim env f dst w).2.1.RemainingAmount = f.RemainingAmount ∧
        (acceptInlineFaucetHandler.claim env f dst w).2.1.NTaken = f.NTaken ∧
        (acceptInlineFaucetHandler.claim env f dst w).2.1.To = f.To ∧
        (acceptInlineFaucetHandler.claim env f dst w).2.1.Active = false)) := by
  unfold acceptInlineFaucetHandler.claim
  dsimp only
  generalize ht : ({ NewTransaction f.From dst
      (if (!dst.Initialized) = true then { f with UserNeedsWallet := true } else f).PerUserAmount
      "faucet" with
        Memo := "🚰 Faucet from " ++ GetUserStr f.From.Telegram ++ " to " ++
          GetUserStr dst.Telegram ++ "." } : Transaction) = t
  have htf : t.From.Telegram = f.From.Telegram := by rw [← ht]; rfl
  have htt : t.To.Telegram = dst.Telegram := by rw [← ht]; rfl
  have hf1 : ∀ g : InlineFaucet,
      g = (if (!dst.Initialized) = true then { f with UserNeedsWallet := true } else f) →
      g.ID = f.ID ∧ g.PerUserAmount = f.PerUserAmount ∧ g.RemainingAmount = f.RemainingAmount ∧
      g.NTaken = f.NTaken ∧ g.To = f.To ∧ g.Active = f.Active := by
    intro g hg
    rw [hg]
    split <;> exact ⟨rfl, rfl, rfl, rfl, rfl, rfl⟩
  generalize hg : (if (!dst.Initialized) = true then { f with UserNeedsWallet := true } else f) = g
  obtain ⟨g1, g2, g3, g4, g5, g6⟩ := hf1 g hg.symm
  obtain ⟨hi, hc⟩ := Send_world env t w
  obtain ⟨hsf, hst⟩ := Send_telegram env t w
  generalize Send env t w = out at hi hc hsf hst
  obtain ⟨r, t1, w1⟩ := out
  dsimp only at hi hc hsf hst
  cases r with
  | panicked =>
    exact ⟨hi, hc, g1, g2, hsf.trans htf, Or.inr (Or.inl ⟨rfl, g3, g4, g5, g6⟩)⟩
  | value p =>
    obtain ⟨success, err⟩ := p
    cases success with
    | false =>
      cases err with
      | none =>
        simp only [Bool.not_false, if_true]
        exact ⟨hi, hc, g1, g2, hsf.trans htf, Or.inr (Or.inl ⟨trivial, g3, g4, g5, g6⟩)⟩
      | some e =>
        obtain ⟨hff, hfg⟩ := finishFaucet_spec env { g with From := t1.From } w1
        simp only [Bool.not_false, if_true]
        generalize finishFaucet env { g with From := t1.From } w1 = fin at hff hfg
        obtain ⟨f3, w2⟩ := fin
        dsimp only at hff hfg
        refine ⟨hfg.1.trans hi, ?_, ?_, ?_, ?_, Or.inr (Or.inr ⟨_, rfl, ?_, ?_, ?_, ?_⟩)⟩
        · rw [(hfg.mono isEffect_isSend).sendCount, hc]
        · rw [hff]; exact g1
        · rw [hff]; exact g2
        · rw [hff]; exact hsf.trans htf
        · rw [hff]; exact g3
        · rw [hff]; exact g4
        · rw [hff]; exact g5
        · rw [hff]
    | true =>
      simp only [Bool.not_true, Bool.false_eq_true, if_false]
      refine ⟨?_, ?_, g1, g2, hsf.trans htf, Or.inl ⟨trivial, ?_, ?_, ⟨t1.To, ?_, hst.trans htt⟩, g6⟩⟩
      · split <;> simpa using hi
      · split <;> simpa [sendCount_append, sendCount, Event.isSend] using hc
      · simp [g2, g3]
      · simp [g4]
      · simp [g5]

theorem CreateWalletForTelegramUser_telegram {σ : Type} {env : Env σ} {tbUser : TgUser}
    {w w1 : World σ} {u : User}
    (h : CreateWalletForTelegramUser env tbUser w = (.ok u, w1)) : u.Telegram = tbUser := by
  unfold CreateWalletForTelegramUser at h
  split at h
  · simp at h
  · dsimp only at h
    split at h
    · simp at h
    · split at h
      · simp at h
      · simp only [Prod.mk.injEq, Except.ok.injEq] at h
        rw [← h.1]

/-- The closing lines 355-360 return nil, write no record, and finish the faucet exactly
when less than one share is left. -/
theorem faucet_finish_spec {σ : Type} (env : Env σ) (f : InlineFaucet) (w : World σ) :
    (acceptInlineFaucetHandler.finish env f w).1 = .value none ∧
    Grows Event.isEffect w (acceptInlineFaucetHandler.finish env f w).2.2 ∧
    (acceptInlineFaucetHandler.finish env f w).2.1 =
      { f with
        Message := (acceptInlineFaucetHandler.finish env f w).2.1.Message
        Active := if f.RemainingAmount < f.PerUserAmount then false else f.Active } := by
  obtain ⟨h1, h2⟩ := finishFaucet_spec env f w
  unfold acceptInlineFaucetHandler.finish
  by_cases h : f.RemainingAmount < f.PerUserAmount
  · simp only [h, if_true]
    generalize finishFaucet env f w = fin at h1 h2
    obtain ⟨f1, w2⟩ := fin
    exact ⟨trivial, h2, h1⟩
  · simp only [h, if_false]
    exact ⟨trivial, Grows.refl _ _, trivial⟩

/-- A claim with its closing lines, on an active faucet: `Send` is entered once and the
outcome is `taken`, `failed` or `crashed`. -/
theorem faucet_claimAndFinish_spec {σ : Type} (env : Env σ) (f : InlineFaucet) (dst : User)
    (w : World σ) (hact : f.Active = true) (hle : f.PerUserAmount ≤ f.RemainingAmount) :
    (acceptInlineFaucetHandler.claimAndFinish env f dst w).2.2.intents = w.intents ∧
    sendCount (acceptInlineFaucetHandler.claimAndFinish env f dst w).2.2.log = sendCount w.log + 1 ∧
    (acceptInlineFaucetHandler.claimAndFinish env f dst w).2.1.ID = f.ID ∧
    (acceptInlineFaucetHandler.claimAndFinish env f dst w).2.1.PerUserAmount = f.PerUserAmount ∧
    (acceptInlineFaucetHandler.claimAndFinish env f dst w).2.1.From.Telegram = f.From.Telegram ∧
    FaucetOutcome f (acceptInlineFaucetHandler.claimAndFinish env f dst w).2.1 dst.Telegram
      (acceptInlineFaucetHandler.claimAndFinish env f dst w).1 1 := by
  obtain ⟨c1, c2, c3, c4, c5, c6⟩ := faucet_claim_spec env f dst w
  unfold acceptInlineFaucetHandler.claimAndFinish
  generalize acceptInlineFaucetHandler.claim env f dst w = out at c1 c2 c3 c4 c5 c6
  obtain ⟨r, f1, w1⟩ := out
  dsimp only at c1 c2 c3 c4 c5 c6
  rcases c6 with ⟨hr, h1, h2, h3, h4⟩ | ⟨hr, h1, h2, h3, h4⟩ | ⟨e, hr, h1, h2, h3, h4⟩
  · subst hr
    dsimp only
    obtain ⟨e1, e2, e3⟩ := faucet_finish_spec env f1 w1
    generalize acceptInlineFaucetHandler.finish env f1 w1 = fin at e1 e2 e3
    obtain ⟨r2, f2, w2⟩ := fin
    dsimp only at e1 e2 e3
    subst e1
    refine ⟨e2.1.trans c1, by rw [(e2.mono isEffect_isSend).sendCount, c2], ?_, ?_, ?_, Or.inl
      ⟨rfl, hle, rfl, ?_, ?_, ?_, ?_⟩⟩
    · rw [e3]; exact c3
    · rw [e3]; exact c4
    · rw [e3]; exact c5
    · rw [e3]; exact h1
    · rw [e3]; exact h2
    · rw [e3]; exact h3
    · rw [e3]
      dsimp only
      by_cases hlt : f1.RemainingAmount < f1.PerUserAmount
      · simp only [hlt, if_true]
        constructor
        · intro h; cases h
        · intro h; omega
      · simp only [hlt, if_false, h4, hact, true_iff]
        omega
  · subst hr
    exact ⟨c1, c2, c3, c4, c5, Or.inr (Or.inr (Or.inl ⟨rfl, rfl, h1, h2, h3, h4.trans hact⟩))⟩
  · subst hr
    exact ⟨c1, c2, c3, c4, c5, Or.inr (Or.inl ⟨⟨e, rfl⟩, rfl, h1, h2, h3, h4⟩)⟩

/-- The body of the faucet accept handler on an active faucet. -/
theorem faucet_body_spec {σ : Type} (env : Env σ) (ctx : Ctx) (f : InlineFaucet) (w : World σ)
    (hact : f.Active = true) :
    (acceptInlineFaucetHandler.body env ctx f w).2.2.intents = w.intents ∧
    (acceptInlineFaucetHandler.body env ctx f w).2.1.ID = f.ID ∧
    (acceptInlineFaucetHandler.body env ctx f w).2.1.PerUserAmount = f.PerUserAmount ∧
    (acceptInlineFaucetHandler.body env ctx f w).2.1.From.Telegram = f.From.Telegram ∧
    ∃ n, sendCount (acceptInlineFaucetHandler.body env ctx f w).2.2.log = sendCount w.log + n ∧
      FaucetOutcome f (acceptInlineFaucetHandler.body env ctx f w).2.1 ctx.User.Telegram
        (acceptInlineFaucetHandler.body env ctx f w).1 n := by
  unfold acceptInlineFaucetHandler.body
  dsimp only
  by_cases hle : f.PerUserAmount ≤ f.RemainingAmount
  · simp only [ge_iff_le, hle, if_true]
    have hu := UserExists_quiet env ctx.User.Telegram w
    split
    · rename_i w1 heq
      rw [heq] at hu
      obtain ⟨c1, c2, c3, c4, c5, c6⟩ := faucet_claimAndFinish_spec env f ctx.User w1 hact hle
      exact ⟨c1.trans hu.1, c3, c4, c5, 1,
        by rw [c2, (hu.mono isEffect_isSend).sendCount], c6⟩
    · rename_i w1 heq
      rw [heq] at hu
      have hc := CreateWalletForTelegramUser_quiet env ctx.User.Telegram w1
      split
      · rename_i e w2 heq2
        rw [heq2] at hc
        exact ⟨hc.1.trans hu.1, rfl, rfl, rfl, 0,
          by rw [(hc.mono isEffect_isSend).sendCount, (hu.mono isEffect_isSend).sendCount]; rfl,
          Or.inr (Or.inr (Or.inr (Or.inl ⟨⟨e, rfl⟩, rfl, rfl, rfl, rfl, hact⟩)))⟩
      · rename_i dst1 w2 heq2
        have ht := CreateWalletForTelegramUser_telegram heq2
        rw [heq2] at hc
        obtain ⟨c1, c2, c3, c4, c5, c6⟩ := faucet_claimAndFinish_spec env f dst1 w2 hact hle
        rw [ht] at c6
        exact ⟨(c1.trans hc.1).trans hu.1, c3, c4, c5, 1,
          by rw [c2, (hc.mono isEffect_isSend).sendCount, (hu.mono isEffect_isSend).sendCount], c6⟩
  · simp only [ge_iff_le, hle, if_false]
    obtain ⟨e1, e2, e3⟩ := faucet_finish_spec env f w
    generalize acceptInlineFaucetHandler.finish env f w = fin at e1 e2 e3
    obtain ⟨r2, f2, w2⟩ := fin
    dsimp only at e1 e2 e3
    subst e1
    have hlt : f.RemainingAmount < f.PerUserAmount := not_le.1 hle
    refine ⟨e2.1, ?_, ?_, ?_, 0, by rw [(e2.mono isEffect_isSend).sendCount]; rfl,
      Or.inr (Or.inr (Or.inr (Or.inr ⟨rfl, hlt, rfl, ?_, ?_, ?_, ?_⟩)))⟩
    all_goals rw [e3]
    simp only [hlt, if_true]

/-- One accept trigger on a stored faucet. An inactive faucet rejects with
`NotActiveError`, stores nothing and sends nothing. An active faucet, for a claimant who is
neither the creator nor already in `To`, is stored again under the same ID with one of
the five outcomes, when the writes under the ID succeed. -/
theorem faucet_step {σ : Type} (env : Env σ) (ctx : Ctx) (w : World σ) (f : InlineFaucet)
    (hs : w.faucets ctx.Data = some f) (hid : f.ID = ctx.Data) :
    (f.Active = false →
      (acceptInlineFaucetHandler env ctx w).1 = .value (some (.create .NotActiveError)) ∧
      (acceptInlineFaucetHandler env ctx w).2.faucets = w.faucets ∧
      sendCount (acceptInlineFaucetHandler env ctx w).2.log = sendCount w.log) ∧
    (f.Active = true → f.From.Telegram.ID ≠ ctx.User.Telegram.ID →
      (∀ a ∈ f.To, a.Telegram.ID ≠ ctx.User.Telegram.ID) →
      (∀ l, env.StoreSet l ctx.Data = none) →
      ∃ f1 n, (acceptInlineFaucetHandler env ctx w).2.faucets ctx.Data = some f1 ∧
        f1.ID = ctx.Data ∧ f1.PerUserAmount = f.PerUserAmount ∧
        f1.From.Telegram = f.From.Telegram ∧
        sendCount (acceptInlineFaucetHandler env ctx w).2.log = sendCount w.log + n ∧
        FaucetOutcome f f1 ctx.User.Telegram (acceptInlineFaucetHandler env ctx w).1 n) := by
  have hget : (w.emit (.lock ctx.Data)).faucets.Get ctx.Data = .ok f := Store.Get_some _ _ _ hs
  constructor
  · intro hact
    unfold acceptInlineFaucetHandler
    simp only [hget, hact, Bool.not_false, if_true]
    obtain ⟨-, h2⟩ := finishFaucet_spec env f (w.emit (.lock ctx.Data))
    generalize finishFaucet env f (w.emit (.lock ctx.Data)) = fin at h2
    obtain ⟨f1, w1⟩ := fin
    dsimp only at h2 ⊢
    refine ⟨trivial, ?_, ?_⟩
    · have := intents_faucets h2.1
      simpa [World.emit] using this
    · have := (h2.mono isEffect_isSend).sendCount
      simpa [sendCount_append, sendCount, Event.isSend] using this
  · intro hact hown hnew hsave
    have hany : f.To.any (fun a => a.Telegram.ID == ctx.User.Telegram.ID) = false := by
      rw [List.any_eq_false]
      intro a ha
      simpa using hnew a ha
    unfold acceptInlineFaucetHandler
    simp only [hget, hact, hown, hany, Bool.not_true, Bool.false_eq_true, if_false]
    obtain ⟨b1, b2, b3, b4, n, b5, b6⟩ := faucet_body_spec env ctx f (w.emit (.lock ctx.Data)) hact
    generalize acceptInlineFaucetHandler.body env ctx f (w.emit (.lock ctx.Data)) = out
      at b1 b2 b3 b4 b5 b6
    obtain ⟨r, f1, w1⟩ := out
    dsimp only at b1 b2 b3 b4 b5 b6
    have hkey : f1.ID = ctx.Data := b2.trans hid
    refine ⟨f1, n, ?_, hkey, b3, b4, ?_, b6⟩
    · simp [World.setFaucet, World.saveError, World.emit, hkey, hsave, Store.put]
    · have h0 : sendCount (w.emit (.lock ctx.Data)).log = sendCount w.log := by
        simp [sendCount_append, sendCount, Event.isSend]
      rw [h0] at b5
      simpa [World.setFaucet, sendCount_append, sendCount, Event.isSend] using b5

theorem wrapInt64_of_range (x : Int) (h0 : -(2 ^ 63) ≤ x) (h1 : x < 2 ^ 63) : wrapInt64 x = x := by
  unfold wrapInt64
  have h : (x + 2 ^ 63) % 2 ^ 64 = x + 2 ^ 63 := by
    apply Int.emod_eq_of_lt <;> omega
  omega

/-- Claims by distinct users who are not the creator, each returning without error, on a
faucet that has at least one share per claimant left, when the writes under the ID
succeed: every claim enters `Send` once, is appended to `To`, and takes one share off
`RemainingAmount`. -/
theorem faucet_run_takers {σ : Type} (env : Env σ) (id : String) (takers : List Ctx)
    (hsave : ∀ l, env.StoreSet l id = none) :
    ∀ (w : World σ) (f : InlineFaucet), w.faucets id = some f → f.ID = id →
      0 < f.PerUserAmount → (f.Active = true ↔ f.PerUserAmount ≤ f.RemainingAmount) →
      f.RemainingAmount < 2 ^ 63 → (takers.length : Int) * f.PerUserAmount ≤ f.RemainingAmount →
      (∀ c ∈ takers, c.Data = id) →
      (takers.map (fun c => c.User.Telegram.ID)).Nodup →
      (∀ c ∈ takers, ∀ a ∈ f.To, a.Telegram.ID ≠ c.User.Telegram.ID) →
      (∀ c ∈ takers, f.From.Telegram.ID ≠ c.User.Telegram.ID) →
      (∀ r ∈ (runTriggers (acceptInlineFaucetHandler env) takers w).1, r = .value none) →
      ∃ f1, (runTriggers (acceptInlineFaucetHandler env) takers w).2.faucets id = some f1 ∧
        f1.ID = id ∧ f1.PerUserAmount = f.PerUserAmount ∧
        f1.RemainingAmount = f.RemainingAmount - (takers.length : Int) * f.PerUserAmount ∧
        f1.To.map (fun u => u.Telegram.ID) =
          f.To.map (fun u => u.Telegram.ID) ++ takers.map (fun c => c.User.Telegram.ID) ∧
        (f1.Active = true ↔ f1.PerUserAmount ≤ f1.RemainingAmount) ∧
        sendCount (runTriggers (acceptInlineFaucetHandler env) takers w).2.log =
          sendCount w.log + takers.length := by
  induction takers with
  | nil =>
    intro w f hs hid _ hinv _ _ _ _ _ _ _
    exact ⟨f, hs, hid, rfl, by simp, by simp, hinv, rfl⟩
  | cons c cs ih =>
    intro w f hs hid hpos hinv hmax hlen hdata hnd hnew hown hok
    have hc : c.Data = id := hdata c (List.mem_cons_self _ _)
    subst hc
    have hlen1 : ((cs.length : Int) + 1) * f.PerUserAmount ≤ f.RemainingAmount := by
      simpa using hlen
    have hcs0 : (0 : Int) ≤ (cs.length : Int) * f.PerUserAmount :=
      Int.mul_nonneg (Int.ofNat_nonneg _) (le_of_lt hpos)
    have hPR : f.PerUserAmount ≤ f.RemainingAmount := by nlinarith
    have hact : f.Active = true := hinv.2 hPR
    obtain ⟨f1, n, s1, s2, s3, s4, s5, s6⟩ := (faucet_step env c w f hs hid).2 hact
      (hown c (List.mem_cons_self _ _)) (hnew c (List.mem_cons_self _ _)) hsave
    rw [runTriggers_cons] at hok ⊢
    have hr : (acceptInlineFaucetHandler env c w).1 = .value none :=
      hok _ (List.mem_cons_self _ _)
    rw [hr] at s6
    rcases s6 with ⟨-, -, hn, t1, t2, ⟨u, t3, t4⟩, t5⟩ | ⟨⟨e, he⟩, -⟩ | ⟨he, -⟩ | ⟨⟨e, he⟩, -⟩ |
      ⟨-, hlt, -⟩
    · subst hn
      have hwrap : wrapInt64 (f.RemainingAmount - f.PerUserAmount) =
          f.RemainingAmount - f.PerUserAmount := wrapInt64_of_range _ (by omega) (by omega)
      rw [hwrap] at t1
      have hnd1 : c.User.Telegram.ID ∉ cs.map (fun c => c.User.Telegram.ID) ∧
          (cs.map (fun c => c.User.Telegram.ID)).Nodup := by
        rw [List.map_cons] at hnd
        exact List.nodup_cons.1 hnd
      obtain ⟨f2, i1, i2, i3, i4, i5, i6, i7⟩ := ih (acceptInlineFaucetHandler env c w).2 f1 s1 s2
        (by rw [s3]; exact hpos) t5 (by rw [t1]; omega)
        (by rw [s3, t1]; nlinarith)
        (fun x hx => hdata x (List.mem_cons_of_mem _ hx)) hnd1.2
        (by
          intro x hx a ha
          rw [t3] at ha
          rcases List.mem_append.1 ha with h | h
          · exact hnew x (List.mem_cons_of_mem _ hx) a h
          · rw [List.mem_singleton.1 h, t4]
            intro heq
            exact hnd1.1 (by
              rw [heq]
              exact List.mem_map_of_mem (fun c => c.User.Telegram.ID) hx))
        (by
          intro x hx
          rw [s4]
          exact hown x (List.mem_cons_of_mem _ hx))
        (fun r hr => hok r (List.mem_cons_of_mem _ hr))
      refine ⟨f2, i1, i2, i3.trans s3, ?_, ?_, i6, ?_⟩
      · rw [i4, s3, t1]
        simp only [List.length_cons]
        push_cast
        ring
      · rw [i5, t3]
        simp [t4]
      · rw [i7, s5]
        simp only [List.length_cons]
        omega
    · simp at he
    · simp at he
    · simp at he
    · omega

/-- C2 as stated fails when less than one share is stored: with `RemainingAmount = 0` and
`PerUserAmount = 10` no claim precedes (`0 / 10 = 0`), yet the first claim is not rejected
with `NotActiveError`: it returns nil, enters no `Send`, and finishes the faucet. It also
fails when the writes to the store fail: on a faucet of one share of 10 sat, `bob` and then
`carol` are both paid, because the faucet stored is still the one stored at the start. -/
theorem C2_counterexample_below_one_share :
    (exampleFaucet 0 10).Active = true ∧ (exampleFaucet 0 10).To = [] ∧
    0 < (exampleFaucet 0 10).PerUserAmount ∧ (0 : Int) / 10 = 0 ∧
    bob.Telegram.ID ≠ (exampleFaucet 0 10).From.Telegram.ID ∧
    (acceptInlineFaucetHandler (exampleEnv Scenario.allGood) (exampleCtx "faucet:1" bob)
      (worldWithFaucet (exampleFaucet 0 10))).1 = .value none ∧
    sendCount (acceptInlineFaucetHandler (exampleEnv Scenario.allGood) (exampleCtx "faucet:1" bob)
      (worldWithFaucet (exampleFaucet 0 10))).2.log = 0 ∧
    (acceptInlineFaucetHandler (exampleEnv Scenario.allGood) (exampleCtx "faucet:1" bob)
      (worldWithFaucet (exampleFaucet 0 10))).1 ≠ .value (some (.create .NotActiveError)) ∧
    (runTriggers (acceptInlineFaucetHandler
        (exampleEnv { Scenario.allGood with storeFails := true }))
      [exampleCtx "faucet:1" bob, exampleCtx "faucet:1" carol]
      (worldWithFaucet (exampleFaucet 10 10))).1 = [.value none, .value none] ∧
    sendCount (runTriggers (acceptInlineFaucetHandler
        (exampleEnv { Scenario.allGood with storeFails := true }))
      [exampleCtx "faucet:1" bob, exampleCtx "faucet:1" carol]
      (worldWithFaucet (exampleFaucet 10 10))).2.log = 2 := by
  decide

/-- C2, amended (faucet exhaustion, at least one share stored). Take a stored faucet with
`Active = true`, `RemainingAmount = C`, `PerUserAmount = P`, `0 < P ≤ C` and empty `To`,
writes under its ID that succeed, and `C / P` claims by pairwise-distinct users other than
the creator, each returning without error (the claimant has or gets a wallet and `Send`
succeeds). Then `Send` was entered exactly `C / P` times, once per claim; the next claim,
by anyone, is rejected with `NotActiveError` without a `Send`; and the stored faucet lists
exactly those claimants in `To`, has `RemainingAmount = C mod P` and is inactive. -/
theorem C2_faucet_exhaustion {σ : Type} (env : Env σ) (id : String) (f : InlineFaucet)
    (w : World σ) (takers : List Ctx) (next : Ctx) (C P : Int)
    (hsave : ∀ l, env.StoreSet l id = none)
    (hs : w.faucets id = some f) (hid : f.ID = id) (hact : f.Active = true) (hto : f.To = [])
    (hC : f.RemainingAmount = C) (hP : f.PerUserAmount = P) (hpos : 0 < P) (hPC : P ≤ C)
    (hmax : C < 2 ^ 63)
    (hdata : ∀ c ∈ takers, c.Data = id) (hnext : next.Data = id)
    (hdistinct : (takers.map (fun c => c.User.Telegram.ID)).Nodup)
    (hown : ∀ c ∈ takers, c.User.Telegram.ID ≠ f.From.Telegram.ID)
    (hcount : (takers.length : Int) = C / P)
    (hok : ∀ r ∈ (runTriggers (acceptInlineFaucetHandler env) takers w).1, r = .value none) :
    sendCount (runTriggers (acceptInlineFaucetHandler env) takers w).2.log =
      sendCount w.log + takers.length ∧
    (acceptInlineFaucetHandler env next
      (runTriggers (acceptInlineFaucetHandler env) takers w).2).1 =
        .value (some (.create .NotActiveError)) ∧
    sendCount (acceptInlineFaucetHandler env next
      (runTriggers (acceptInlineFaucetHandler env) takers w).2).2.log =
        sendCount (runTriggers (acceptInlineFaucetHandler env) takers w).2.log ∧
    ∃ f1, (acceptInlineFaucetHandler env next
        (runTriggers (acceptInlineFaucetHandler env) takers w).2).2.faucets id = some f1 ∧
      f1.To.map (fun u => u.Telegram.ID) = takers.map (fun c => c.User.Telegram.ID) ∧
      f1.RemainingAmount = C % P ∧ f1.Active = false := by
  subst hC hP
  have hmul : (takers.length : Int) * f.PerUserAmount ≤ f.RemainingAmount := by
    rw [hcount]
    exact Int.ediv_mul_le _ (ne_of_gt hpos)
  obtain ⟨f1, r1, r2, r3, r4, r5, r6, r7⟩ := faucet_run_takers env id takers hsave w f hs hid hpos
    ⟨fun _ => hPC, fun _ => hact⟩ hmax hmul hdata hdistinct
    (by intro c _ a ha; rw [hto] at ha; simp at ha)
    (fun c hc => (hown c hc).symm) hok
  have hrem : f1.RemainingAmount = f.RemainingAmount % f.PerUserAmount := by
    rw [r4, hcount, Int.emod_def]
    ring
  have hlt : f.RemainingAmount % f.PerUserAmount < f.PerUserAmount := Int.emod_lt_of_pos _ hpos
  have hinact : f1.Active = false := by
    cases h : f1.Active with
    | false => rfl
    | true =>
      have := r6.1 h
      rw [r3, hrem] at this
      omega
  subst hnext
  obtain ⟨n1, n2, n3⟩ := (faucet_step env next _ f1 r1 r2).1 hinact
  refine ⟨r7, n1, n3, f1, by rw [n2]; exact r1, ?_, hrem, hinact⟩
  rw [r5, hto]
  simp

/-- C2, amended, at capacity 30 and 10 per user: `bob`, `carol` and `dave` claim, `erin`
is rejected, nothing remains. -/
theorem C2_faucet_exhaustion_witness :
    sendCount (runTriggers (acceptInlineFaucetHandler (exampleEnv Scenario.allGood))
      exampleTakers (worldWithFaucet (exampleFaucet 30 10))).2.log =
      sendCount (worldWithFaucet (exampleFaucet 30 10)).log + exampleTakers.length ∧
    (acceptInlineFaucetHandler (exampleEnv Scenario.allGood) (exampleCtx "faucet:1" erin)
      (runTriggers (acceptInlineFaucetHandler (exampleEnv Scenario.allGood))
        exampleTakers (worldWithFaucet (exampleFaucet 30 10))).2).1 =
        .value (some (.create .NotActiveError)) ∧
    sendCount (acceptInlineFaucetHandler (exampleEnv Scenario.allGood) (exampleCtx "faucet:1" erin)
      (runTriggers (acceptInlineFaucetHandler (exampleEnv Scenario.allGood))
        exampleTakers (worldWithFaucet (exampleFaucet 30 10))).2).2.log =
        sendCount (runTriggers (acceptInlineFaucetHandler (exampleEnv Scenario.allGood))
          exampleTakers (worldWithFaucet (exampleFaucet 30 10))).2.log ∧
    ∃ f1, (acceptInlineFaucetHandler (exampleEnv Scenario.allGood) (exampleCtx "faucet:1" erin)
        (runTriggers (acceptInlineFaucetHandler (exampleEnv Scenario.allGood))
          exampleTakers (worldWithFaucet (exampleFaucet 30 10))).2).2.faucets "faucet:1" = some f1 ∧
      f1.To.map (fun u => u.Telegram.ID) = exampleTakers.map (fun c => c.User.Telegram.ID) ∧
      f1.RemainingAmount = 30 % 10 ∧ f1.Active = false :=
  C2_faucet_exhaustion (exampleEnv Scenario.allGood) "faucet:1" (exampleFaucet 30 10)
    (worldWithFaucet (exampleFaucet 30 10)) exampleTakers (exampleCtx "faucet:1" erin) 30 10
    (fun _ => rfl) (by decide) rfl rfl rfl rfl rfl (by decide) (by decide) (by decide) (by decide) rfl
    (by decide) (by decide) (by decide) (by decide)

/-- C10 as stated fails: on a faucet of 30 with 10 per user, `bob` claims and the payment
is refused. `Send` was entered and returned the error, and the stored faucet is not
`Active = true` any more; the claim of `carol` that follows is rejected. -/
theorem C10_counterexample_failed_claim :
    sendCount (acceptInlineFaucetHandler
      (exampleEnv { Scenario.allGood with payFails := true }) (exampleCtx "faucet:1" bob)
      (worldWithFaucet (exampleFaucet 30 10))).2.log = 1 ∧
    (acceptInlineFaucetHandler
      (exampleEnv { Scenario.allGood with payFails := true }) (exampleCtx "faucet:1" bob)
      (worldWithFaucet (exampleFaucet 30 10))).1 =
      .value (some (.wrap .UnknownError (.text "payment refused"))) ∧
    ((acceptInlineFaucetHandler
      (exampleEnv { Scenario.allGood with payFails := true }) (exampleCtx "faucet:1" bob)
      (worldWithFaucet (exampleFaucet 30 10))).2.faucets "faucet:1").map (fun f => f.Active) =
      some false ∧
    (acceptInlineFaucetHandler
      (exampleEnv { Scenario.allGood with payFails := true }) (exampleCtx "faucet:1" carol)
      (acceptInlineFaucetHandler
        (exampleEnv { Scenario.allGood with payFails := true }) (exampleCtx "faucet:1" bob)
        (worldWithFaucet (exampleFaucet 30 10))).2).1 =
      .value (some (.create .NotActiveError)) := by
  decide

/-- C10, amended (a failed claim finishes the faucet). When an eligible claimant's
`Send` is entered and fails, so that the handler returns an error, and the writes under
the faucet's ID succeed, the stored faucet has `Active = false` with `RemainingAmount`,
`NTaken` and `To` unchanged, and every later claim on it is rejected with `NotActiveError`
without a `Send`. -/
theorem C10_failed_claim_finishes_faucet {σ : Type} (env : Env σ) (ctx later : Ctx)
    (w : World σ) (f : InlineFaucet) (e : GoError)
    (hsave : ∀ l, env.StoreSet l ctx.Data = none)
    (hs : w.faucets ctx.Data = some f) (hid : f.ID = ctx.Data) (hact : f.Active = true)
    (hown : f.From.Telegram.ID ≠ ctx.User.Telegram.ID)
    (hnew : ∀ a ∈ f.To, a.Telegram.ID ≠ ctx.User.Telegram.ID)
    (hsend : sendCount (acceptInlineFaucetHandler env ctx w).2.log = sendCount w.log + 1)
    (herr : (acceptInlineFaucetHandler env ctx w).1 = .value (some e))
    (hlater : later.Data = ctx.Data) :
    (∃ f1, (acceptInlineFaucetHandler env ctx w).2.faucets ctx.Data = some f1 ∧
      f1.Active = false ∧ f1.RemainingAmount = f.RemainingAmount ∧ f1.NTaken = f.NTaken ∧
      f1.To = f.To) ∧
    (acceptInlineFaucetHandler env later (acceptInlineFaucetHandler env ctx w).2).1 =
      .value (some (.create .NotActiveError)) ∧
    sendCount (acceptInlineFaucetHandler env later (acceptInlineFaucetHandler env ctx w).2).2.log =
      sendCount (acceptInlineFaucetHandler env ctx w).2.log := by
  obtain ⟨f1, n, s1, s2, -, -, s5, s6⟩ := (faucet_step env ctx w f hs hid).2 hact hown hnew
    hsave
  rw [herr] at s6
  have hn : n = 1 := by omega
  subst hn
  rcases s6 with ⟨h, -⟩ | ⟨-, -, t1, t2, t3, t4⟩ | ⟨h, -⟩ | ⟨-, h, -⟩ | ⟨h, -⟩
  · simp at h
  · rw [← hlater] at s1 s2
    obtain ⟨n1, -, n3⟩ := (faucet_step env later _ f1 s1 s2).1 t4
    rw [hlater] at s1
    exact ⟨⟨f1, s1, t4, t1, t2, t3⟩, n1, n3⟩
  · simp at h
  · omega
  · simp at h

/-- C10, amended, where `bob`'s payment from the example faucet is refused and `carol`
claims afterwards. -/
theorem C10_failed_claim_finishes_faucet_witness :
    (∃ f1, (acceptInlineFaucetHandler (exampleEnv { Scenario.allGood with payFails := true })
        (exampleCtx "faucet:1" bob) (worldWithFaucet (exampleFaucet 30 10))).2.faucets
          (exampleCtx "faucet:1" bob).Data = some f1 ∧
      f1.Active = false ∧ f1.RemainingAmount = (exampleFaucet 30 10).RemainingAmount ∧
      f1.NTaken = (exampleFaucet 30 10).NTaken ∧ f1.To = (exampleFaucet 30 10).To) ∧
    (acceptInlineFaucetHandler (exampleEnv { Scenario.allGood with payFails := true })
      (exampleCtx "faucet:1" carol)
      (acceptInlineFaucetHandler (exampleEnv { Scenario.allGood with payFails := true })
        (exampleCtx "faucet:1" bob) (worldWithFaucet (exampleFaucet 30 10))).2).1 =
      .value (some (.create .NotActiveError)) ∧
    sendCount (acceptInlineFaucetHandler (exampleEnv { Scenario.allGood with payFails := true })
      (exampleCtx "faucet:1" carol)
      (acceptInlineFaucetHandler (exampleEnv { Scenario.allGood with payFails := true })
        (exampleCtx "faucet:1" bob) (worldWithFaucet (exampleFaucet 30 10))).2).2.log =
      sendCount (acceptInlineFaucetHandler (exampleEnv { Scenario.allGood with payFails := true })
        (exampleCtx "faucet:1" bob) (worldWithFaucet (exampleFaucet 30 10))).2.log :=
  C10_failed_claim_finishes_faucet (exampleEnv { Scenario.allGood with payFails := true })
    (exampleCtx "faucet:1" bob) (exampleCtx "faucet:1" carol)
    (worldWithFaucet (exampleFaucet 30 10)) (exampleFaucet 30 10)
    (.wrap .UnknownError (.text "payment refused"))
    (fun _ => rfl) (by decide) rfl rfl (by decide) (by decide) (by decide) (by decide) rfl

/-! ### inline_receive.go -/

theorem finishInlineReceiveHandler_quiet {σ : Type} (env : Env σ) (withCtx : Bool) (c : Callback)
    (w : World σ) : Grows Event.isEffect w (finishInlineReceiveHandler env withCtx c w).2 := by
  unfold finishInlineReceiveHandler
  cases withCtx <;> simp only [Bool.false_eq_true, if_false, if_true] <;> split
  · exact Grows.refl _ _
  · refine Grows.trans ?_ (Grows.emit _ _ rfl)
    refine Grows.trans ?_ (Grows.emit _ _ rfl)
    exact Grows.emit _ _ rfl
  · refine Grows.trans ?_ (Grows.emit _ _ rfl)
    exact Grows.emit _ _ rfl
  · refine Grows.trans ?_ (Grows.emit _ _ rfl)
    refine Grows.trans ?_ (Grows.emit _ _ rfl)
    refine Grows.trans ?_ (Grows.emit _ _ rfl)
    refine Grows.trans ?_ (Grows.emit _ _ rfl)
    exact Grows.emit _ _ rfl

theorem sendCount_emit {σ : Type} (w : World σ) (e : Event) :
    sendCount (w.emit e).log = sendCount w.log + if e.isSend = true then 1 else 0 := by
  cases h : e.isSend <;> simp [sendCount_append, sendCount, h]

/-- The internal transfer of an inline receive either never enters `Send`, or enters it
exactly once and, when the writes under the ID succeed, leaves the intent stored inactive
under its ID. -/
theorem sendInlineReceive_spec {σ : Type} (env : Env σ) (ctx : Ctx) (w : World σ)
    (r : InlineReceive) (hsave : ∀ l, env.StoreSet l ctx.Data = none)
    (hs : w.receives ctx.Data = some r) (hid : r.ID = ctx.Data) :
    sendCount (sendInlineReceiveHandler env ctx w).2.log = sendCount w.log ∨
    (sendCount (sendInlineReceiveHandler env ctx w).2.log = sendCount w.log + 1 ∧
      ∃ r1, (sendInlineReceiveHandler env ctx w).2.receives ctx.Data = some r1 ∧
        r1.ID = ctx.Data ∧ r1.Active = false) := by
  have hget : (w.emit (.lock ctx.Data)).receives.Get ctx.Data = .ok r := Store.Get_some _ _ _ hs
  unfold sendInlineReceiveHandler
  simp only [hget]
  cases hact : r.Active with
  | false =>
    left
    simp [sendCount_append, sendCount, Event.isSend]
  | true =>
    simp only [Bool.not_true, Bool.false_eq_true, if_false]
    have hb := GetUserBalanceCached_quiet env ctx.User (w.emit (.lock ctx.Data))
    have h0 : sendCount (w.emit (.lock ctx.Data)).log = sendCount w.log := by
      simp only [sendCount_emit, Event.isSend, Bool.false_eq_true, if_false, Nat.add_zero]
    split
    · rename_i heq
      rw [heq] at hb
      left
      simp only [sendCount_emit, Event.isSend, Bool.false_eq_true, if_false, Nat.add_zero]
      rw [(hb.mono isEffect_isSend).sendCount, h0]
    · rename_i balance src w1 heq
      rw [heq] at hb
      have hb1 : sendCount w1.log = sendCount w.log := by
        rw [(hb.mono isEffect_isSend).sendCount, h0]
      split
      · left
        simp only [sendCount_emit, Event.isSend, Bool.false_eq_true, if_false, Nat.add_zero]
        exact hb1
      · right
        dsimp only
        generalize ht : ({ NewTransaction src r.To r.Amount "inline receive" with
            Memo := "💸 Receive from " ++ GetUserStr ctx.User.Telegram ++ " to " ++
              GetUserStr r.To.Telegram ++ "." } : Transaction) = t
        obtain ⟨hi, hc⟩ := Send_world env t (w1.setReceive env { r with Active := false })
        have hstored : (w1.setReceive env { r with Active := false }).receives ctx.Data =
            some { r with Active := false } := by
          simp [World.setReceive, World.saveError, hsave, Store.put, hid]
        have hc0 : sendCount (w1.setReceive env { r with Active := false }).log = sendCount w.log := by
          rw [← hb1]
          simp [World.setReceive, sendCount_append, sendCount, Event.isSend]
        rw [hc0] at hc
        generalize Send env t (w1.setReceive env { r with Active := false }) = out at hi hc
        obtain ⟨res, t1, w3⟩ := out
        dsimp only at hi hc
        have hrec : w3.receives ctx.Data = some { r with Active := false } := by
          rw [intents_receives hi]
          exact hstored
        cases res with
        | panicked =>
          refine ⟨?_, _, hrec, hid, rfl⟩
          simp only [sendCount_emit, Event.isSend, Bool.false_eq_true, if_false, Nat.add_zero]
          exact hc
        | value p =>
          obtain ⟨success, err⟩ := p
          cases success with
          | false =>
            cases err with
            | none =>
              simp only [Bool.not_false, if_true]
              refine ⟨?_, _, hrec, hid, rfl⟩
              simp only [sendCount_emit, Event.isSend, Bool.false_eq_true, if_false, Nat.add_zero]
              exact hc
            | some e =>
              simp only [Bool.not_false, if_true]
              refine ⟨?_, _, hrec, hid, rfl⟩
              simp only [sendCount_emit, Event.isSend, Bool.false_eq_true, if_false, Nat.add_zero]
              exact hc
          | true =>
            simp only [Bool.not_true, Bool.false_eq_true, if_false]
            have hf := finishInlineReceiveHandler_quiet env true
              { Data := ctx.Data, Sender := some ctx.Sender }
              (w3.setReceive env { ({ r with Active := false } : InlineReceive) with To := t1.To })
            generalize finishInlineReceiveHandler env true
              { Data := ctx.Data, Sender := some ctx.Sender }
              (w3.setReceive env { ({ r with Active := false } : InlineReceive) with To := t1.To }) = fin
              at hf
            obtain ⟨res2, w5⟩ := fin
            dsimp only at hf ⊢
            refine ⟨?_, { ({ r with Active := false } : InlineReceive) with To := t1.To }, ?_, hid, rfl⟩
            · simp only [sendCount_emit, Event.isSend, Bool.false_eq_true, if_false, Nat.add_zero]
              rw [(hf.mono isEffect_isSend).sendCount]
              simpa [World.setReceive, sendCount_append, sendCount, Event.isSend] using hc
            · have := intents_receives hf.1
              simp only [emit_intents] at this
              simp [World.emit, this, World.setReceive, World.saveError, hsave, Store.put, hid]

/-- C9, counterexample: every write to the store fails. `bob` accepts the example inline
send, and `bob` pays the example inline receive; `Send` is entered and succeeds in both
runs, and both intents are still stored with `Active = true` when the handler is done. -/
theorem C9_counterexample_failed_save_stays_active :
    sendCount (acceptInlineSendHandler (exampleEnv { Scenario.allGood with storeFails := true })
      (exampleCtx "send:1" bob) exampleWorld).2.log = 1 ∧
    ((acceptInlineSendHandler (exampleEnv { Scenario.allGood with storeFails := true })
      (exampleCtx "send:1" bob) exampleWorld).2.sends "send:1").map (fun s => s.Active) =
      some true ∧
    sendCount (sendInlineReceiveHandler (exampleEnv { Scenario.allGood with storeFails := true })
      (exampleCtx "receive:1" bob) exampleWorld).2.log = 1 ∧
    ((sendInlineReceiveHandler (exampleEnv { Scenario.allGood with storeFails := true })
      (exampleCtx "receive:1" bob) exampleWorld).2.receives "receive:1").map
      (fun r => r.Active) = some true := by
  decide

/-- C9 as amended (terminal state, while the store works). When the writes under the ID
succeed: once `acceptInlineSendHandler` or `sendInlineReceiveHandler` has entered
`Transaction.Send`, the intent stored under that ID has `Active = false` when the handler
is done, whatever `Send` did: success, failure (balance too low, invoice error, payment
error) or a panic. -/
theorem C9_terminal_state {σ : Type} (env : Env σ) (ctx : Ctx) (w : World σ)
    (hsave : ∀ l, env.StoreSet l ctx.Data = none) :
    (∀ s : InlineSend, w.sends ctx.Data = some s → s.ID = ctx.Data →
      sendCount (acceptInlineSendHandler env ctx w).2.log ≠ sendCount w.log →
      ∃ s1, (acceptInlineSendHandler env ctx w).2.sends ctx.Data = some s1 ∧ s1.Active = false) ∧
    (∀ r : InlineReceive, w.receives ctx.Data = some r → r.ID = ctx.Data →
      sendCount (sendInlineReceiveHandler env ctx w).2.log ≠ sendCount w.log →
      ∃ r1, (sendInlineReceiveHandler env ctx w).2.receives ctx.Data = some r1 ∧
        r1.Active = false) := by
  constructor
  · intro s hs hid hne
    cases hact : s.Active with
    | false => exact absurd ((acceptInlineSend_step env ctx w s hs hid).1 hact).2.2 hne
    | true =>
      obtain ⟨s1, h1, -, h3⟩ := (acceptInlineSend_step env ctx w s hs hid).2 hact hsave
      rcases h3 with h3 | ⟨-, h4⟩
      · exact absurd h3 hne
      · exact ⟨s1, h1, h4⟩
  · intro r hs hid hne
    rcases sendInlineReceive_spec env ctx w r hsave hs hid with h | ⟨-, r1, h1, -, h3⟩
    · exact absurd h hne
    · exact ⟨r1, h1, h3⟩

/-! ### Worked examples -/

/-- C1 on the example inline send: `bob` accepts and is paid, then `carol` and `bob` press
again; `Send` was entered once, and both later triggers are rejected. -/
theorem C1_inline_send_at_most_once_witness :
    sendCount (runTriggers (acceptInlineSendHandler (exampleEnv Scenario.allGood))
        [exampleCtx "send:1" carol, exampleCtx "send:1" bob]
        (runTriggers (acceptInlineSendHandler (exampleEnv Scenario.allGood))
          [exampleCtx "send:1" bob] exampleWorld).2).2.log = 1 ∧
    (∀ r ∈ (runTriggers (acceptInlineSendHandler (exampleEnv Scenario.allGood))
        [exampleCtx "send:1" carol, exampleCtx "send:1" bob]
        (runTriggers (acceptInlineSendHandler (exampleEnv Scenario.allGood))
          [exampleCtx "send:1" bob] exampleWorld).2).1,
      r = .value (some (.create .NotActiveError))) :=
  ⟨by decide,
    ((C1_inline_send_at_most_once (exampleEnv Scenario.allGood) "send:1" exampleSend exampleWorld
      [exampleCtx "send:1" bob] [exampleCtx "send:1" carol, exampleCtx "send:1" bob]
      (fun _ => rfl) (by decide) rfl (by decide) (by decide)).2 (by decide)).1⟩

/-- C3 where every wallet holds 100 sat: asking for 200 sat stops after the balance
query, asking for exactly 100 sat goes on to the invoice request. -/
theorem C3_send_balance_check_witness :
    ((∃ e, (SendTransaction (exampleEnv Scenario.allGood) (NewTransaction alice bob 200 "send")
        alice bob 200 "memo" emptyWorld).1 = .value (false, some e)) ∧
      walletMoves (SendTransaction (exampleEnv Scenario.allGood) (NewTransaction alice bob 200 "send")
        alice bob 200 "memo" emptyWorld).2.2.2.2.log = []) ∧
    ∃ rest, (SendTransaction (exampleEnv Scenario.allGood) (NewTransaction alice bob 100 "send")
        alice bob 100 "memo" emptyWorld).2.2.2.2.log =
      (GetUserBalance (exampleEnv Scenario.allGood) alice emptyWorld).2.2.log ++
        Event.invoice "bob" { Out := false, Amount := 100, Memo := "memo" } :: rest :=
  ⟨⟨((C3_send_balance_check (exampleEnv Scenario.allGood) (NewTransaction alice bob 200 "send")
        alice bob 200 "memo" emptyWorld 100
        (GetUserBalance (exampleEnv Scenario.allGood) alice emptyWorld).2.1
        (GetUserBalance (exampleEnv Scenario.allGood) alice emptyWorld).2.2 rfl).1 (by decide)).1,
      by decide⟩,
    (C3_send_balance_check (exampleEnv Scenario.allGood) (NewTransaction alice bob 100 "send")
      alice bob 100 "memo" emptyWorld 100
      (GetUserBalance (exampleEnv Scenario.allGood) alice emptyWorld).2.1
      (GetUserBalance (exampleEnv Scenario.allGood) alice emptyWorld).2.2 rfl).2 (by decide)
      { ID := "bob", Adminkey := "key", Balance := 0 } rfl⟩

/-- C4 on a refused payment of 10 sat from `alice` to `bob`: one record is saved, with
`Success = false`, and `Send` returns `false`. -/
theorem C4_audit_record_witness :
    ∃ record,
      (Send (exampleEnv { Scenario.allGood with payFails := true })
        (NewTransaction alice bob 10 "send") emptyWorld).2.2.log =
        (SendTransaction (exampleEnv { Scenario.allGood with payFails := true })
          (NewTransaction alice bob 10 "send") alice bob 10 "Powered by @LightningTipBot"
          (emptyWorld.emit (.send (NewTransaction alice bob 10 "send")))).2.2.2.2.log ++
          [.txSave record] ∧
      savedRecords (Send (exampleEnv { Scenario.allGood with payFails := true })
        (NewTransaction alice bob 10 "send") emptyWorld).2.2.log = savedRecords [] ++ [record] ∧
      record.Success = false ∧
      ∀ s e, (Send (exampleEnv { Scenario.allGood with payFails := true })
        (NewTransaction alice bob 10 "send") emptyWorld).1 = .value (s, e) →
        s = false ∧ e = some (.text "payment refused") :=
  C4_audit_record (exampleEnv { Scenario.allGood with payFails := true })
    (NewTransaction alice bob 10 "send") emptyWorld rfl false (some (.text "payment refused"))
    (SendTransaction (exampleEnv { Scenario.allGood with payFails := true })
      (NewTransaction alice bob 10 "send") alice bob 10 "Powered by @LightningTipBot"
      (emptyWorld.emit (.send (NewTransaction alice bob 10 "send")))).2.1
    (SendTransaction (exampleEnv { Scenario.allGood with payFails := true })
      (NewTransaction alice bob 10 "send") alice bob 10 "Powered by @LightningTipBot"
      (emptyWorld.emit (.send (NewTransaction alice bob 10 "send")))).2.2.1
    (SendTransaction (exampleEnv { Scenario.allGood with payFails := true })
      (NewTransaction alice bob 10 "send") alice bob 10 "Powered by @LightningTipBot"
      (emptyWorld.emit (.send (NewTransaction alice bob 10 "send")))).2.2.2.1
    (SendTransaction (exampleEnv { Scenario.allGood with payFails := true })
      (NewTransaction alice bob 10 "send") alice bob 10 "Powered by @LightningTipBot"
      (emptyWorld.emit (.send (NewTransaction alice bob 10 "send")))).2.2.2.2
    rfl

/-- C9 on the examples: `bob` accepts the inline send while payments are refused, and
`bob` pays the inline receive; both intents end up stored inactive. -/
theorem C9_terminal_state_witness :
    (∃ s1, (acceptInlineSendHandler (exampleEnv { Scenario.allGood with payFails := true })
        (exampleCtx "send:1" bob) exampleWorld).2.sends "send:1" = some s1 ∧ s1.Active = false) ∧
    (∃ r1, (sendInlineReceiveHandler (exampleEnv Scenario.allGood)
        (exampleCtx "receive:1" bob) exampleWorld).2.receives "receive:1" = some r1 ∧
      r1.Active = false) :=
  ⟨(C9_terminal_state (exampleEnv { Scenario.allGood with payFails := true })
      (exampleCtx "send:1" bob) exampleWorld (fun _ => rfl)).1 exampleSend (by decide) rfl (by decide),
    (C9_terminal_state (exampleEnv Scenario.allGood)
      (exampleCtx "receive:1" bob) exampleWorld (fun _ => rfl)).2 exampleReceive (by decide) rfl (by decide)⟩

/-- C5 fails on the code: the invoice is created and `Pay` succeeds, only the balance
query after the payment fails. `SendTransaction` then returns `(false, that error)` and
`Send` saves the record with `Success = false`, although the `Pay` call went through. -/
theorem C5_refresh_failure_reports_failed_transfer :
    payCount (Send (exampleEnv { Scenario.allGood with infoFailsFrom := some 1 })
      (NewTransaction alice bob 10 "send") emptyWorld).2.2.log = 1 ∧
    (Send (exampleEnv { Scenario.allGood with infoFailsFrom := some 1 })
      (NewTransaction alice bob 10 "send") emptyWorld).1 =
      .value (false, some (.text "lnbits unreachable")) ∧
    (savedRecords (Send (exampleEnv { Scenario.allGood with infoFailsFrom := some 1 })
      (NewTransaction alice bob 10 "send") emptyWorld).2.2.log).map (fun t => t.Success) =
      [false] := by
  decide

/-- C7 fails on the code: `alice` confirms the example payment twice and the first `Pay`
succeeds. The stored intent is still `Active = true` after the first confirm, the second
confirm is not rejected, and the wallet `Pay` call is made twice. -/
theorem C7_second_confirm_pays_again :
    ((confirmPayHandler (exampleEnv Scenario.allGood) (exampleCtx "pay:1" alice)
      exampleWorld).2.pays "pay:1").map (fun p => p.Active) = some true ∧
    (runTriggers (confirmPayHandler (exampleEnv Scenario.allGood))
      [exampleCtx "pay:1" alice, exampleCtx "pay:1" alice] exampleWorld).1 =
      [.value none, .value none] ∧
    payCount (runTriggers (confirmPayHandler (exampleEnv Scenario.allGood))
      [exampleCtx "pay:1" alice, exampleCtx "pay:1" alice] exampleWorld).2.log = 2 := by
  decide

/-- C8 fails on the code: the wallet refuses the payment inside `confirmPayHandler`. The
stored intent is still `Active = true` after the handler returned its error, and a later
confirm issues a further `Pay` call. -/
theorem C8_failed_pay_stays_active :
    (confirmPayHandler (exampleEnv { Scenario.allGood with payFails := true })
      (exampleCtx "pay:1" alice) exampleWorld).1 =
      .value (some (.text "invoiceUndefinedErrorMessage")) ∧
    ((confirmPayHandler (exampleEnv { Scenario.allGood with payFails := true })
      (exampleCtx "pay:1" alice) exampleWorld).2.pays "pay:1").map (fun p => p.Active) =
      some true ∧
    payCount (confirmPayHandler (exampleEnv { Scenario.allGood with payFails := true })
      (exampleCtx "pay:1" alice) exampleWorld).2.log = 1 ∧
    payCount (runTriggers (confirmPayHandler (exampleEnv { Scenario.allGood with payFails := true }))
      [exampleCtx "pay:1" alice, exampleCtx "pay:1" alice] exampleWorld).2.log = 2 := by
  decide

/-! ### faucet.go: rejected claims and the end policy -/

/-- A claim on an active faucet by its creator, or by a user already in `To`, returns an
error right after the load: the world gains the lock and unlock events and nothing else. -/
theorem faucet_reject {σ : Type} (env : Env σ) (ctx : Ctx) (w : World σ) (f : InlineFaucet)
    (hs : w.faucets ctx.Data = some f) (hact : f.Active = true)
    (h : f.From.Telegram.ID = ctx.User.Telegram.ID ∨
      ∃ a ∈ f.To, a.Telegram.ID = ctx.User.Telegram.ID) :
    (∃ e, (acceptInlineFaucetHandler env ctx w).1 = .value (some e)) ∧
    (acceptInlineFaucetHandler env ctx w).2 =
      (w.emit (.lock ctx.Data)).emit (.unlock ctx.Data) := by
  have hget : (w.emit (.lock ctx.Data)).faucets.Get ctx.Data = .ok f := Store.Get_some _ _ _ hs
  unfold acceptInlineFaucetHandler
  simp only [hget, hact, Bool.not_true, Bool.false_eq_true, if_false]
  by_cases hself : f.From.Telegram.ID = ctx.User.Telegram.ID
  · simp only [hself, if_true]
    exact ⟨⟨_, rfl⟩, trivial⟩
  · have hany : f.To.any (fun a => a.Telegram.ID == ctx.User.Telegram.ID) = true := by
      rcases h with h | ⟨a, ha, hEq⟩
      · exact absurd h hself
      · exact List.any_eq_true.2 ⟨a, ha, by simpa using hEq⟩
    simp only [hself, if_false, hany, if_true]
    exact ⟨⟨_, rfl⟩, trivial⟩

/-- C11, counterexample: every write to the store fails. `bob` claims from a faucet of 15
sat with shares of 10 sat: `Send` succeeds and the handler returns nil, but the deferred
`Set` fails, and the stored faucet still has 15 sat, no taker, and `Active = true`, although
less than one share is left to give. -/
theorem C11_counterexample_failed_save_keeps_counters :
    (acceptInlineFaucetHandler (exampleEnv { Scenario.allGood with storeFails := true })
      (exampleCtx "faucet:1" bob) (worldWithFaucet (exampleFaucet 15 10))).1 = .value none ∧
    payCount (acceptInlineFaucetHandler (exampleEnv { Scenario.allGood with storeFails := true })
      (exampleCtx "faucet:1" bob) (worldWithFaucet (exampleFaucet 15 10))).2.log = 1 ∧
    ((acceptInlineFaucetHandler (exampleEnv { Scenario.allGood with storeFails := true })
      (exampleCtx "faucet:1" bob) (worldWithFaucet (exampleFaucet 15 10))).2.faucets
        "faucet:1").map (fun f => (f.RemainingAmount, f.NTaken, f.Active)) =
      some (15, 0, true) := by
  decide

/-- C11 as amended (faucet end policy, while the store works): when the writes under the
faucet's ID succeed, a claim on a stored faucet that returns nil after entering
`Transaction.Send` leaves the faucet stored with `RemainingAmount` lowered by exactly
`PerUserAmount` and `NTaken` raised by exactly 1, and the stored faucet is active if and
only if the new `RemainingAmount` is at least `PerUserAmount` (the counters being int64
values that do not overflow). -/
theorem C11_faucet_end_policy {σ : Type} (env : Env σ) (ctx : Ctx) (w : World σ)
    (f : InlineFaucet) (hsave : ∀ l, env.StoreSet l ctx.Data = none)
    (hs : w.faucets ctx.Data = some f) (hid : f.ID = ctx.Data)
    (hP : 0 ≤ f.PerUserAmount) (hR : f.RemainingAmount < 2 ^ 63)
    (hN0 : 0 ≤ f.NTaken) (hN : f.NTaken + 1 < 2 ^ 63)
    (hok : (acceptInlineFaucetHandler env ctx w).1 = .value none)
    (hsent : sendCount (acceptInlineFaucetHandler env ctx w).2.log = sendCount w.log + 1) :
    ∃ f1, (acceptInlineFaucetHandler env ctx w).2.faucets ctx.Data = some f1 ∧
      f1.RemainingAmount = f.RemainingAmount - f.PerUserAmount ∧
      f1.NTaken = f.NTaken + 1 ∧
      f1.PerUserAmount = f.PerUserAmount ∧
      (f1.Active = true ↔ f.PerUserAmount ≤ f1.RemainingAmount) := by
  obtain ⟨hinactive, hactive⟩ := faucet_step env ctx w f hs hid
  by_cases hact : f.Active = true
  · by_cases hrej : f.From.Telegram.ID = ctx.User.Telegram.ID ∨
        ∃ a ∈ f.To, a.Telegram.ID = ctx.User.Telegram.ID
    · obtain ⟨⟨e, he⟩, -⟩ := faucet_reject env ctx w f hs hact hrej
      rw [he] at hok
      cases hok
    · have hself : f.From.Telegram.ID ≠ ctx.User.Telegram.ID := fun h => hrej (Or.inl h)
      have hnew : ∀ a ∈ f.To, a.Telegram.ID ≠ ctx.User.Telegram.ID :=
        fun a ha h => hrej (Or.inr ⟨a, ha, h⟩)
      obtain ⟨f1, n, hst, -, hper, -, hcnt, hout⟩ := hactive hact hself hnew hsave
      refine ⟨f1, hst, ?_⟩
      rcases hout with ⟨-, hle, -, hrem, htaken, -, hiff⟩ | ⟨⟨e, he⟩, -⟩ | ⟨hp, -⟩ |
        ⟨⟨e, he⟩, -⟩ | ⟨-, -, hn, -⟩
      · have h1 : wrapInt64 (f.RemainingAmount - f.PerUserAmount) =
            f.RemainingAmount - f.PerUserAmount :=
          wrapInt64_of_range _ (by omega) (by omega)
        have h2 : wrapInt64 (f.NTaken + 1) = f.NTaken + 1 :=
          wrapInt64_of_range _ (by omega) (by omega)
        rw [h1] at hrem
        rw [h2] at htaken
        refine ⟨hrem, htaken, hper, ?_⟩
        rw [hper] at hiff
        exact hiff
      · rw [he] at hok
        cases hok
      · rw [hp] at hok
        cases hok
      · rw [he] at hok
        cases hok
      · omega
  · have hf : f.Active = false := by simpa using hact
    rw [(hinactive hf).1] at hok
    cases hok

/-- C11, a worked example: the first claim on a faucet of 15 sat with shares of 10 sat
leaves 5 sat, one taker, and an inactive faucet. -/
theorem C11_faucet_end_policy_witness :
    ∃ f1, (acceptInlineFaucetHandler (exampleEnv Scenario.allGood) (exampleCtx "faucet:1" bob)
        (worldWithFaucet (exampleFaucet 15 10))).2.faucets "faucet:1" = some f1 ∧
      f1.RemainingAmount = 15 - 10 ∧ f1.NTaken = 0 + 1 ∧ f1.PerUserAmount = 10 ∧
      (f1.Active = true ↔ (10 : Int) ≤ f1.RemainingAmount) :=
  C11_faucet_end_policy (exampleEnv Scenario.allGood) (exampleCtx "faucet:1" bob)
    (worldWithFaucet (exampleFaucet 15 10)) (exampleFaucet 15 10) (fun _ => rfl) (by decide) rfl
    (by decide) (by decide) (by decide) (by decide) (by decide) (by decide)

/-- C12 (faucet duplicate claim): on an active stored faucet, a claim by a user whose
Telegram ID already occurs in `To` returns an error, enters no `Transaction.Send` and
leaves every stored faucet record as it was. -/
theorem C12_faucet_duplicate_claim {σ : Type} (env : Env σ) (ctx : Ctx) (w : World σ)
    (f : InlineFaucet) (hs : w.faucets ctx.Data = some f) (hact : f.Active = true)
    (hdup : ∃ a ∈ f.To, a.Telegram.ID = ctx.User.Telegram.ID) :
    (∃ e, (acceptInlineFaucetHandler env ctx w).1 = .value (some e)) ∧
    sendCount (acceptInlineFaucetHandler env ctx w).2.log = sendCount w.log ∧
    savedRecords (acceptInlineFaucetHandler env ctx w).2.log = savedRecords w.log ∧
    (acceptInlineFaucetHandler env ctx w).2.faucets = w.faucets ∧
    (acceptInlineFaucetHandler env ctx w).2.faucets ctx.Data = some f := by
  obtain ⟨he, hw⟩ := faucet_reject env ctx w f hs hact (Or.inr hdup)
  refine ⟨he, ?_, ?_, ?_, ?_⟩
  · rw [hw]
    simp only [sendCount_emit, Event.isSend, Bool.false_eq_true, if_false, Nat.add_zero]
  · rw [hw]
    simp [World.emit, savedRecords_append, savedRecords]
  · rw [hw]
    rfl
  · rw [hw]
    exact hs

/-- C12, a worked example: `bob` already took his share of a faucet of 30 sat with shares
of 10 sat; his second claim is rejected. -/
theorem C12_faucet_duplicate_claim_witness :
    (∃ e, (acceptInlineFaucetHandler (exampleEnv Scenario.allGood) (exampleCtx "faucet:1" bob)
      (worldWithFaucet { exampleFaucet 20 10 with Amount := 30, To := [bob], NTaken := 1 })).1 =
        .value (some e)) ∧
    sendCount (acceptInlineFaucetHandler (exampleEnv Scenario.allGood)
      (exampleCtx "faucet:1" bob)
      (worldWithFaucet { exampleFaucet 20 10 with Amount := 30, To := [bob], NTaken := 1 })).2.log =
        0 :=
  have h := C12_faucet_duplicate_claim (exampleEnv Scenario.allGood)
    (exampleCtx "faucet:1" bob)
    (worldWithFaucet { exampleFaucet 20 10 with Amount := 30, To := [bob], NTaken := 1 })
    { exampleFaucet 20 10 with Amount := 30, To := [bob], NTaken := 1 }
    (by decide) rfl ⟨bob, by simp, rfl⟩
  ⟨h.1, h.2.1⟩

/-! ### Locks, saves and notifications along the log -/

theorem lockTrace_append (s : LockState) (l m : List Event) :
    lockTrace s (l ++ m) = lockTrace (lockTrace s l) m := by
  simp [lockTrace, List.foldl_append]

@[simp] theorem locks_emit {σ : Type} (w : World σ) (e : Event) :
    (w.emit e).locks = lockStep w.locks e := by
  simp [World.locks, World.emit, lockTrace, List.foldl_append]

@[simp] theorem locks_withExt {σ : Type} (w : World σ) (s : σ) : (w.withExt s).locks = w.locks :=
  rfl

@[simp] theorem locks_setSend {σ : Type} (env : Env σ) (w : World σ) (v : InlineSend) :
    (w.setSend env v).locks = lockStep w.locks (.save v.ID) := by
  simp [World.locks, World.setSend, lockTrace, List.foldl_append]

@[simp] theorem locks_setReceive {σ : Type} (env : Env σ) (w : World σ) (v : InlineReceive) :
    (w.setReceive env v).locks = lockStep w.locks (.save v.ID) := by
  simp [World.locks, World.setReceive, lockTrace, List.foldl_append]

@[simp] theorem locks_setFaucet {σ : Type} (env : Env σ) (w : World σ) (v : InlineFaucet) :
    (w.setFaucet env v).locks = lockStep w.locks (.save v.ID) := by
  simp [World.locks, World.setFaucet, lockTrace, List.foldl_append]

@[simp] theorem locks_setPay {σ : Type} (env : Env σ) (w : World σ) (v : PayData) :
    (w.setPay env v).locks = lockStep w.locks (.save v.ID) := by
  simp [World.locks, World.setPay, lockTrace, List.foldl_append]

@[simp] theorem locks_setAuth {σ : Type} (env : Env σ) (w : World σ) (v : LnurlAuthState) :
    (w.setAuth env v).locks = lockStep w.locks (.save v.ID) := by
  simp [World.locks, World.setAuth, lockTrace, List.foldl_append]

@[simp] theorem locks_setLnurlPay {σ : Type} (env : Env σ) (w : World σ) (v : LnurlPayState) :
    (w.setLnurlPay env v).locks = lockStep w.locks (.save v.ID) := by
  simp [World.locks, World.setLnurlPay, lockTrace, List.foldl_append]

@[simp] theorem locks_createPay {σ : Type} (env : Env σ) (w : World σ) (v : PayData) :
    (w.createPay env v).locks = w.locks := by
  simp [World.locks, World.createPay, lockTrace, List.foldl_append, lockStep]

/-- A save of an ID whose lock is held leaves the bookkeeping as it is. -/
theorem lockStep_save_held (s : LockState) (id : String) (h : id ∈ s.held) :
    lockStep s (.save id) = s := by
  simp [lockStep, h]

/-- A notification issued while a lock is held leaves the bookkeeping as it is. -/
theorem lockStep_message_held (s : LockState) (r : Int) (k : String) (h : s.held ≠ []) :
    lockStep s (.message r k) = s ∧ lockStep s (.goMessage r k) = s := by
  obtain ⟨held, nest, peak, ok, covered⟩ := s
  cases held with
  | nil => exact absurd rfl h
  | cons a t => simp [lockStep]

/-- Events that are no lock call, no save and no notification are not accounted for. -/
theorem lockStep_other (s : LockState) :
    (∀ x, lockStep s (.info x) = s) ∧ (∀ x, lockStep s (.updateUser x) = s) ∧
    (∀ x y, lockStep s (.cacheSet x y) = s) ∧ (∀ x y, lockStep s (.invoice x y) = s) ∧
    (∀ x y, lockStep s (.pay x y) = s) ∧ (∀ x, lockStep s (.send x) = s) ∧
    (∀ x, lockStep s (.txSave x) = s) ∧ (∀ x, lockStep s (.create x) = s) ∧
    (∀ x, lockStep s (.edit x) = s) ∧ lockStep s .delete = s :=
  ⟨fun _ => rfl, fun _ => rfl, fun _ _ => rfl, fun _ _ => rfl, fun _ _ => rfl, fun _ => rfl,
    fun _ => rfl, fun _ => rfl, fun _ => rfl, rfl⟩

@[simp] theorem lockStep_info (s : LockState) (x : String) : lockStep s (.info x) = s := rfl

@[simp] theorem lockStep_updateUser (s : LockState) (x : String) :
    lockStep s (.updateUser x) = s := rfl

@[simp] theorem lockStep_cacheSet (s : LockState) (x : String) (y : Int) :
    lockStep s (.cacheSet x y) = s := rfl

@[simp] theorem lockStep_invoice (s : LockState) (x : String) (y : InvoiceParams) :
    lockStep s (.invoice x y) = s := rfl

@[simp] theorem lockStep_pay (s : LockState) (x : String) (y : PaymentParams) :
    lockStep s (.pay x y) = s := rfl

@[simp] theorem lockStep_send (s : LockState) (x : Transaction) : lockStep s (.send x) = s := rfl

@[simp] theorem lockStep_txSave (s : LockState) (x : Transaction) :
    lockStep s (.txSave x) = s := rfl

@[simp] theorem lockStep_create (s : LockState) (x : String) : lockStep s (.create x) = s := rfl

@[simp] theorem lockStep_edit (s : LockState) (x : String) : lockStep s (.edit x) = s := rfl

@[simp] theorem lockStep_delete (s : LockState) : lockStep s .delete = s := rfl

/-! ### The collaborators neither lock, nor save an intent, nor notify -/

@[simp] theorem GetUserBalance_locks {σ : Type} (env : Env σ) (user : User) (w : World σ) :
    (GetUserBalance env user w).2.2.locks = w.locks := by
  unfold GetUserBalance
  split
  · rfl
  · dsimp only
    split
    · simp
    · split <;> simp

@[simp] theorem GetUserBalanceCached_locks {σ : Type} (env : Env σ) (user : User) (w : World σ) :
    (GetUserBalanceCached env user w).2.2.locks = w.locks := by
  unfold GetUserBalanceCached
  split
  · exact GetUserBalance_locks env user w
  · rfl

@[simp] theorem UserExists_locks {σ : Type} (env : Env σ) (user : TgUser) (w : World σ) :
    (UserExists env user w).2.locks = w.locks := by
  unfold UserExists
  split <;> rfl

@[simp] theorem CreateWalletForTelegramUser_locks {σ : Type} (env : Env σ) (user : TgUser)
    (w : World σ) : (CreateWalletForTelegramUser env user w).2.locks = w.locks := by
  unfold CreateWalletForTelegramUser
  have h1 := UserExists_locks env user w
  split
  · rename_i heq
    rw [heq] at h1
    exact h1
  · rename_i heq
    rw [heq] at h1
    dsimp only at h1 ⊢
    split
    · simpa using h1
    · split <;> simpa using h1

@[simp] theorem ResetUserState_locks {σ : Type} (env : Env σ) (user : User) (w : World σ) :
    (ResetUserState env user w).2.locks = w.locks := by
  simp [ResetUserState]

@[simp] theorem SetUserState_locks {σ : Type} (env : Env σ) (user : User) (k : Nat) (d : String)
    (w : World σ) : (SetUserState env user k d w).2.locks = w.locks := by
  simp [SetUserState]

@[simp] theorem transfer_locks {σ : Type} (env : Env σ) (t : Transaction) (src dst : User)
    (fromWal : Wallet) (amount : Int) (memo : String) (w : World σ) :
    (SendTransaction.transfer env t src dst fromWal amount memo w).2.2.2.2.locks = w.locks := by
  unfold SendTransaction.transfer
  dsimp only
  split
  · rfl
  · split
    · simp
    · split
      · simp
      · split
        · rename_i heq
          have h := congrArg (fun q => q.2.2.locks) heq
          simp at h
          simp [← h]
        · rename_i heq
          have h := congrArg (fun q => q.2.2.locks) heq
          simp at h
          split
          · rename_i heq1
            have h1 := congrArg (fun q => q.2.2.locks) heq1
            simp at h1
            simp [← h1, ← h]
          · rename_i heq1
            have h1 := congrArg (fun q => q.2.2.locks) heq1
            simp at h1
            simp [← h1, ← h]

@[simp] theorem SendTransaction_locks {σ : Type} (env : Env σ) (t : Transaction) (src dst : User)
    (amount : Int) (memo : String) (w : World σ) :
    (SendTransaction env t src dst amount memo w).2.2.2.2.locks = w.locks := by
  unfold SendTransaction
  split
  · rfl
  · dsimp only
    split
    · rename_i heq
      have h := congrArg (fun q => q.2.2.locks) heq
      simp at h
      simp [← h]
    · rename_i heq
      have h := congrArg (fun q => q.2.2.locks) heq
      simp at h
      split
      · simp [← h]
      · simp [← h]

@[simp] theorem Send_locks {σ : Type} (env : Env σ) (t : Transaction) (w : World σ) :
    (Send env t w).2.2.locks = w.locks := by
  unfold Send
  split
  · rename_i heq
    have h := congrArg (fun q => q.2.2.2.2.locks) heq
    simp at h
    simp [← h]
  · rename_i heq
    have h := congrArg (fun q => q.2.2.2.2.locks) heq
    simp at h
    dsimp only
    split
    · simp [← h]
    · split <;> simp [← h]

theorem Store.Get_ok {α : Type} (s : Store α) (id : String) (v : α) (h : s.Get id = .ok v) :
    s id = some v := by
  unfold Store.Get at h
  split at h
  · rename_i heq
    rw [heq]
    cases h
    rfl
  · cases h

theorem held_lock (s : LockState) (id : String) : id ∈ (lockStep s (.lock id)).held := by
  simp [lockStep]

theorem lock_unlock (s : LockState) (id : String) :
    lockStep (lockStep s (.lock id)) (.unlock id) = s.nested id 1 := by
  simp [lockStep, LockState.nested]

/-- One more lock call around `n` nested ones. -/
theorem lock_nested_unlock (s : LockState) (id : String) (n : Nat) (hn : 1 ≤ n) :
    lockStep ((lockStep s (.lock id)).nested id n) (.unlock id) = s.nested id (n + 1) := by
  simp [lockStep, LockState.nested, List.filter_filter]
  omega

theorem ne_nil_of_mem_held {s : LockState} {id : String} (h : id ∈ s.held) : s.held ≠ [] :=
  List.ne_nil_of_mem h

/-! ### inline_send.go under the lock -/

theorem execute_locks {σ : Type} (env : Env σ) (inlineSend : InlineSend) (dst : User)
    (aliased : Bool) (w : World σ) (h : inlineSend.ID ∈ w.locks.held) :
    (acceptInlineSendHandler.execute env inlineSend dst aliased w).2.2.locks = w.locks := by
  have hm := ne_nil_of_mem_held h
  unfold acceptInlineSendHandler.execute
  dsimp only
  split
  · rename_i heq
    have h1 := congrArg (fun q => q.2.2.locks) heq
    simp at h1
    simp [← h1, lockStep_save_held _ _ h]
  · rename_i heq
    have h1 := congrArg (fun q => q.2.2.locks) heq
    simp at h1
    have h2 : _ = w.locks := h1.symm.trans (lockStep_save_held _ _ h)
    split
    · split <;> simp [h2]
    · simp [h2, (lockStep_message_held _ _ _ hm).1]

theorem body_locks {σ : Type} (env : Env σ) (ctx : Ctx) (inlineSend : InlineSend)
    (w : World σ) (h : inlineSend.ID ∈ w.locks.held) :
    (acceptInlineSendHandler.body env ctx inlineSend w).2.2.locks = w.locks := by
  have hm := ne_nil_of_mem_held h
  unfold acceptInlineSendHandler.body
  dsimp only
  split
  · rfl
  · split
    · simp [(lockStep_message_held _ _ _ hm).1]
    · split
      · rename_i heq
        have h1 := congrArg (fun q => q.2.locks) heq
        simp at h1
        rw [execute_locks _ _ _ _ _ (by rw [← h1]; split <;> exact h), ← h1]
      · rename_i heq
        have h1 := congrArg (fun q => q.2.locks) heq
        simp at h1
        split
        · rename_i heq2
          have h2 := congrArg (fun q => q.2.locks) heq2
          simp at h2
          simp [← h2, ← h1]
        · rename_i heq2
          have h2 := congrArg (fun q => q.2.locks) heq2
          simp at h2
          rw [execute_locks _ _ _ _ _ (by rw [← h2, ← h1]; split <;> exact h), ← h2, ← h1]

/-- The accept handler of an inline send takes the lock of the intent once, saves only that
intent and notifies only while it holds the lock. -/
theorem acceptInlineSend_locks {σ : Type} (env : Env σ) (ctx : Ctx) (w : World σ)
    (hkey : ∀ v, w.sends ctx.Data = some v → v.ID = ctx.Data) :
    (acceptInlineSendHandler env ctx w).2.locks = w.locks.nested ctx.Data 1 := by
  unfold acceptInlineSendHandler
  dsimp only
  split
  · simp [lock_unlock]
  · rename_i s hget
    have hid : s.ID = ctx.Data := hkey s (Store.Get_ok _ _ _ hget)
    split
    · simp [lock_unlock]
    · have hb := body_locks env ctx s (w.emit (.lock ctx.Data))
        (by rw [hid, locks_emit]; exact held_lock _ _)
      have hbid := (acceptInlineSend_body_spec env ctx s (w.emit (.lock ctx.Data))).1
      generalize acceptInlineSendHandler.body env ctx s (w.emit (.lock ctx.Data)) = q at hb hbid
      obtain ⟨r, s1, w1⟩ := q
      dsimp only at hb hbid ⊢
      rw [locks_emit, locks_setSend, hb, hbid, hid, locks_emit,
        lockStep_save_held _ _ (held_lock _ _), lock_unlock]

theorem cancelInlineSend_locks {σ : Type} (env : Env σ) (ctx : Ctx) (w : World σ)
    (hkey : ∀ v, w.sends ctx.Data = some v → v.ID = ctx.Data) :
    (cancelInlineSendHandler env ctx w).2.locks = w.locks.nested ctx.Data 1 := by
  unfold cancelInlineSendHandler
  dsimp only
  split
  · simp [lock_unlock]
  · rename_i s hget
    have hid : s.ID = ctx.Data := hkey s (Store.Get_ok _ _ _ hget)
    split
    · simp [lock_unlock]
    · simp only [locks_emit, locks_setSend, lockStep_edit, hid,
        lockStep_save_held _ _ (held_lock _ _), lock_unlock]

/-! ### faucet.go under the lock -/

theorem finishFaucet_locks {σ : Type} (env : Env σ) (f : InlineFaucet) (w : World σ)
    (hm : w.locks.held ≠ []) : (finishFaucet env f w).2.locks = w.locks := by
  unfold finishFaucet
  dsimp only
  split <;> simp [(lockStep_message_held _ _ _ hm).1]

theorem faucet_claim_locks {σ : Type} (env : Env σ) (f : InlineFaucet) (dst : User)
    (w : World σ) (hm : w.locks.held ≠ []) :
    (acceptInlineFaucetHandler.claim env f dst w).2.2.locks = w.locks := by
  unfold acceptInlineFaucetHandler.claim
  dsimp only
  generalize ({ NewTransaction f.From dst
      (if (!dst.Initialized) = true then { f with UserNeedsWallet := true } else f).PerUserAmount
      "faucet" with
        Memo := "🚰 Faucet from " ++ GetUserStr f.From.Telegram ++ " to " ++
          GetUserStr dst.Telegram ++ "." } : Transaction) = t
  generalize (if (!dst.Initialized) = true then { f with UserNeedsWallet := true } else f) = g
  have hs := Send_locks env t w
  generalize Send env t w = out at hs
  obtain ⟨r, t1, w1⟩ := out
  dsimp only at hs
  have hm1 : w1.locks.held ≠ [] := hs.symm ▸ hm
  cases r with
  | panicked => exact hs
  | value p =>
    obtain ⟨success, err⟩ := p
    cases success with
    | false =>
      cases err with
      | none => simpa using hs
      | some e =>
        have hf := finishFaucet_locks env { g with From := t1.From } w1 hm1
        simp only [Bool.not_false, if_true]
        generalize finishFaucet env { g with From := t1.From } w1 = fin at hf
        obtain ⟨f3, w2⟩ := fin
        exact hf.trans hs
    | true =>
      simp only [Bool.not_true, Bool.false_eq_true, if_false]
      split <;> simp [hs, (lockStep_message_held _ _ _ hm).2]

theorem faucet_finish_locks {σ : Type} (env : Env σ) (f : InlineFaucet) (w : World σ)
    (hm : w.locks.held ≠ []) :
    (acceptInlineFaucetHandler.finish env f w).2.2.locks = w.locks := by
  unfold acceptInlineFaucetHandler.finish
  have hf := finishFaucet_locks env f w hm
  generalize finishFaucet env f w = fin at hf
  obtain ⟨f3, w2⟩ := fin
  split
  · exact hf
  · rfl

theorem faucet_claimAndFinish_locks {σ : Type} (env : Env σ) (f : InlineFaucet) (dst : User)
    (w : World σ) (hm : w.locks.held ≠ []) :
    (acceptInlineFaucetHandler.claimAndFinish env f dst w).2.2.locks = w.locks := by
  unfold acceptInlineFaucetHandler.claimAndFinish
  have hc := faucet_claim_locks env f dst w hm
  split
  · rename_i heq
    rw [heq] at hc
    dsimp only at hc
    rw [faucet_finish_locks _ _ _ (hc ▸ hm), hc]
  · exact hc

theorem faucet_body_locks {σ : Type} (env : Env σ) (ctx : Ctx) (f : InlineFaucet) (w : World σ)
    (hm : w.locks.held ≠ []) :
    (acceptInlineFaucetHandler.body env ctx f w).2.2.locks = w.locks := by
  unfold acceptInlineFaucetHandler.body
  dsimp only
  split
  · split
    · rename_i heq
      have h1 := congrArg (fun q => q.2.locks) heq
      simp at h1
      rw [faucet_claimAndFinish_locks _ _ _ _ (h1 ▸ hm), ← h1]
    · rename_i heq
      have h1 := congrArg (fun q => q.2.locks) heq
      simp at h1
      split
      · rename_i heq2
        have h2 := congrArg (fun q => q.2.locks) heq2
        simp at h2
        simp [← h2, ← h1]
      · rename_i heq2
        have h2 := congrArg (fun q => q.2.locks) heq2
        simp at h2
        rw [faucet_claimAndFinish_locks _ _ _ _ (h2 ▸ h1 ▸ hm), ← h2, ← h1]
  · exact faucet_finish_locks env f w hm

/-- The accept handler of a faucet takes the lock of the faucet once, saves only that
faucet and notifies only while it holds the lock. -/
theorem acceptInlineFaucet_locks {σ : Type} (env : Env σ) (ctx : Ctx) (w : World σ)
    (hkey : ∀ v, w.faucets ctx.Data = some v → v.ID = ctx.Data) :
    (acceptInlineFaucetHandler env ctx w).2.locks = w.locks.nested ctx.Data 1 := by
  have hm : (w.emit (.lock ctx.Data)).locks.held ≠ [] := by
    rw [locks_emit]
    exact ne_nil_of_mem_held (held_lock _ _)
  unfold acceptInlineFaucetHandler
  dsimp only
  split
  · simp [lock_unlock]
  · rename_i f hget
    have hid : f.ID = ctx.Data := hkey f (Store.Get_ok _ _ _ hget)
    split
    · have hf := finishFaucet_locks env f _ hm
      generalize finishFaucet env f (w.emit (.lock ctx.Data)) = fin at hf
      obtain ⟨f3, w2⟩ := fin
      dsimp only at hf ⊢
      rw [locks_emit, hf, locks_emit, lock_unlock]
    · rename_i hact
      split
      · simp [lock_unlock]
      · split
        · simp [lock_unlock]
        · have hb := faucet_body_locks env ctx f (w.emit (.lock ctx.Data)) hm
          have hbid := (faucet_body_spec env ctx f (w.emit (.lock ctx.Data))
            (by simpa using hact)).2.1
          generalize acceptInlineFaucetHandler.body env ctx f (w.emit (.lock ctx.Data)) = q
            at hb hbid
          obtain ⟨r, f1, w1⟩ := q
          dsimp only at hb hbid ⊢
          rw [locks_emit, locks_setFaucet, hb, hbid, hid, locks_emit,
            lockStep_save_held _ _ (held_lock _ _), lock_unlock]

theorem cancelInlineFaucet_locks {σ : Type} (env : Env σ) (ctx : Ctx) (ignoreID : Bool)
    (w : World σ) (hkey : ∀ v, w.faucets ctx.Data = some v → v.ID = ctx.Data) :
    (cancelInlineFaucet env ctx ignoreID w).2.locks = w.locks.nested ctx.Data 1 := by
  unfold cancelInlineFaucet
  dsimp only
  split
  · simp [lock_unlock]
  · rename_i f hget
    have hid : f.ID = ctx.Data := hkey f (Store.Get_ok _ _ _ hget)
    split
    · simp only [locks_emit, locks_setFaucet, lockStep_edit, hid,
        lockStep_save_held _ _ (held_lock _ _), lock_unlock]
    · simp [lock_unlock]

/-! ### pay.go under the lock -/

theorem confirmPay_body_locks {σ : Type} (env : Env σ) (ctx : Ctx) (payData : PayData)
    (w : World σ) (hm : w.locks.held ≠ []) :
    (confirmPayHandler.body env ctx payData w).2.2.locks = w.locks ∧
    (confirmPayHandler.body env ctx payData w).2.1.ID = payData.ID := by
  unfold confirmPayHandler.body
  dsimp only
  split
  · simp
  · split
    · simp
    · split <;> simp [(lockStep_message_held _ _ _ hm).1]

theorem confirmPay_locks {σ : Type} (env : Env σ) (ctx : Ctx) (w : World σ)
    (hkey : ∀ v, w.pays ctx.Data = some v → v.ID = ctx.Data) :
    (confirmPayHandler env ctx w).2.locks = w.locks.nested ctx.Data 1 := by
  have hm : (w.emit (.lock ctx.Data)).locks.held ≠ [] := by
    rw [locks_emit]
    exact ne_nil_of_mem_held (held_lock _ _)
  unfold confirmPayHandler
  dsimp only
  split
  · simp [lock_unlock]
  · rename_i p hget
    have hid : p.ID = ctx.Data := hkey p (Store.Get_ok _ _ _ hget)
    split
    · simp [lock_unlock]
    · split
      · simp [lock_unlock]
      · obtain ⟨hb, hbid⟩ := confirmPay_body_locks env ctx p (w.emit (.lock ctx.Data)) hm
        generalize confirmPayHandler.body env ctx p (w.emit (.lock ctx.Data)) = q at hb hbid
        obtain ⟨r, p1, w1⟩ := q
        dsimp only at hb hbid ⊢
        rw [locks_emit, locks_setPay, hb, hbid, hid, locks_emit,
          lockStep_save_held _ _ (held_lock _ _), lock_unlock]

theorem cancelPayment_locks {σ : Type} (env : Env σ) (ctx : Ctx) (w : World σ)
    (hkey : ∀ v, w.pays ctx.Data = some v → v.ID = ctx.Data) :
    (cancelPaymentHandler env ctx w).2.locks = w.locks.nested ctx.Data 1 := by
  unfold cancelPaymentHandler
  dsimp only
  split
  · simp [lock_unlock]
  · rename_i p hget
    have hid : p.ID = ctx.Data := hkey p (Store.Get_ok _ _ _ hget)
    split
    · simp [lock_unlock]
    · have hm : (lockStep w.locks (.lock ctx.Data)).held ≠ [] :=
        ne_nil_of_mem_held (held_lock _ _)
      simp only [locks_emit, locks_setPay, lockStep_delete, hid, ResetUserState_locks,
        (lockStep_message_held _ _ _ hm).1, lockStep_save_held _ _ (held_lock _ _), lock_unlock]

/-! ### inline_receive.go under the lock -/

theorem finishInlineReceive_locks {σ : Type} (env : Env σ) (c : Callback) (w : World σ) :
    (finishInlineReceiveHandler env true c w).2.locks = w.locks.nested c.Data 1 := by
  have hm : (lockStep w.locks (.lock c.Data)).held ≠ [] := ne_nil_of_mem_held (held_lock _ _)
  unfold finishInlineReceiveHandler
  simp only [if_true]
  split
  · simp [lock_unlock]
  · simp only [locks_emit, lockStep_edit, (lockStep_message_held _ _ _ hm).1, lock_unlock]

theorem inlineReceiveInvoice_locks {σ : Type} (env : Env σ) (ctx : Ctx) (r : InlineReceive)
    (w : World σ) (hm : w.locks.held ≠ []) :
    (inlineReceiveInvoice env ctx r w).locks = w.locks := by
  unfold inlineReceiveInvoice
  split
  · rfl
  · dsimp only
    split
    · simp
    · split
      · simp
      · simp [(lockStep_message_held _ _ _ hm).1]

theorem sendInlineReceive_locks {σ : Type} (env : Env σ) (ctx : Ctx) (w : World σ)
    (hkey : ∀ v, w.receives ctx.Data = some v → v.ID = ctx.Data) :
    (sendInlineReceiveHandler env ctx w).2.locks = w.locks.nested ctx.Data 1 ∨
    (sendInlineReceiveHandler env ctx w).2.locks = w.locks.nested ctx.Data 2 := by
  have hh : ctx.Data ∈ (lockStep w.locks (.lock ctx.Data)).held := held_lock _ _
  have hm := ne_nil_of_mem_held hh
  unfold sendInlineReceiveHandler
  dsimp only
  split
  · left
    simp [lock_unlock]
  · rename_i r hget
    have hid : r.ID = ctx.Data := hkey r (Store.Get_ok _ _ _ hget)
    split
    · left
      simp [lock_unlock]
    · split
      · rename_i heq
        have h1 := congrArg (fun q => q.2.2.locks) heq
        simp at h1
        left
        simp [← h1, lock_unlock]
      · rename_i heq
        have h1 := congrArg (fun q => q.2.2.locks) heq
        simp at h1
        split
        · left
          simp [← h1, lock_unlock, (lockStep_message_held _ _ _ hm).1]
        · split
          · rename_i heq2
            have h2 := congrArg (fun q => q.2.2.locks) heq2
            simp [hid, ← h1, lockStep_save_held _ _ hh] at h2
            left
            simp [← h2, lock_unlock]
          · rename_i heq2
            have h2 := congrArg (fun q => q.2.2.locks) heq2
            simp [hid, ← h1, lockStep_save_held _ _ hh] at h2
            split
            · left
              split <;> simp [← h2, lock_unlock]
            · right
              simp only [locks_emit, locks_setReceive, finishInlineReceive_locks, hid, ← h2,
                lockStep_save_held _ _ hh]
              exact lock_nested_unlock _ _ 1 (le_refl _)

theorem acceptInlineReceive_locks {σ : Type} (env : Env σ) (ctx : Ctx) (w : World σ)
    (hkey : ∀ v, w.receives ctx.Data = some v → v.ID = ctx.Data) :
    (acceptInlineReceiveHandler env ctx w).2.locks = w.locks.nested ctx.Data 1 ∨
    (acceptInlineReceiveHandler env ctx w).2.locks = w.locks.nested ctx.Data 2 ∨
    (acceptInlineReceiveHandler env ctx w).2.locks = w.locks.nested ctx.Data 3 := by
  have hh : ctx.Data ∈ (lockStep w.locks (.lock ctx.Data)).held := held_lock _ _
  have hm := ne_nil_of_mem_held hh
  unfold acceptInlineReceiveHandler
  dsimp only
  split
  · left
    simp [lock_unlock]
  · rename_i r hget
    have hid : r.ID = ctx.Data := hkey r (Store.Get_ok _ _ _ hget)
    have hid1 : (if r.From_SpecificUser = true then r else { r with From := ctx.User }).ID =
        ctx.Data := by
      split
      · exact hid
      · exact hid
    generalize (if r.From_SpecificUser = true then r else { r with From := ctx.User }) = r1
      at hid1 ⊢
    split
    · left
      simp only [locks_emit, lock_unlock]
    · split
      · left
        simp only [locks_emit, lock_unlock]
      · split
        · left
          simp only [locks_emit, locks_setReceive, hid1, lockStep_save_held _ _ hh,
            (lockStep_message_held _ _ _ hm).1, lock_unlock]
        · split
          · left
            rw [locks_emit, inlineReceiveInvoice_locks]
            · simp only [locks_emit, locks_setReceive, GetUserBalance_locks, hid1,
                lockStep_save_held _ _ hh, lockStep_edit, lock_unlock]
            · simp only [locks_emit, locks_setReceive, GetUserBalance_locks, hid1,
                lockStep_save_held _ _ hh, lockStep_edit]
              exact hm
          · right
            have hrec : ∀ v, (GetUserBalance env ctx.User ((w.emit (.lock ctx.Data)).setReceive env
                { r1 with Message := some { Data := ctx.Data, Sender := some ctx.Sender } })).2.2.receives
                ctx.Data = some v → v.ID = ctx.Data := by
              intro v hv
              rw [intents_receives (GetUserBalance_quiet env ctx.User _).1] at hv
              rcases setReceive_store env (w.emit (.lock ctx.Data))
                { r1 with Message := some { Data := ctx.Data, Sender := some ctx.Sender } }
                with hst | hst
              · rw [hst] at hv
                simp only [Store.put, hid1, if_true] at hv
                obtain rfl := Option.some.inj hv
                exact hid1
              · rw [hst] at hv
                exact hkey v hv
            have hs := sendInlineReceive_locks env
              { ctx with User := (GetUserBalance env ctx.User ((w.emit (.lock ctx.Data)).setReceive env
                { r1 with Message := some { Data := ctx.Data, Sender := some ctx.Sender } })).2.1 }
              _ hrec
            simp only [locks_emit, locks_setReceive, GetUserBalance_locks, hid1,
              lockStep_save_held _ _ hh] at hs
            rcases hs with hs | hs
            · left
              rw [locks_emit, hs]
              exact lock_nested_unlock _ _ 1 (le_refl _)
            · right
              rw [locks_emit, hs]
              exact lock_nested_unlock _ _ 2 (by omega)

theorem cancelInlineReceive_locks {σ : Type} (env : Env σ) (ctx : Ctx) (w : World σ)
    (hkey : ∀ v, w.receives ctx.Data = some v → v.ID = ctx.Data) :
    (cancelInlineReceiveHandler env ctx w).2.locks = w.locks.nested ctx.Data 1 := by
  unfold cancelInlineReceiveHandler
  dsimp only
  split
  · simp [lock_unlock]
  · rename_i s hget
    have hid : s.ID = ctx.Data := hkey s (Store.Get_ok _ _ _ hget)
    split
    · simp [lock_unlock]
    · simp only [locks_emit, locks_setReceive, lockStep_edit, hid,
        lockStep_save_held _ _ (held_lock _ _), lock_unlock]

/-! ### What is done holding no lock -/

theorem core_step {s s1 : LockState} (h : s1.core = s.core) (e : Event) :
    (lockStep s1 e).core = (lockStep s e).core := by
  obtain ⟨a, b, c, d, x⟩ := s
  obtain ⟨a1, b1, c1, d1, x1⟩ := s1
  simp only [LockState.core, Prod.mk.injEq] at h
  obtain ⟨rfl, rfl, rfl, rfl⟩ := h
  cases e <;> rfl

theorem core_nested {s s1 : LockState} (h : s1.core = s.core) (id : String) (n : Nat) :
    (s1.nested id n).core = (s.nested id n).core := by
  obtain ⟨a, b, c, d, x⟩ := s
  obtain ⟨a1, b1, c1, d1, x1⟩ := s1
  simp only [LockState.core, Prod.mk.injEq] at h
  obtain ⟨rfl, rfl, rfl, rfl⟩ := h
  rfl

@[simp] theorem core_message (s : LockState) (r : Int) (k : String) :
    (lockStep s (.message r k)).core = s.core := rfl

/-- The settlement path of an inline receive takes no lock and saves nothing. -/
theorem finishInlineReceive_core {σ : Type} (env : Env σ) (c : Callback) (w : World σ) :
    (finishInlineReceiveHandler env false c w).2.locks.core = w.locks.core := by
  unfold finishInlineReceiveHandler
  simp only [Bool.false_eq_true, if_false]
  split
  · rfl
  · simp

theorem inlineReceiveEvent_core {σ : Type} (env : Env σ) (callbackData : String)
    (payee : TgUser) (w : World σ) :
    (inlineReceiveEvent env callbackData payee w).2.locks.core = w.locks.core := by
  unfold inlineReceiveEvent
  dsimp only
  rw [finishInlineReceive_core]
  simp

/-- The pay command takes no lock and saves no intent that was stored before. -/
theorem payHandler_core {σ : Type} (env : Env σ) (ctx : Ctx) (w : World σ) :
    (payHandler env ctx w).2.locks.core = w.locks.core := by
  unfold payHandler
  dsimp only
  split
  · rfl
  · split
    · simp
    · split
      · simp
      · split
        · simp
        · split
          · simp
          · split
            · rename_i heq
              have h1 := congrArg (fun q => q.2.2.locks) heq
              simp at h1
              simp [← h1]
            · rename_i heq
              have h1 := congrArg (fun q => q.2.2.locks) heq
              simp at h1
              split
              · simp [← h1]
              · split <;> simp [← h1]

/-! ### lnurl-auth.go and lnurl-pay.go under the lock -/

theorem confirmLnurlAuth_locks {σ : Type} (env : Env σ) (ctx : Ctx) (w : World σ)
    (hkey : ∀ v, w.auths ctx.Data = some v → v.ID = ctx.Data) :
    (confirmLnurlAuthHandler env ctx w).2.locks = w.locks.nested ctx.Data 1 := by
  unfold confirmLnurlAuthHandler
  dsimp only
  split
  · simp [lock_unlock]
  · rename_i s hget
    have hid : s.ID = ctx.Data := hkey s (Store.Get_ok _ _ _ hget)
    split
    · simp [lock_unlock]
    · split
      · simp [lock_unlock]
      · split
        · simp [lock_unlock]
        · split
          · simp [lock_unlock]
          · split
            · simp [lock_unlock]
            · simp only [locks_emit, locks_setAuth, locks_withExt, lockStep_edit, hid,
                lockStep_save_held _ _ (held_lock _ _), lock_unlock]

theorem cancelLnurlAuth_locks {σ : Type} (env : Env σ) (ctx : Ctx) (w : World σ)
    (hkey : ∀ v, w.auths ctx.Data = some v → v.ID = ctx.Data) :
    (cancelLnurlAuthHandler env ctx w).2.locks = w.locks.nested ctx.Data 1 := by
  unfold cancelLnurlAuthHandler
  dsimp only
  split
  · simp [lock_unlock]
  · rename_i s hget
    have hid : s.ID = ctx.Data := hkey s (Store.Get_ok _ _ _ hget)
    split
    · simp [lock_unlock]
    · simp only [locks_emit, locks_setAuth, lockStep_edit, hid,
        lockStep_save_held _ _ (held_lock _ _), lock_unlock]

/-- The LNURL pay handler either returns before it takes a lock, or takes the lock of the
payment state once and saves only that state while it holds the lock. -/
theorem lnurlPayHandlerSend_core {σ : Type} (env : Env σ) (ctx : Ctx) (w : World σ)
    (hkey : ∀ k v, w.lnurlPays k = some v → v.ID = k) :
    (lnurlPayHandlerSend env ctx w).2.locks.core = w.locks.core ∨
    ∃ id, (lnurlPayHandlerSend env ctx w).2.locks.core = (w.locks.nested id 1).core := by
  unfold lnurlPayHandlerSend
  dsimp only
  split
  · left
    rfl
  · split
    · left
      simp
    · split
      · left
        simp
      · rename_i id _
        right
        refine ⟨id, ?_⟩
        have h0 : (lockStep (lockStep (lockStep w.locks
            (.message ctx.Sender.ID "lnurlGettingUserMessage")) (.lock id)) (.unlock id)).core =
            (w.locks.nested id 1).core := by
          rw [lock_unlock]
          exact core_nested (core_message _ _ _) id 1
        split
        · simpa using h0
        · rename_i s hget
          have hid : s.ID = id := hkey id s (Store.Get_ok _ _ _ hget)
          split
          · simpa using h0
          · split
            · simpa using h0
            · rw [locks_emit, core_step (payHandler_core env _ _)]
              simp only [locks_emit, locks_setLnurlPay, locks_withExt, lockStep_delete, hid,
                lockStep_save_held _ _ (held_lock _ _)]
              exact h0

/-! ### Rejected accept triggers -/

/-- An accept trigger on an active inline send by a user who is not the designated
receiver, or by the sender, is rejected before any collaborator is called: the world gains
the lock, at most one message to the sender, the deferred save and the unlock. -/
theorem acceptInlineSend_reject {σ : Type} (env : Env σ) (ctx : Ctx) (w : World σ)
    (s : InlineSend) (hs : w.sends ctx.Data = some s) (hact : s.Active = true) :
    ((s.To_SpecificUser = true ∧ s.To.Telegram.ID ≠ ctx.User.Telegram.ID) →
      acceptInlineSendHandler env ctx w =
        (.value (some (.create .UnknownError)),
          ((w.emit (.lock ctx.Data)).setSend env s).emit (.unlock ctx.Data))) ∧
    (¬ (s.To_SpecificUser = true ∧ s.To.Telegram.ID ≠ ctx.User.Telegram.ID) →
      s.From.Telegram.ID = ctx.User.Telegram.ID →
      acceptInlineSendHandler env ctx w =
        (.value (some (.create .UnknownError)),
          (((w.emit (.lock ctx.Data)).emit (.message s.From.Telegram.ID "sendYourselfMessage")).setSend env
            (if s.To_SpecificUser = true then s else { s with To := ctx.User })).emit
            (.unlock ctx.Data))) := by
  have hget : (w.emit (.lock ctx.Data)).sends.Get ctx.Data = .ok s := Store.Get_some _ _ _ hs
  constructor
  · intro h
    unfold acceptInlineSendHandler acceptInlineSendHandler.body
    simp only [hget, hact, Bool.not_true, Bool.false_eq_true, if_false, h, ne_eq,
      not_false_eq_true, and_self, if_true]
  · intro h hself
    unfold acceptInlineSendHandler acceptInlineSendHandler.body
    simp only [hget, hact, Bool.not_true, Bool.false_eq_true, if_false, h, hself, if_true]

/-- An accept trigger on an active inline receive by a user who is not the designated
payer is rejected right after the load; one by the receiver is rejected after the intent
was stored with the payer and the callback, before any collaborator is called. -/
theorem acceptInlineReceive_reject {σ : Type} (env : Env σ) (ctx : Ctx) (w : World σ)
    (r : InlineReceive) (hs : w.receives ctx.Data = some r) (hact : r.Active = true) :
    ((r.From_SpecificUser = true ∧ r.From.Telegram.ID ≠ ctx.User.Telegram.ID) →
      acceptInlineReceiveHandler env ctx w =
        (.value (some (.create .UnknownError)),
          (w.emit (.lock ctx.Data)).emit (.unlock ctx.Data))) ∧
    (¬ (r.From_SpecificUser = true ∧ r.From.Telegram.ID ≠ ctx.User.Telegram.ID) →
      ctx.User.Telegram.ID = r.To.Telegram.ID →
      acceptInlineReceiveHandler env ctx w =
        (.value (some (.create .SelfPaymentError)),
          (((w.emit (.lock ctx.Data)).setReceive env
            { (if r.From_SpecificUser = true then r else { r with From := ctx.User }) with
              Message := some { Data := ctx.Data, Sender := some ctx.Sender } }).emit
            (.message ctx.User.Telegram.ID "sendYourselfMessage")).emit (.unlock ctx.Data))) := by
  have hget : (w.emit (.lock ctx.Data)).receives.Get ctx.Data = .ok r := Store.Get_some _ _ _ hs
  constructor
  · intro h
    unfold acceptInlineReceiveHandler
    simp only [hget, hact, Bool.not_true, Bool.false_eq_true, if_false, h, ne_eq,
      not_false_eq_true, and_self, if_true]
  · intro h hself
    have hto : (if r.From_SpecificUser = true then r else { r with From := ctx.User }).To = r.To := by
      split <;> rfl
    unfold acceptInlineReceiveHandler
    simp only [hget, hact, Bool.not_true, Bool.false_eq_true, if_false]
    rw [if_neg h]
    simp only [hto, hself, if_true]

theorem walletCalls_append (l m : List Event) :
    walletCalls (l ++ m) = walletCalls l ++ walletCalls m := by
  simp [walletCalls]

/-- C13 (validation never reaches the wallet): an accept trigger on an active faucet,
inline send or inline receive that is rejected because the clicker is the originator of
the intent, or is not the designated specific counterparty, returns an error; the log
gains no balance query, invoice request, `Pay` call or entry into `Transaction.Send`, the
collaborators' state is untouched, and the intent stored under the ID is still active. -/
theorem C13_validation_never_reaches_wallet {σ : Type} (env : Env σ) (ctx : Ctx)
    (w : World σ) :
    (∀ f, w.faucets ctx.Data = some f → f.Active = true →
      f.From.Telegram.ID = ctx.User.Telegram.ID →
      (∃ e, (acceptInlineFaucetHandler env ctx w).1 = .value (some e)) ∧
      walletCalls (acceptInlineFaucetHandler env ctx w).2.log = walletCalls w.log ∧
      (acceptInlineFaucetHandler env ctx w).2.ext = w.ext ∧
      ∃ f1, (acceptInlineFaucetHandler env ctx w).2.faucets ctx.Data = some f1 ∧
        f1.Active = true) ∧
    (∀ s, w.sends ctx.Data = some s → s.ID = ctx.Data → s.Active = true →
      ((s.To_SpecificUser = true ∧ s.To.Telegram.ID ≠ ctx.User.Telegram.ID) ∨
        s.From.Telegram.ID = ctx.User.Telegram.ID) →
      (∃ e, (acceptInlineSendHandler env ctx w).1 = .value (some e)) ∧
      walletCalls (acceptInlineSendHandler env ctx w).2.log = walletCalls w.log ∧
      (acceptInlineSendHandler env ctx w).2.ext = w.ext ∧
      ∃ s1, (acceptInlineSendHandler env ctx w).2.sends ctx.Data = some s1 ∧
        s1.Active = true) ∧
    (∀ r, w.receives ctx.Data = some r → r.ID = ctx.Data → r.Active = true →
      ((r.From_SpecificUser = true ∧ r.From.Telegram.ID ≠ ctx.User.Telegram.ID) ∨
        ctx.User.Telegram.ID = r.To.Telegram.ID) →
      (∃ e, (acceptInlineReceiveHandler env ctx w).1 = .value (some e)) ∧
      walletCalls (acceptInlineReceiveHandler env ctx w).2.log = walletCalls w.log ∧
      (acceptInlineReceiveHandler env ctx w).2.ext = w.ext ∧
      ∃ r1, (acceptInlineReceiveHandler env ctx w).2.receives ctx.Data = some r1 ∧
        r1.Active = true) := by
  refine ⟨?_, ?_, ?_⟩
  · intro f hs hact hself
    obtain ⟨he, hw⟩ := faucet_reject env ctx w f hs hact (Or.inl hself)
    rw [hw]
    exact ⟨he, by simp [World.emit, walletCalls, Event.isWalletCall], rfl, f, hs, hact⟩
  · intro s hs hid hact hrej
    obtain ⟨h1, h2⟩ := acceptInlineSend_reject env ctx w s hs hact
    by_cases hspec : s.To_SpecificUser = true ∧ s.To.Telegram.ID ≠ ctx.User.Telegram.ID
    · rw [h1 hspec]
      refine ⟨⟨_, rfl⟩, by simp [World.emit, World.setSend, walletCalls, Event.isWalletCall],
        rfl, s, ?_, hact⟩
      show (World.setSend env (w.emit (.lock ctx.Data)) s).sends ctx.Data = some s
      rcases setSend_store env (w.emit (.lock ctx.Data)) s with hst | hst
      · rw [hst]
        simp [Store.put, hid]
      · rw [hst]
        exact hs
    · have hself : s.From.Telegram.ID = ctx.User.Telegram.ID := by
        rcases hrej with h | h
        · exact absurd h hspec
        · exact h
      rw [h2 hspec hself]
      have hid1 : (if s.To_SpecificUser = true then s else { s with To := ctx.User }).ID =
          ctx.Data := by
        split <;> exact hid
      have hact1 : (if s.To_SpecificUser = true then s else { s with To := ctx.User }).Active =
          true := by
        split <;> exact hact
      rcases setSend_store env
        ((w.emit (.lock ctx.Data)).emit (.message s.From.Telegram.ID "sendYourselfMessage"))
        (if s.To_SpecificUser = true then s else { s with To := ctx.User }) with hst | hst
      · refine ⟨⟨_, rfl⟩, by simp [World.emit, World.setSend, walletCalls, Event.isWalletCall],
          rfl, _, ?_, hact1⟩
        show (World.setSend env _ _).sends ctx.Data = some _
        rw [hst]
        simp [Store.put, hid1]
      · refine ⟨⟨_, rfl⟩, by simp [World.emit, World.setSend, walletCalls, Event.isWalletCall],
          rfl, s, ?_, hact⟩
        show (World.setSend env _ _).sends ctx.Data = some s
        rw [hst]
        exact hs
  · intro r hs hid hact hrej
    obtain ⟨h1, h2⟩ := acceptInlineReceive_reject env ctx w r hs hact
    by_cases hspec : r.From_SpecificUser = true ∧ r.From.Telegram.ID ≠ ctx.User.Telegram.ID
    · rw [h1 hspec]
      exact ⟨⟨_, rfl⟩, by simp [World.emit, walletCalls, Event.isWalletCall], rfl, r, hs, hact⟩
    · have hself : ctx.User.Telegram.ID = r.To.Telegram.ID := by
        rcases hrej with h | h
        · exact absurd h hspec
        · exact h
      rw [h2 hspec hself]
      have hid1 : (if r.From_SpecificUser = true then r else { r with From := ctx.User }).ID =
          ctx.Data := by
        split <;> exact hid
      have hact1 : (if r.From_SpecificUser = true then r else { r with From := ctx.User }).Active =
          true := by
        split <;> exact hact
      rcases setReceive_store env (w.emit (.lock ctx.Data))
        { (if r.From_SpecificUser = true then r else { r with From := ctx.User }) with
          Message := some { Data := ctx.Data, Sender := some ctx.Sender } } with hst | hst
      · refine ⟨⟨_, rfl⟩,
          by simp [World.emit, World.setReceive, walletCalls, Event.isWalletCall], rfl,
          { (if r.From_SpecificUser = true then r else { r with From := ctx.User }) with
            Message := some { Data := ctx.Data, Sender := some ctx.Sender } }, ?_, hact1⟩
        show (World.setReceive env _ _).receives ctx.Data = some _
        rw [hst]
        simp [Store.put, hid1]
      · refine ⟨⟨_, rfl⟩,
          by simp [World.emit, World.setReceive, walletCalls, Event.isWalletCall], rfl,
          r, ?_, hact⟩
        show (World.setReceive env _ _).receives ctx.Data = some r
        rw [hst]
        exact hs

/-- C13, worked examples: `alice` presses her own faucet, her own inline send and her own
inline receive. -/
theorem C13_validation_never_reaches_wallet_witness :
    walletCalls (acceptInlineFaucetHandler (exampleEnv Scenario.allGood)
      (exampleCtx "faucet:1" alice) (worldWithFaucet (exampleFaucet 30 10))).2.log = [] ∧
    walletCalls (acceptInlineSendHandler (exampleEnv Scenario.allGood)
      (exampleCtx "send:1" alice) exampleWorld).2.log = [] ∧
    walletCalls (acceptInlineReceiveHandler (exampleEnv Scenario.allGood)
      (exampleCtx "receive:1" alice) exampleWorld).2.log = [] :=
  ⟨((C13_validation_never_reaches_wallet (exampleEnv Scenario.allGood)
      (exampleCtx "faucet:1" alice) (worldWithFaucet (exampleFaucet 30 10))).1
      (exampleFaucet 30 10) (by decide) rfl rfl).2.1,
    ((C13_validation_never_reaches_wallet (exampleEnv Scenario.allGood)
      (exampleCtx "send:1" alice) exampleWorld).2.1
      exampleSend (by decide) rfl rfl (Or.inr rfl)).2.1,
    ((C13_validation_never_reaches_wallet (exampleEnv Scenario.allGood)
      (exampleCtx "receive:1" alice) exampleWorld).2.2
      exampleReceive (by decide) rfl rfl (Or.inr rfl)).2.1⟩

/-- C14, counterexample: `alice` presses her own inline receive. The trigger is rejected
as a self-payment, yet the record stored under "receive:1" now carries her callback in
`Message`, which was empty before. -/
theorem C14_counterexample_rejected_trigger_is_stored :
    (acceptInlineReceiveHandler (exampleEnv Scenario.allGood) (exampleCtx "receive:1" alice)
      exampleWorld).1 = .value (some (.create .SelfPaymentError)) ∧
    exampleWorld.receives "receive:1" = some exampleReceive ∧
    (acceptInlineReceiveHandler (exampleEnv Scenario.allGood) (exampleCtx "receive:1" alice)
      exampleWorld).2.receives "receive:1" =
      some { exampleReceive with
        Message := some { Data := "receive:1", Sender := some alice.Telegram } } ∧
    (acceptInlineReceiveHandler (exampleEnv Scenario.allGood) (exampleCtx "receive:1" alice)
      exampleWorld).2.receives "receive:1" ≠ exampleWorld.receives "receive:1" := by
  decide

/-- C14 as amended (payload on rejection): an accept trigger rejected because the clicker
is not the designated specific counterparty leaves the record stored under the intent ID
as it was. An accept trigger rejected as a self-payment, when the writes under the ID
succeed, leaves every field as it was except the counterparty of an intent without
designated counterparty (`InlineSend.To`, `InlineReceive.From`), which is stored as the
clicker, and `InlineReceive.Message`, which is stored as the clicker's callback. -/
theorem C14_rejection_stores_only_the_clicker {σ : Type} (env : Env σ) (ctx : Ctx)
    (w : World σ) :
    (∀ s, w.sends ctx.Data = some s → s.ID = ctx.Data → s.Active = true →
      ((s.To_SpecificUser = true ∧ s.To.Telegram.ID ≠ ctx.User.Telegram.ID) →
        (acceptInlineSendHandler env ctx w).2.sends ctx.Data = some s) ∧
      (¬ (s.To_SpecificUser = true ∧ s.To.Telegram.ID ≠ ctx.User.Telegram.ID) →
        s.From.Telegram.ID = ctx.User.Telegram.ID →
        (∀ l, env.StoreSet l ctx.Data = none) →
        (acceptInlineSendHandler env ctx w).2.sends ctx.Data =
          some (if s.To_SpecificUser = true then s else { s with To := ctx.User }))) ∧
    (∀ r, w.receives ctx.Data = some r → r.ID = ctx.Data → r.Active = true →
      ((r.From_SpecificUser = true ∧ r.From.Telegram.ID ≠ ctx.User.Telegram.ID) →
        (acceptInlineReceiveHandler env ctx w).2.receives = w.receives) ∧
      (¬ (r.From_SpecificUser = true ∧ r.From.Telegram.ID ≠ ctx.User.Telegram.ID) →
        ctx.User.Telegram.ID = r.To.Telegram.ID →
        (∀ l, env.StoreSet l ctx.Data = none) →
        (acceptInlineReceiveHandler env ctx w).2.receives ctx.Data =
          some { (if r.From_SpecificUser = true then r else { r with From := ctx.User }) with
            Message := some { Data := ctx.Data, Sender := some ctx.Sender } })) := by
  constructor
  · intro s hs hid hact
    obtain ⟨h1, h2⟩ := acceptInlineSend_reject env ctx w s hs hact
    constructor
    · intro hspec
      rw [h1 hspec]
      show (World.setSend env (w.emit (.lock ctx.Data)) s).sends ctx.Data = some s
      rcases setSend_store env (w.emit (.lock ctx.Data)) s with hst | hst
      · rw [hst]
        simp [Store.put, hid]
      · rw [hst]
        exact hs
    · intro hspec hself hsave
      rw [h2 hspec hself]
      have hid1 : (if s.To_SpecificUser = true then s else { s with To := ctx.User }).ID =
          ctx.Data := by
        split <;> exact hid
      simp [World.emit, World.setSend, World.saveError, hsave, Store.put, hid1]
  · intro r hs hid hact
    obtain ⟨h1, h2⟩ := acceptInlineReceive_reject env ctx w r hs hact
    constructor
    · intro hspec
      rw [h1 hspec]
      rfl
    · intro hspec hself hsave
      rw [h2 hspec hself]
      have hid1 : (if r.From_SpecificUser = true then r else { r with From := ctx.User }).ID =
          ctx.Data := by
        split <;> exact hid
      simp [World.emit, World.setReceive, World.saveError, hsave, Store.put, hid1]

/-- C14 as amended, worked examples: `alice` presses her own inline send and her own
inline receive. -/
theorem C14_rejection_stores_only_the_clicker_witness :
    (acceptInlineSendHandler (exampleEnv Scenario.allGood) (exampleCtx "send:1" alice)
      exampleWorld).2.sends "send:1" = some { exampleSend with To := alice } ∧
    (acceptInlineReceiveHandler (exampleEnv Scenario.allGood) (exampleCtx "receive:1" alice)
      exampleWorld).2.receives "receive:1" =
      some { exampleReceive with
        From := alice, Message := some { Data := "receive:1", Sender := some alice.Telegram } } :=
  ⟨(((C14_rejection_stores_only_the_clicker (exampleEnv Scenario.allGood)
      (exampleCtx "send:1" alice) exampleWorld).1 exampleSend (by decide) rfl rfl).2
      (by decide) rfl (fun _ => rfl)),
    (((C14_rejection_stores_only_the_clicker (exampleEnv Scenario.allGood)
      (exampleCtx "receive:1" alice) exampleWorld).2 exampleReceive (by decide) rfl rfl).2
      (by decide) rfl (fun _ => rfl))⟩

/-! ### What the quiet steps leave in the stores -/

theorem Store.put_all {α : Type} (P : α → Prop) (s : Store α) (id k : String) (v : α)
    (hs : ∀ x, s k = some x → P x) (hv : P v) : ∀ x, (s.put id v) k = some x → P x := by
  intro x hx
  unfold Store.put at hx
  split at hx
  · obtain rfl := Option.some.inj hx
    exact hv
  · exact hs x hx

@[simp] theorem emit_receives {σ : Type} (w : World σ) (e : Event) :
    (w.emit e).receives = w.receives := rfl

@[simp] theorem withExt_receives {σ : Type} (w : World σ) (s : σ) :
    (w.withExt s).receives = w.receives := rfl

@[simp] theorem GetUserBalance_receives {σ : Type} (env : Env σ) (user : User) (w : World σ) :
    (GetUserBalance env user w).2.2.receives = w.receives :=
  intents_receives (GetUserBalance_quiet env user w).1

@[simp] theorem GetUserBalanceCached_receives {σ : Type} (env : Env σ) (user : User)
    (w : World σ) : (GetUserBalanceCached env user w).2.2.receives = w.receives :=
  intents_receives (GetUserBalanceCached_quiet env user w).1

@[simp] theorem Send_receives {σ : Type} (env : Env σ) (t : Transaction) (w : World σ) :
    (Send env t w).2.2.receives = w.receives :=
  intents_receives (Send_world env t w).1

@[simp] theorem finishInlineReceive_receives {σ : Type} (env : Env σ) (b : Bool) (c : Callback)
    (w : World σ) : (finishInlineReceiveHandler env b c w).2.receives = w.receives :=
  intents_receives (finishInlineReceiveHandler_quiet env b c w).1

@[simp] theorem inlineReceiveInvoice_receives {σ : Type} (env : Env σ) (ctx : Ctx)
    (r : InlineReceive) (w : World σ) : (inlineReceiveInvoice env ctx r w).receives = w.receives := by
  unfold inlineReceiveInvoice
  split
  · rfl
  · dsimp only
    split
    · rfl
    · split <;> rfl

@[simp] theorem emit_sends {σ : Type} (w : World σ) (e : Event) : (w.emit e).sends = w.sends := rfl

@[simp] theorem UserExists_sends {σ : Type} (env : Env σ) (user : TgUser) (w : World σ) :
    (UserExists env user w).2.sends = w.sends :=
  intents_sends (UserExists_quiet env user w).1

@[simp] theorem CreateWalletForTelegramUser_sends {σ : Type} (env : Env σ) (user : TgUser)
    (w : World σ) : (CreateWalletForTelegramUser env user w).2.sends = w.sends :=
  intents_sends (CreateWalletForTelegramUser_quiet env user w).1

@[simp] theorem Send_sends {σ : Type} (env : Env σ) (t : Transaction) (w : World σ) :
    (Send env t w).2.2.sends = w.sends :=
  intents_sends (Send_world env t w).1

theorem emit_pays_eq {σ : Type} (w : World σ) (e : Event) : (w.emit e).pays = w.pays := rfl

/-- C15, the run that fails: `frank`, who has no wallet, presses the inline receive of
`alice` and is shown an invoice; the invoice is settled from outside and
`inlineReceiveEvent` finishes the request. The intent stored under "receive:1" is still
active, and when `carol` presses afterwards the handler returns nil and enters
`Transaction.Send`: `alice` is paid a second time. -/
theorem C15_settled_receive_stays_active :
    (acceptInlineReceiveHandler (exampleEnv Scenario.allGood) (exampleCtx "receive:1" frank)
      exampleWorld).1 = .value (some (.create .BalanceToLowError)) ∧
    (inlineReceiveEvent (exampleEnv Scenario.allGood) "receive:1" alice.Telegram
      (acceptInlineReceiveHandler (exampleEnv Scenario.allGood) (exampleCtx "receive:1" frank)
        exampleWorld).2).1 = .value none ∧
    ((inlineReceiveEvent (exampleEnv Scenario.allGood) "receive:1" alice.Telegram
      (acceptInlineReceiveHandler (exampleEnv Scenario.allGood) (exampleCtx "receive:1" frank)
        exampleWorld).2).2.receives "receive:1").map (fun r => r.Active) = some true ∧
    (acceptInlineReceiveHandler (exampleEnv Scenario.allGood) (exampleCtx "receive:1" carol)
      (inlineReceiveEvent (exampleEnv Scenario.allGood) "receive:1" alice.Telegram
        (acceptInlineReceiveHandler (exampleEnv Scenario.allGood) (exampleCtx "receive:1" frank)
          exampleWorld).2).2).1 = .value none ∧
    sendCount (acceptInlineReceiveHandler (exampleEnv Scenario.allGood)
      (exampleCtx "receive:1" carol)
      (inlineReceiveEvent (exampleEnv Scenario.allGood) "receive:1" alice.Telegram
        (acceptInlineReceiveHandler (exampleEnv Scenario.allGood) (exampleCtx "receive:1" frank)
          exampleWorld).2).2).2.log = 1 := by
  decide

/-- C16 fails on the code: `alice` cancels her own inline send, inline receive, payment
and login. Each handler returns nil and stores the intent with `Active = false`, but with
`Canceled` still false: only `cancelInlineFaucet`, run by `alice` on her faucet, stores
`Canceled = true`. -/
theorem C16_only_the_faucet_cancel_sets_the_flag :
    (cancelInlineSendHandler (exampleEnv Scenario.allGood) (exampleCtx "send:1" alice)
      exampleWorld).1 = .value none ∧
    ((cancelInlineSendHandler (exampleEnv Scenario.allGood) (exampleCtx "send:1" alice)
      exampleWorld).2.sends "send:1").map (fun s => (s.Active, s.Canceled)) =
      some (false, false) ∧
    ((cancelInlineReceiveHandler (exampleEnv Scenario.allGood) (exampleCtx "receive:1" alice)
      exampleWorld).2.receives "receive:1").map (fun r => (r.Active, r.Canceled)) =
      some (false, false) ∧
    ((cancelPaymentHandler (exampleEnv Scenario.allGood) (exampleCtx "pay:1" alice)
      exampleWorld).2.pays "pay:1").map (fun p => (p.Active, p.Canceled)) =
      some (false, false) ∧
    ((cancelLnurlAuthHandler (exampleEnv Scenario.allGood) (exampleCtx "lnurlauth:1" alice)
      lnurlWorld).2.auths "lnurlauth:1").map (fun a => (a.Active, a.Canceled)) =
      some (false, false) ∧
    ((cancelInlineFaucet (exampleEnv Scenario.allGood) (exampleCtx "faucet:1" alice) false
      (worldWithFaucet (exampleFaucet 30 10))).2.faucets "faucet:1").map
      (fun f => (f.Active, f.Canceled)) = some (false, true) ∧
    ((acceptInlineSendHandler (exampleEnv Scenario.allGood) (exampleCtx "send:1" bob)
      exampleWorld).2.sends "send:1").map (fun s => (s.Active, s.Canceled)) =
      some (false, false) := by
  decide

/-- C17 (cancel authorization): a cancel trigger by a user other than the originator of
the stored intent (`From` for an inline send, a faucet, a payment and a login, `To` for an
inline receive) saves nothing: the log gains no save, and the store of the intent is as it
was. For an inline send, an inline receive, a payment and a login the handler returns an
error; for a faucet it returns nil. -/
theorem C17_cancel_authorization {σ : Type} (env : Env σ) (ctx : Ctx) (w : World σ) :
    (∀ s, w.sends ctx.Data = some s → ctx.Sender.ID ≠ s.From.Telegram.ID →
      (∃ e, (cancelInlineSendHandler env ctx w).1 = .value (some e)) ∧
      (cancelInlineSendHandler env ctx w).2.sends = w.sends ∧
      ∃ l, (cancelInlineSendHandler env ctx w).2.log = w.log ++ l ∧ ∀ id, Event.save id ∉ l) ∧
    (∀ r, w.receives ctx.Data = some r → ctx.Sender.ID ≠ r.To.Telegram.ID →
      (∃ e, (cancelInlineReceiveHandler env ctx w).1 = .value (some e)) ∧
      (cancelInlineReceiveHandler env ctx w).2.receives = w.receives ∧
      ∃ l, (cancelInlineReceiveHandler env ctx w).2.log = w.log ++ l ∧
        ∀ id, Event.save id ∉ l) ∧
    (∀ f, w.faucets ctx.Data = some f → ctx.Sender.ID ≠ f.From.Telegram.ID →
      (cancelInlineFaucet env ctx false w).1 = .value none ∧
      (cancelInlineFaucet env ctx false w).2.faucets = w.faucets ∧
      ∃ l, (cancelInlineFaucet env ctx false w).2.log = w.log ++ l ∧ ∀ id, Event.save id ∉ l) ∧
    (∀ p, w.pays ctx.Data = some p → p.From.Telegram.ID ≠ ctx.Sender.ID →
      (∃ e, (cancelPaymentHandler env ctx w).1 = .value (some e)) ∧
      (cancelPaymentHandler env ctx w).2.pays = w.pays ∧
      ∃ l, (cancelPaymentHandler env ctx w).2.log = w.log ++ l ∧ ∀ id, Event.save id ∉ l) ∧
    (∀ a, w.auths ctx.Data = some a → a.From.Telegram.ID ≠ ctx.Sender.ID →
      (∃ e, (cancelLnurlAuthHandler env ctx w).1 = .value (some e)) ∧
      (cancelLnurlAuthHandler env ctx w).2.auths = w.auths ∧
      ∃ l, (cancelLnurlAuthHandler env ctx w).2.log = w.log ++ l ∧ ∀ id, Event.save id ∉ l) := by
  refine ⟨?_, ?_, ?_, ?_, ?_⟩
  · intro s hs hsender
    have hget : (w.emit (.lock ctx.Data)).sends.Get ctx.Data = .ok s := Store.Get_some _ _ _ hs
    unfold cancelInlineSendHandler
    simp only [hget, hsender, ne_eq, not_false_eq_true, if_true]
    exact ⟨⟨_, rfl⟩, rfl, [.lock ctx.Data, .unlock ctx.Data], by simp [World.emit], by simp⟩
  · intro r hs hsender
    have hget : (w.emit (.lock ctx.Data)).receives.Get ctx.Data = .ok r :=
      Store.Get_some _ _ _ hs
    unfold cancelInlineReceiveHandler
    simp only [hget, hsender, ne_eq, not_false_eq_true, if_true]
    exact ⟨⟨_, rfl⟩, rfl, [.lock ctx.Data, .unlock ctx.Data], by simp [World.emit], by simp⟩
  · intro f hs hsender
    have hget : (w.emit (.lock ctx.Data)).faucets.Get ctx.Data = .ok f :=
      Store.Get_some _ _ _ hs
    unfold cancelInlineFaucet
    simp only [hget, hsender, Bool.false_eq_true, false_or, if_false]
    exact ⟨trivial, rfl, [.lock ctx.Data, .unlock ctx.Data], by simp [World.emit], by simp⟩
  · intro p hs hsender
    have hp : (ResetUserState env ctx.User w).2.pays = w.pays :=
      intents_pays (ResetUserState_quiet env ctx.User w).1
    have hget : ((ResetUserState env ctx.User w).2.emit (.lock ctx.Data)).pays.Get ctx.Data =
        .ok p := Store.Get_some _ _ _ (by rw [emit_pays_eq, hp]; exact hs)
    unfold cancelPaymentHandler
    simp only [hget, hsender, ne_eq, not_false_eq_true, if_true]
    refine ⟨⟨_, rfl⟩, hp, [.updateUser ctx.User.Name, .lock ctx.Data, .unlock ctx.Data], ?_, ?_⟩
    · simp [World.emit, ResetUserState, World.withExt]
    · simp
  · intro a hs hsender
    have hget : (w.emit (.lock ctx.Data)).auths.Get ctx.Data = .ok a := Store.Get_some _ _ _ hs
    unfold cancelLnurlAuthHandler
    simp only [hget, hsender, ne_eq, not_false_eq_true, if_true]
    exact ⟨⟨_, rfl⟩, rfl, [.lock ctx.Data, .unlock ctx.Data], by simp [World.emit], by simp⟩

/-- C17, worked examples: `bob` presses cancel on the inline send, on the payment and on
the faucet of `alice`. -/
theorem C17_cancel_authorization_witness :
    (cancelInlineSendHandler (exampleEnv Scenario.allGood) (exampleCtx "send:1" bob)
      exampleWorld).2.sends = exampleWorld.sends ∧
    (cancelPaymentHandler (exampleEnv Scenario.allGood) (exampleCtx "pay:1" bob)
      exampleWorld).2.pays = exampleWorld.pays ∧
    (cancelInlineFaucet (exampleEnv Scenario.allGood) (exampleCtx "faucet:1" bob) false
      (worldWithFaucet (exampleFaucet 30 10))).1 = .value none :=
  ⟨((C17_cancel_authorization (exampleEnv Scenario.allGood) (exampleCtx "send:1" bob)
      exampleWorld).1 exampleSend (by decide) (by decide)).2.1,
    ((C17_cancel_authorization (exampleEnv Scenario.allGood) (exampleCtx "pay:1" bob)
      exampleWorld).2.2.2.1 examplePay (by decide) (by decide)).2.1,
    ((C17_cancel_authorization (exampleEnv Scenario.allGood) (exampleCtx "faucet:1" bob)
      (worldWithFaucet (exampleFaucet 30 10))).2.2.1 (exampleFaucet 30 10) (by decide)
      (by decide)).1⟩

theorem nested_ok (s : LockState) (id : String) (n : Nat) : (s.nested id n).ok = s.ok := rfl

theorem nested_covered (s : LockState) (id : String) (n : Nat) :
    (s.nested id n).covered = s.covered := rfl

theorem nested_nest (s : LockState) (id : String) (n : Nat) : (s.nested id n).nest = s.nest := rfl

theorem nested_held (s : LockState) (id : String) (n : Nat) (h : s.held = []) :
    (s.nested id n).held = [] := by
  simp [LockState.nested, h]

theorem nested_peak (s : LockState) (id : String) (n : Nat) (h : s.nest = []) :
    (s.nested id n).peak = max s.peak n := by
  simp [LockState.nested, h]

theorem core_ok {s s1 : LockState} (h : s1.core = s.core) : s1.ok = s.ok := by
  simp only [LockState.core, Prod.mk.injEq] at h
  exact h.2.2.2

theorem core_held {s s1 : LockState} (h : s1.core = s.core) : s1.held = s.held := by
  simp only [LockState.core, Prod.mk.injEq] at h
  exact h.1

theorem core_nest {s s1 : LockState} (h : s1.core = s.core) : s1.nest = s.nest := by
  simp only [LockState.core, Prod.mk.injEq] at h
  exact h.2.1

theorem core_peak {s s1 : LockState} (h : s1.core = s.core) : s1.peak = s.peak := by
  simp only [LockState.core, Prod.mk.injEq] at h
  exact h.2.2.1

/-- The example world with the login and the LNURL payment stores every record under its
own ID. -/
theorem lnurlWorld_keyed : lnurlWorld.Keyed := by
  refine ⟨?_, ?_, ?_, ?_, ?_, ?_⟩ <;> intro k v h <;>
    simp only [lnurlWorld, exampleWorld, emptyWorld, Store.put] at h
  · split at h
    · rename_i hk
      obtain rfl := Option.some.inj h
      exact hk.symm
    · cases h
  · split at h
    · rename_i hk
      obtain rfl := Option.some.inj h
      exact hk.symm
    · cases h
  · cases h
  · split at h
    · rename_i hk
      obtain rfl := Option.some.inj h
      exact hk.symm
    · cases h
  · split at h
    · rename_i hk
      obtain rfl := Option.some.inj h
      exact hk.symm
    · cases h
  · split at h
    · rename_i hk
      obtain rfl := Option.some.inj h
      exact hk.symm
    · cases h

/-- C18 (lock discipline): started with no lock held, on a log in which every save of an
intent was made while the lock of its ID was held, each trigger handler of the faucet,
inline-send, inline-receive, pay, lnurl-pay and lnurl-auth flows ends with no lock held
and with a log in which, again, every save was made while the lock of the saved ID was
held: the handler saves a stored intent only between its lock call and its unlock call,
the deferred saves included. (The record that `payHandler` builds under a new ID is logged
as created, not as saved.) -/
theorem C18_lock_discipline {σ : Type} (env : Env σ) (ctx : Ctx) (w : World σ)
    (hk : w.Keyed) (h0 : w.locks.held = []) (hok : w.locks.ok = true) :
    ∀ out ∈ [(acceptInlineFaucetHandler env ctx w).2, (cancelInlineFaucet env ctx false w).2,
        (cancelInlineFaucet env ctx true w).2,
        (acceptInlineSendHandler env ctx w).2, (cancelInlineSendHandler env ctx w).2,
        (acceptInlineReceiveHandler env ctx w).2, (sendInlineReceiveHandler env ctx w).2,
        (finishInlineReceiveHandler env true { Data := ctx.Data, Sender := some ctx.Sender } w).2,
        (inlineReceiveEvent env ctx.Data ctx.Sender w).2,
        (cancelInlineReceiveHandler env ctx w).2,
        (payHandler env ctx w).2, (confirmPayHandler env ctx w).2,
        (cancelPaymentHandler env ctx w).2, (lnurlPayHandlerSend env ctx w).2,
        (confirmLnurlAuthHandler env ctx w).2, (cancelLnurlAuthHandler env ctx w).2],
      out.locks.ok = true ∧ out.locks.held = [] := by
  obtain ⟨ks, kr, kf, kp, ka, kl⟩ := hk
  have hn : ∀ {out : World σ} {id : String} {n : Nat}, out.locks = w.locks.nested id n →
      out.locks.ok = true ∧ out.locks.held = [] := by
    intro out id n h
    rw [h]
    exact ⟨hok, nested_held _ _ _ h0⟩
  have hc : ∀ {out : World σ}, out.locks.core = w.locks.core →
      out.locks.ok = true ∧ out.locks.held = [] := by
    intro out h
    exact ⟨(core_ok h).trans hok, (core_held h).trans h0⟩
  intro out hout
  simp only [List.mem_cons, List.mem_singleton, List.not_mem_nil, or_false] at hout
  rcases hout with rfl | rfl | rfl | rfl | rfl | rfl | rfl | rfl | rfl | rfl | rfl | rfl | rfl |
    rfl | rfl | rfl
  · exact hn (acceptInlineFaucet_locks env ctx w (kf _))
  · exact hn (cancelInlineFaucet_locks env ctx false w (kf _))
  · exact hn (cancelInlineFaucet_locks env ctx true w (kf _))
  · exact hn (acceptInlineSend_locks env ctx w (ks _))
  · exact hn (cancelInlineSend_locks env ctx w (ks _))
  · rcases acceptInlineReceive_locks env ctx w (kr _) with h | h | h <;> exact hn h
  · rcases sendInlineReceive_locks env ctx w (kr _) with h | h <;> exact hn h
  · exact hn (finishInlineReceive_locks env _ w)
  · exact hc (inlineReceiveEvent_core env _ _ w)
  · exact hn (cancelInlineReceive_locks env ctx w (kr _))
  · exact hc (payHandler_core env ctx w)
  · exact hn (confirmPay_locks env ctx w (kp _))
  · exact hn (cancelPayment_locks env ctx w (kp _))
  · rcases lnurlPayHandlerSend_core env ctx w kl with h | ⟨id, h⟩
    · exact hc h
    · exact ⟨(core_ok h).trans hok, (core_held h).trans (nested_held _ _ _ h0)⟩
  · exact hn (confirmLnurlAuth_locks env ctx w (ka _))
  · exact hn (cancelLnurlAuth_locks env ctx w (ka _))

/-- C18, worked examples: `bob` accepts the inline send of `alice` (which saves the
intent), and `alice` sends her LNURL payment. -/
theorem C18_lock_discipline_witness :
    ((acceptInlineSendHandler (exampleEnv Scenario.allGood) (exampleCtx "send:1" bob)
      lnurlWorld).2.locks.ok = true ∧
      (acceptInlineSendHandler (exampleEnv Scenario.allGood) (exampleCtx "send:1" bob)
        lnurlWorld).2.locks.held = []) ∧
    ((lnurlPayHandlerSend (exampleEnv Scenario.allGood) (exampleCtx "" aliceEntered)
      lnurlWorld).2.locks.ok = true ∧
      (lnurlPayHandlerSend (exampleEnv Scenario.allGood) (exampleCtx "" aliceEntered)
        lnurlWorld).2.locks.held = []) ∧
    Event.save "send:1" ∈ (acceptInlineSendHandler (exampleEnv Scenario.allGood)
      (exampleCtx "send:1" bob) lnurlWorld).2.log :=
  ⟨C18_lock_discipline (exampleEnv Scenario.allGood) (exampleCtx "send:1" bob) lnurlWorld
      lnurlWorld_keyed rfl rfl _ (by simp),
    C18_lock_discipline (exampleEnv Scenario.allGood) (exampleCtx "" aliceEntered) lnurlWorld
      lnurlWorld_keyed rfl rfl _ (by simp),
    by decide⟩

/-- C19, counterexample: `bob`, who can pay, presses the inline receive of `alice`. The
handler returns nil, and its lock and unlock calls on "receive:1" are three lock calls
followed by three unlock calls: the lock of the ID is taken again twice while it is
held. -/
theorem C19_counterexample_receive_chain_relocks :
    (acceptInlineReceiveHandler (exampleEnv Scenario.allGood) (exampleCtx "receive:1" bob)
      exampleWorld).1 = .value none ∧
    (acceptInlineReceiveHandler (exampleEnv Scenario.allGood) (exampleCtx "receive:1" bob)
      exampleWorld).2.log.filter
        (fun e => decide (e = .lock "receive:1") || decide (e = .unlock "receive:1")) =
      [.lock "receive:1", .lock "receive:1", .lock "receive:1",
       .unlock "receive:1", .unlock "receive:1", .unlock "receive:1"] ∧
    (acceptInlineReceiveHandler (exampleEnv Scenario.allGood) (exampleCtx "receive:1" bob)
      exampleWorld).2.locks.peak = 3 := by
  decide

/-- C19 as amended (lock re-entry): started with no lock call outstanding, every handler
returns with no lock call outstanding. The handlers outside the inline-receive chain never
have more than one lock call outstanding on an ID. Along the chain
`acceptInlineReceiveHandler`, `sendInlineReceiveHandler`, `finishInlineReceiveHandler`
each handler calls the lock of the intent ID once while its caller holds it, so that up
to two (from `sendInlineReceiveHandler`) or three (from `acceptInlineReceiveHandler`) lock
calls are outstanding before the first unlock call. -/
theorem C19_lock_nesting {σ : Type} (env : Env σ) (ctx : Ctx) (w : World σ)
    (hk : w.Keyed) (h0 : w.locks.nest = []) :
    (∀ out ∈ [(acceptInlineFaucetHandler env ctx w).2, (cancelInlineFaucet env ctx false w).2,
        (cancelInlineFaucet env ctx true w).2,
        (acceptInlineSendHandler env ctx w).2, (cancelInlineSendHandler env ctx w).2,
        (finishInlineReceiveHandler env true { Data := ctx.Data, Sender := some ctx.Sender } w).2,
        (inlineReceiveEvent env ctx.Data ctx.Sender w).2,
        (cancelInlineReceiveHandler env ctx w).2,
        (payHandler env ctx w).2, (confirmPayHandler env ctx w).2,
        (cancelPaymentHandler env ctx w).2, (lnurlPayHandlerSend env ctx w).2,
        (confirmLnurlAuthHandler env ctx w).2, (cancelLnurlAuthHandler env ctx w).2],
      out.locks.nest = [] ∧ out.locks.peak ≤ max w.locks.peak 1) ∧
    ((sendInlineReceiveHandler env ctx w).2.locks.nest = [] ∧
      (sendInlineReceiveHandler env ctx w).2.locks.peak ≤ max w.locks.peak 2) ∧
    ((acceptInlineReceiveHandler env ctx w).2.locks.nest = [] ∧
      (acceptInlineReceiveHandler env ctx w).2.locks.peak ≤ max w.locks.peak 3) := by
  obtain ⟨ks, kr, kf, kp, ka, kl⟩ := hk
  have hn : ∀ {out : World σ} {id : String} {n m : Nat}, n ≤ m →
      out.locks = w.locks.nested id n →
      out.locks.nest = [] ∧ out.locks.peak ≤ max w.locks.peak m := by
    intro out id n m hnm h
    rw [h, nested_nest, nested_peak _ _ _ h0]
    exact ⟨h0, by omega⟩
  have hc : ∀ {out : World σ}, out.locks.core = w.locks.core →
      out.locks.nest = [] ∧ out.locks.peak ≤ max w.locks.peak 1 := by
    intro out h
    rw [core_nest h, core_peak h]
    exact ⟨h0, by omega⟩
  refine ⟨?_, ?_, ?_⟩
  · intro out hout
    simp only [List.mem_cons, List.mem_singleton, List.not_mem_nil, or_false] at hout
    rcases hout with rfl | rfl | rfl | rfl | rfl | rfl | rfl | rfl | rfl | rfl | rfl | rfl | rfl |
      rfl
    · exact hn (le_refl 1) (acceptInlineFaucet_locks env ctx w (kf _))
    · exact hn (le_refl 1) (cancelInlineFaucet_locks env ctx false w (kf _))
    · exact hn (le_refl 1) (cancelInlineFaucet_locks env ctx true w (kf _))
    · exact hn (le_refl 1) (acceptInlineSend_locks env ctx w (ks _))
    · exact hn (le_refl 1) (cancelInlineSend_locks env ctx w (ks _))
    · exact hn (le_refl 1) (finishInlineReceive_locks env _ w)
    · exact hc (inlineReceiveEvent_core env _ _ w)
    · exact hn (le_refl 1) (cancelInlineReceive_locks env ctx w (kr _))
    · exact hc (payHandler_core env ctx w)
    · exact hn (le_refl 1) (confirmPay_locks env ctx w (kp _))
    · exact hn (le_refl 1) (cancelPayment_locks env ctx w (kp _))
    · rcases lnurlPayHandlerSend_core env ctx w kl with h | ⟨id, h⟩
      · exact hc h
      · rw [core_nest h, core_peak h, nested_nest, nested_peak _ _ _ h0]
        exact ⟨h0, le_refl _⟩
    · exact hn (le_refl 1) (confirmLnurlAuth_locks env ctx w (ka _))
    · exact hn (le_refl 1) (cancelLnurlAuth_locks env ctx w (ka _))
  · rcases sendInlineReceive_locks env ctx w (kr _) with h | h
    · exact hn (by omega) h
    · exact hn (le_refl 2) h
  · rcases acceptInlineReceive_locks env ctx w (kr _) with h | h | h
    · exact hn (by omega) h
    · exact hn (by omega) h
    · exact hn (le_refl 3) h

/-- C19 as amended, worked examples: the accept handlers of an inline send and of an
inline receive, pressed by `bob`. -/
theorem C19_lock_nesting_witness :
    ((acceptInlineSendHandler (exampleEnv Scenario.allGood) (exampleCtx "send:1" bob)
      lnurlWorld).2.locks.nest = [] ∧
      (acceptInlineSendHandler (exampleEnv Scenario.allGood) (exampleCtx "send:1" bob)
        lnurlWorld).2.locks.peak ≤ max lnurlWorld.locks.peak 1) ∧
    ((acceptInlineReceiveHandler (exampleEnv Scenario.allGood) (exampleCtx "receive:1" bob)
      lnurlWorld).2.locks.nest = [] ∧
      (acceptInlineReceiveHandler (exampleEnv Scenario.allGood) (exampleCtx "receive:1" bob)
        lnurlWorld).2.locks.peak ≤ max lnurlWorld.locks.peak 3) :=
  ⟨(C19_lock_nesting (exampleEnv Scenario.allGood) (exampleCtx "send:1" bob) lnurlWorld
      lnurlWorld_keyed rfl).1 _ (by simp),
    (C19_lock_nesting (exampleEnv Scenario.allGood) (exampleCtx "receive:1" bob) lnurlWorld
      lnurlWorld_keyed rfl).2.2⟩

/-- C20, counterexample: `bob` accepts the inline send of `alice`. The handler returns nil
after one entry into `Transaction.Send`, and its lock calls and messages are, in order:
the lock, the message to the receiver, the message to the sender, the unlock. Both
notifications are sent between the lock call and the unlock call. -/
theorem C20_counterexample_notified_under_lock :
    (acceptInlineSendHandler (exampleEnv Scenario.allGood) (exampleCtx "send:1" bob)
      exampleWorld).1 = .value none ∧
    sendCount (acceptInlineSendHandler (exampleEnv Scenario.allGood) (exampleCtx "send:1" bob)
      exampleWorld).2.log = 1 ∧
    (acceptInlineSendHandler (exampleEnv Scenario.allGood) (exampleCtx "send:1" bob)
      exampleWorld).2.log.filter
        (fun e => match e with
          | .lock _ => true
          | .unlock _ => true
          | .message _ _ => true
          | .goMessage _ _ => true
          | _ => false) =
      [.lock "send:1", .message 2 "sendReceivedMessage", .message 1 "sendSentMessage",
       .unlock "send:1"] := by
  decide

/-- C20 as amended (notifications and the lock): started with no lock held, the accept
handlers of an inline send, of an inline receive (with `sendInlineReceiveHandler` and
`finishInlineReceiveHandler` called from it) and of a faucet issue every notification
while they hold the lock of the intent, before the deferred unlock: the messages of the
inline send and of the inline receive are sent there, those of the faucet are handed to a
goroutine there. They return with no lock held. Only the settlement path
`inlineReceiveEvent`, which takes no lock, notifies while no lock is held. -/
theorem C20_notifications_under_lock {σ : Type} (env : Env σ) (ctx : Ctx) (w : World σ)
    (hk : w.Keyed) (h0 : w.locks.held = []) :
    (∀ out ∈ [(acceptInlineSendHandler env ctx w).2, (acceptInlineReceiveHandler env ctx w).2,
        (sendInlineReceiveHandler env ctx w).2,
        (finishInlineReceiveHandler env true { Data := ctx.Data, Sender := some ctx.Sender } w).2,
        (acceptInlineFaucetHandler env ctx w).2],
      out.locks.covered = w.locks.covered ∧ out.locks.held = []) ∧
    (inlineReceiveEvent env ctx.Data ctx.Sender w).2.locks.covered = false := by
  obtain ⟨ks, kr, kf, kp, ka, kl⟩ := hk
  have hn : ∀ {out : World σ} {id : String} {n : Nat}, out.locks = w.locks.nested id n →
      out.locks.covered = w.locks.covered ∧ out.locks.held = [] := by
    intro out id n h
    rw [h]
    exact ⟨rfl, nested_held _ _ _ h0⟩
  constructor
  · intro out hout
    simp only [List.mem_cons, List.mem_singleton, List.not_mem_nil, or_false] at hout
    rcases hout with rfl | rfl | rfl | rfl | rfl
    · exact hn (acceptInlineSend_locks env ctx w (ks _))
    · rcases acceptInlineReceive_locks env ctx w (kr _) with h | h | h <;> exact hn h
    · rcases sendInlineReceive_locks env ctx w (kr _) with h | h <;> exact hn h
    · exact hn (finishInlineReceive_locks env _ w)
    · exact hn (acceptInlineFaucet_locks env ctx w (kf _))
  · unfold inlineReceiveEvent finishInlineReceiveHandler
    simp only [Bool.false_eq_true, if_false]
    split <;> simp [lockStep, h0]

/-- C20 as amended, worked example: `bob` accepts the inline send of `alice`. -/
theorem C20_notifications_under_lock_witness :
    (acceptInlineSendHandler (exampleEnv Scenario.allGood) (exampleCtx "send:1" bob)
      lnurlWorld).2.locks.covered = lnurlWorld.locks.covered ∧
    (acceptInlineSendHandler (exampleEnv Scenario.allGood) (exampleCtx "send:1" bob)
      lnurlWorld).2.locks.held = [] :=
  (C20_notifications_under_lock (exampleEnv Scenario.allGood) (exampleCtx "send:1" bob)
    lnurlWorld lnurlWorld_keyed rfl).1 _ (by simp)

/-! ### transaction.go: the result pair of a transfer -/

/-- The transfer part returns `(true, nil)` or `(false, some error)`, and panics only when
`dst` has no wallet. -/
theorem transfer_result {σ : Type} (env : Env σ) (t : Transaction) (src dst : User)
    (fromWal : Wallet) (amount : Int) (memo : String) (w : World σ) :
    ((SendTransaction.transfer env t src dst fromWal amount memo w).1 = .panicked ∧
      dst.Wallet = none) ∨
    (SendTransaction.transfer env t src dst fromWal amount memo w).1 = .value (true, none) ∨
    ∃ e, (SendTransaction.transfer env t src dst fromWal amount memo w).1 =
      .value (false, some e) := by
  unfold SendTransaction.transfer
  dsimp only
  split
  · rename_i h
    exact Or.inl ⟨rfl, h⟩
  · split
    · exact Or.inr (Or.inr ⟨_, rfl⟩)
    · split
      · exact Or.inr (Or.inr ⟨_, rfl⟩)
      · split
        · exact Or.inr (Or.inr ⟨_, rfl⟩)
        · split
          · exact Or.inr (Or.inr ⟨_, rfl⟩)
          · exact Or.inr (Or.inl rfl)

/-- The result of `SendTransaction`: `(true, nil)`, `(false, some error)`, or a panic on a
user without wallet. -/
theorem SendTransaction_result {σ : Type} (env : Env σ) (t : Transaction) (src dst : User)
    (amount : Int) (memo : String) (w : World σ) :
    ((SendTransaction env t src dst amount memo w).1 = .panicked ∧
      (src.Wallet = none ∨ dst.Wallet = none)) ∨
    (SendTransaction env t src dst amount memo w).1 = .value (true, none) ∨
    ∃ e, (SendTransaction env t src dst amount memo w).1 = .value (false, some e) := by
  unfold SendTransaction
  split
  · rename_i h
    exact Or.inl ⟨rfl, Or.inl h⟩
  · dsimp only
    split
    · exact Or.inr (Or.inr ⟨_, rfl⟩)
    · split
      · exact Or.inr (Or.inr ⟨_, rfl⟩)
      · rename_i src1 w1 heq hlt
        rcases transfer_result env
            { t with FromWallet := (_ : Wallet).ID, FromLNbitsID := src.ID } src1 dst
            (src1.Wallet.getD _) amount memo w1 with ⟨h1, h2⟩ | h | h
        · exact Or.inl ⟨h1, Or.inr h2⟩
        · exact Or.inr (Or.inl h)
        · exact Or.inr (Or.inr h)

/-- The result of `Send`: the pair of `SendTransaction`, or a panic. -/
theorem Send_result {σ : Type} (env : Env σ) (t : Transaction) (w : World σ) :
    (Send env t w).1 = .panicked ∨ (Send env t w).1 = .value (true, none) ∨
    ∃ e, (Send env t w).1 = .value (false, some e) := by
  have h := SendTransaction_result env t t.From t.To t.Amount t.Memo (w.emit (.send t))
  unfold Send
  split
  · exact Or.inl rfl
  · rename_i success err t1 src dst w1 heq
    rw [heq] at h
    dsimp only at h ⊢
    split
    · rcases h with ⟨h, -⟩ | h | h
      · cases h
      · exact Or.inr (Or.inl h)
      · exact Or.inr (Or.inr h)
    · split
      · exact Or.inl rfl
      · rcases h with ⟨h, -⟩ | h | h
        · cases h
        · exact Or.inr (Or.inl h)
        · exact Or.inr (Or.inr h)

/-- C25 (Send result consistency): `SendTransaction` returns `(true, nil)` or
`(false, some error)`, and panics only on a user without wallet; so neither it nor `Send`
ever returns `(false, nil)`, and the callers that dereference the error when success is
false (the faucet claim, the inline send, the inline receive) panic only if `Send` itself
panicked, never on a nil error. -/
theorem C25_send_result_consistency {σ : Type} (env : Env σ) (t : Transaction)
    (src dst : User) (amount : Int) (memo : String) (w : World σ) (f : InlineFaucet)
    (inlineSend : InlineSend) (aliased : Bool) (ctx : Ctx) :
    ((((SendTransaction env t src dst amount memo w).1 = .panicked ∧
        (src.Wallet = none ∨ dst.Wallet = none)) ∨
      (SendTransaction env t src dst amount memo w).1 = .value (true, none) ∨
      ∃ e, (SendTransaction env t src dst amount memo w).1 = .value (false, some e))) ∧
    (Send env t w).1 ≠ .value (false, none) ∧
    ((acceptInlineFaucetHandler.claim env f dst w).1 = .panicked →
      (Send env { NewTransaction f.From dst f.PerUserAmount "faucet" with
        Memo := "🚰 Faucet from " ++ GetUserStr f.From.Telegram ++ " to " ++
          GetUserStr dst.Telegram ++ "." } w).1 = .panicked) ∧
    ((acceptInlineSendHandler.execute env inlineSend dst aliased w).1 = .panicked →
      (Send env { NewTransaction inlineSend.From dst inlineSend.Amount "inline send" with
        Memo := "💸 Send from " ++ GetUserStr inlineSend.From.Telegram ++ " to " ++
          GetUserStr dst.Telegram ++ "." }
        (w.setSend env { inlineSend with Active := false })).1 = .panicked) ∧
    ((sendInlineReceiveHandler env ctx w).1 = .panicked →
      ∃ r, (w.emit (.lock ctx.Data)).receives.Get ctx.Data = .ok r ∧
        (Send env { NewTransaction (GetUserBalanceCached env ctx.User (w.emit (.lock ctx.Data))).2.1
            r.To r.Amount "inline receive" with
          Memo := "💸 Receive from " ++ GetUserStr ctx.User.Telegram ++ " to " ++
            GetUserStr r.To.Telegram ++ "." }
          ((GetUserBalanceCached env ctx.User (w.emit (.lock ctx.Data))).2.2.setReceive env
            { r with Active := false })).1 = .panicked) := by
  refine ⟨SendTransaction_result env t src dst amount memo w, ?_, ?_, ?_, ?_⟩
  · rcases Send_result env t w with h | h | ⟨e, h⟩ <;> rw [h] <;> simp
  · have hp : (if (!dst.Initialized) = true then { f with UserNeedsWallet := true } else f).PerUserAmount
        = f.PerUserAmount := by
      split <;> rfl
    unfold acceptInlineFaucetHandler.claim
    dsimp only
    rw [hp]
    have h := Send_result env { NewTransaction f.From dst f.PerUserAmount "faucet" with
        Memo := "🚰 Faucet from " ++ GetUserStr f.From.Telegram ++ " to " ++
          GetUserStr dst.Telegram ++ "." } w
    generalize Send env { NewTransaction f.From dst f.PerUserAmount "faucet" with
        Memo := "🚰 Faucet from " ++ GetUserStr f.From.Telegram ++ " to " ++
          GetUserStr dst.Telegram ++ "." } w = out at h ⊢
    obtain ⟨r, t1, w1⟩ := out
    rcases h with h | h | ⟨e, h⟩
    · intro _
      exact h
    · dsimp only at h
      subst h
      simp
    · dsimp only at h
      subst h
      simp
  · unfold acceptInlineSendHandler.execute
    dsimp only
    have h := Send_result env
      { NewTransaction inlineSend.From dst inlineSend.Amount "inline send" with
        Memo := "💸 Send from " ++ GetUserStr inlineSend.From.Telegram ++ " to " ++
          GetUserStr dst.Telegram ++ "." }
      (w.setSend env { inlineSend with Active := false })
    generalize Send env
      { NewTransaction inlineSend.From dst inlineSend.Amount "inline send" with
        Memo := "💸 Send from " ++ GetUserStr inlineSend.From.Telegram ++ " to " ++
          GetUserStr dst.Telegram ++ "." }
      (w.setSend env { inlineSend with Active := false }) = out at h ⊢
    obtain ⟨r, t1, w1⟩ := out
    rcases h with h | h | ⟨e, h⟩
    · intro _
      exact h
    · dsimp only at h
      subst h
      simp
    · dsimp only at h
      subst h
      simp
  · unfold sendInlineReceiveHandler
    dsimp only
    split
    · simp
    · rename_i r hget
      split
      · simp
      · split
        · simp
        · rename_i balance src w1 heq
          split
          · simp
          · intro hp
            refine ⟨r, hget, ?_⟩
            rw [heq]
            dsimp only
            have h := Send_result env
              { NewTransaction src r.To r.Amount "inline receive" with
                Memo := "💸 Receive from " ++ GetUserStr ctx.User.Telegram ++ " to " ++
                  GetUserStr r.To.Telegram ++ "." }
              (w1.setReceive env { r with Active := false })
            generalize Send env
              { NewTransaction src r.To r.Amount "inline receive" with
                Memo := "💸 Receive from " ++ GetUserStr ctx.User.Telegram ++ " to " ++
                  GetUserStr r.To.Telegram ++ "." }
              (w1.setReceive env { r with Active := false }) = out at h hp ⊢
            obtain ⟨q, t1, w2⟩ := out
            rcases h with h | h | ⟨e, h⟩
            · exact h
            · dsimp only at h
              subst h
              simp [finishInlineReceiveHandler] at hp
              split at hp <;> simp at hp
            · dsimp only at h
              subst h
              simp at hp

/-! ### Worked runs: a failed audit save, a refused login, a node registration, LNURL schemes -/

/-- C24 fails on the code: the transfer of 10 sat from `alice` to `bob` succeeds, so
`SendTransaction` returns `(true, nil)`; the save of the record fails, and `Send` formats
its log line with `err.Error()` on that nil `err`: it panics instead of returning the pair. -/
theorem C24_failed_save_after_success_panics :
    (SendTransaction (exampleEnv { Scenario.allGood with saveFails := true })
      (NewTransaction alice bob 10 "send") alice bob 10 "Powered by @LightningTipBot"
      (emptyWorld.emit (.send (NewTransaction alice bob 10 "send")))).1 = .value (true, none) ∧
    (Send (exampleEnv { Scenario.allGood with saveFails := true })
      (NewTransaction alice bob 10 "send") emptyWorld).1 = .panicked ∧
    payCount (Send (exampleEnv { Scenario.allGood with saveFails := true })
      (NewTransaction alice bob 10 "send") emptyWorld).2.2.log = 1 := by
  decide

/-- C26 fails on the code: the service answers the signed callback of the example login
with status "ERROR"; `confirmLnurlAuthHandler` shows the reason and returns the `err` of the
decoding, which is nil. The stored login is left as it was, still active. -/
theorem C26_refused_login_returns_nil :
    (confirmLnurlAuthHandler (exampleEnv { Scenario.allGood with lnurlRefuses := true })
      (exampleCtx "lnurlauth:1" alice) lnurlWorld).1 = .value none ∧
    Event.edit "errorReasonMessage" ∈
      (confirmLnurlAuthHandler (exampleEnv { Scenario.allGood with lnurlRefuses := true })
        (exampleCtx "lnurlauth:1" alice) lnurlWorld).2.log ∧
    (confirmLnurlAuthHandler (exampleEnv { Scenario.allGood with lnurlRefuses := true })
      (exampleCtx "lnurlauth:1" alice) lnurlWorld).2.auths "lnurlauth:1" = some exampleAuth := by
  decide

/-- C27 fails on the code, for every certificate that is accepted: when the text has the
six tokens of "/node add lnd host macaroon cert" and `parseCertificateToPem` returns a
non-empty PEM text for the sixth, `parseUserSettingInput` returns `LNDParams` with the host
and the macaroon but with `Cert` and `CertString` empty, not the PEM text: the parsed
certificate was assigned to a variable of the inner block only. -/
theorem C27_accepted_certificate_is_dropped {σ : Type} (env : Env σ)
    (text cmd sub kind host macaroon cert : String)
    (hsplit : Split text ' ' = [cmd, sub, kind, host, macaroon, cert])
    (hkind : env.ToLower kind = "lnd")
    (hcert : 1 ≤ (parseCertificateToPem env cert).utf8ByteSize) :
    parseUserSettingInput env text =
      .ok (.lnd { Cert := "", Host := host, Macaroon := macaroon, CertString := "" }) ∧
    parseUserSettingInput env text ≠
      .ok (.lnd { Cert := parseCertificateToPem env cert, Host := host, Macaroon := macaroon,
                  CertString := parseCertificateToPem env cert }) := by
  have hne : splitChars '.' host.data ≠ [] := by
    cases host.data with
    | nil => simp [splitChars]
    | cons c cs =>
      unfold splitChars
      split
      · simp
      · split <;> simp
  have hlen : (Split host '.').length ≠ 0 := by
    unfold Split
    rw [List.length_map]
    exact fun h => hne (List.length_eq_zero.1 h)
  have hnot : ¬ (parseCertificateToPem env cert).utf8ByteSize < 1 := by omega
  have hval : parseUserSettingInput env text =
      .ok (.lnd { Cert := "", Host := host, Macaroon := macaroon, CertString := "" }) := by
    unfold parseUserSettingInput
    simp [hsplit, hkind, hnot, hlen]
  refine ⟨hval, ?_⟩
  rw [hval]
  intro h
  simp only [Except.ok.injEq, BackendParams.lnd.injEq, LNDParams.mk.injEq] at h
  rw [← h.1] at hcert
  exact absurd hcert (by decide)

/-- C27, a worked example: the sixth token is the hexadecimal form of the example
certificate; `parseCertificateToPem` decodes and accepts it, and the node is registered
without it. -/
theorem C27_accepted_certificate_is_dropped_witness :
    parseCertificateToPem (exampleEnv Scenario.allGood) exampleCertificateHex =
      exampleCertificate ∧
    parseUserSettingInput (exampleEnv Scenario.allGood)
      ("/node add lnd node.example:10009 0201036c6e64 " ++ exampleCertificateHex) =
      .ok (.lnd { Cert := "", Host := "node.example:10009", Macaroon := "0201036c6e64",
                  CertString := "" }) :=
  ⟨by decide!,
    (C27_accepted_certificate_is_dropped (exampleEnv Scenario.allGood)
      ("/node add lnd node.example:10009 0201036c6e64 " ++ exampleCertificateHex)
      "/node" "add" "lnd" "node.example:10009" "0201036c6e64" exampleCertificateHex
      (by decide!) (by decide) (by decide!)).1⟩

/-- C28 fails on the code, in both halves. The domain "x.com" has five bytes and no
".onion", so `strings.Index` gives -1, which equals `len(domain) - 6`: the identifier is
resolved over "http://". And the scheme of an "lnurlp://" input is chosen by looking at
`rawurl`, which is still empty there: a ".onion" host gets "https:". -/
theorem C28_scheme_selection_slips :
    HandleLNURL.rawurl (exampleEnv Scenario.allGood) "name@x.com" =
      .value (.ok "http://x.com/.well-known/lnurlp/name") ∧
    HasSuffix "x.com" ".onion" = false ∧
    HandleLNURL.rawurl (exampleEnv Scenario.allGood) "lnurlp://abcdef.onion/pay" =
      .value (.ok "https://abcdef.onion/pay") ∧
    HandleLNURL.rawurl (exampleEnv Scenario.allGood) "name@abcdef.onion" =
      .value (.ok "http://abcdef.onion/.well-known/lnurlp/name") ∧
    HandleLNURL.rawurl (exampleEnv Scenario.allGood) "name@example.com" =
      .value (.ok "https://example.com/.well-known/lnurlp/name") := by
  decide

/-! ### pay.go: admission of the pay command -/

theorem createdRecords_append (l m : List Event) :
    createdRecords (l ++ m) = createdRecords l ++ createdRecords m := by
  induction l with
  | nil => rfl
  | cons e l ih => cases e <;> simp [createdRecords, ih]

/-- A balance query stores no intent. -/
theorem GetUserBalance_created {σ : Type} (env : Env σ) (user : User) (w : World σ) :
    createdRecords (GetUserBalance env user w).2.2.log = createdRecords w.log := by
  unfold GetUserBalance
  split
  · rfl
  · dsimp only
    split
    · simp [World.emit, World.withExt, createdRecords_append, createdRecords]
    · split <;> simp [World.emit, World.withExt, createdRecords_append, createdRecords]

/-- A first write either stores the record or fails and leaves the store as it was. -/
theorem createPay_store_or {σ : Type} (env : Env σ) (w : World σ) (v : PayData) :
    (w.createPay env v).pays = w.pays.put v.ID v ∨
      ((w.createPay env v).pays = w.pays ∧ ∃ l, env.StoreSet l v.ID ≠ none) := by
  unfold World.createPay World.saveError
  cases h : env.StoreSet w.log v.ID with
  | none => exact Or.inl rfl
  | some e => exact Or.inr ⟨rfl, w.log, by rw [h]; exact fun h1 => Option.noConfusion h1⟩

/-- Go's truncating division by 1000 is at most 0 exactly when the floor is, and agrees
with the floor when it is positive. -/
theorem tdiv_thousand (m : Int) :
    (Int.tdiv m 1000 ≤ 0 ↔ m / 1000 ≤ 0) ∧ (0 < Int.tdiv m 1000 → Int.tdiv m 1000 = m / 1000) := by
  rcases Int.lt_or_le m 0 with h | h
  · have h1 : Int.tdiv m 1000 ≤ 0 := by
      have h0 : m = -(-m) := by omega
      rw [h0, Int.neg_tdiv]
      have := Int.tdiv_nonneg (a := -m) (b := 1000) (by omega) (by omega)
      omega
    have h2 : m / 1000 ≤ 0 := by omega
    exact ⟨⟨fun _ => h2, fun _ => h1⟩, fun h3 => by omega⟩
  · have h1 : Int.tdiv m 1000 = m / 1000 := Int.tdiv_eq_ediv h (by omega)
    rw [h1]
    exact ⟨Iff.rfl, fun _ => rfl⟩

/-- C29 (pay command admission): on a pay command whose invoice decodes, the amount is
the invoice's millisatoshi divided by 1000, which is at most 0 exactly when the floor is and
equals the floor otherwise. An amount of at most 0 is rejected with `InvalidAmountError`; a
failed balance query and an amount above the freshly queried balance are rejected with an
error; none of these stores a `PayData` or makes a write. Otherwise the handler returns nil
and makes exactly one first write, of a `PayData` that is active, has that amount, has the
lower-cased payment request (by `strings.ToLower`) without the "lightning:" prefix, and is
from the invoking user (as the balance query left it); the store then holds that `PayData`
under its ID, unless the write itself failed, which leaves the store as it was. -/
theorem C29_pay_command_admission {σ : Type} (env : Env σ) (ctx : Ctx) (w : World σ)
    (wal : Wallet) (arg : String) (bolt11 : Bolt11)
    (hw : ctx.User.Wallet = some wal) (hlen : 2 ≤ (Split ctx.Text ' ').length)
    (harg : env.getArgumentFromCommand ctx.Text 1 = .ok arg)
    (hdec : env.Decodepay (TrimPrefix (env.ToLower arg) "lightning:") = .ok bolt11) :
    (Int.tdiv bolt11.MSatoshi 1000 ≤ 0 ↔ bolt11.MSatoshi / 1000 ≤ 0) ∧
    (0 < Int.tdiv bolt11.MSatoshi 1000 →
      Int.tdiv bolt11.MSatoshi 1000 = bolt11.MSatoshi / 1000) ∧
    (Int.tdiv bolt11.MSatoshi 1000 ≤ 0 →
      (payHandler env ctx w).1 = .value (some (.create .InvalidAmountError)) ∧
      (payHandler env ctx w).2.pays = w.pays ∧
      createdRecords (payHandler env ctx w).2.log = createdRecords w.log) ∧
    (0 < Int.tdiv bolt11.MSatoshi 1000 →
      ((GetUserBalance env ctx.User (w.withExt (env.anyTextHandler ctx w.ext))).1.2 ≠ none ∨
        (GetUserBalance env ctx.User (w.withExt (env.anyTextHandler ctx w.ext))).1.1 <
          Int.tdiv bolt11.MSatoshi 1000) →
      (∃ e, (payHandler env ctx w).1 = .value (some e)) ∧
      (payHandler env ctx w).2.pays = w.pays ∧
      createdRecords (payHandler env ctx w).2.log = createdRecords w.log) ∧
    (0 < Int.tdiv bolt11.MSatoshi 1000 →
      (GetUserBalance env ctx.User (w.withExt (env.anyTextHandler ctx w.ext))).1.2 = none →
      Int.tdiv bolt11.MSatoshi 1000 ≤
        (GetUserBalance env ctx.User (w.withExt (env.anyTextHandler ctx w.ext))).1.1 →
      (payHandler env ctx w).1 = .value none ∧
      ∃ payData : PayData,
        ((payHandler env ctx w).2.pays = w.pays.put payData.ID payData ∨
          ((payHandler env ctx w).2.pays = w.pays ∧ ∃ l, env.StoreSet l payData.ID ≠ none)) ∧
        createdRecords (payHandler env ctx w).2.log = createdRecords w.log ++ [payData.ID] ∧
        payData.Active = true ∧
        payData.Amount = Int.tdiv bolt11.MSatoshi 1000 ∧
        payData.Invoice = TrimPrefix (env.ToLower arg) "lightning:" ∧
        payData.From =
          (GetUserBalance env ctx.User (w.withExt (env.anyTextHandler ctx w.ext))).2.1 ∧
        payData.From.Telegram = ctx.User.Telegram) := by
  have hlen1 : ¬ (Split ctx.Text ' ').length < 2 := by omega
  have hq := GetUserBalance_quiet env ctx.User (w.withExt (env.anyTextHandler ctx w.ext))
  have hc := GetUserBalance_created env ctx.User (w.withExt (env.anyTextHandler ctx w.ext))
  have ht := GetUserBalance_telegram env ctx.User (w.withExt (env.anyTextHandler ctx w.ext))
  have hp := intents_pays hq.1
  refine ⟨(tdiv_thousand _).1, (tdiv_thousand _).2, ?_, ?_, ?_⟩
  · intro hle
    unfold payHandler
    simp only [hw, hlen1, if_false, harg, hdec, hle, if_true]
    exact ⟨trivial, rfl, by simp [World.emit, World.withExt, createdRecords_append, createdRecords]⟩
  · intro hpos hbad
    have hle : ¬ Int.tdiv bolt11.MSatoshi 1000 ≤ 0 := by omega
    unfold payHandler
    simp only [hw, hlen1, if_false, harg, hdec, hle]
    generalize GetUserBalance env ctx.User (w.withExt (env.anyTextHandler ctx w.ext)) = q
      at hc hp hbad
    obtain ⟨⟨balance, err⟩, user1, w1⟩ := q
    dsimp only at hc hp hbad
    cases err with
    | some e =>
      dsimp only
      refine ⟨⟨_, rfl⟩, ?_, ?_⟩
      · simpa [World.emit] using hp
      · simpa [World.emit, createdRecords_append, createdRecords] using hc
    | none =>
      have hlt : balance < Int.tdiv bolt11.MSatoshi 1000 := by
        rcases hbad with h | h
        · exact absurd rfl h
        · exact h
      dsimp only
      rw [if_pos (by omega)]
      refine ⟨⟨_, rfl⟩, ?_, ?_⟩
      · simpa [World.emit] using hp
      · simpa [World.emit, createdRecords_append, createdRecords] using hc
  · intro hpos herr hge
    have hle : ¬ Int.tdiv bolt11.MSatoshi 1000 ≤ 0 := by omega
    unfold payHandler
    simp only [hw, hlen1, if_false, harg, hdec, hle]
    generalize GetUserBalance env ctx.User (w.withExt (env.anyTextHandler ctx w.ext)) = q
      at hc hp ht herr hge
    obtain ⟨⟨balance, err⟩, user1, w1⟩ := q
    dsimp only at hc hp ht herr hge
    subst herr
    dsimp only
    have hp1 : w1.pays = w.pays := hp
    have hc1 : createdRecords w1.log = createdRecords w.log := hc
    rw [if_neg (by omega), ← hp1, ← hc1]
    by_cases hfee : Int.tdiv bolt11.MSatoshi 1000 * 100 > balance * 98
    · simp only [hfee, if_true]
      refine ⟨trivial, ⟨_, createPay_store_or env _ _, ?_, rfl, rfl, rfl, rfl, ht⟩⟩
      simp [SetUserState, World.createPay, World.emit, World.withExt, createdRecords_append,
        createdRecords]
    · simp only [hfee, if_false]
      refine ⟨trivial, ⟨_, createPay_store_or env _ _, ?_, rfl, rfl, rfl, rfl, ht⟩⟩
      simp [SetUserState, World.createPay, World.emit, World.withExt, createdRecords_append,
        createdRecords]

/-- C29, a worked example: `alice` holds 100 sat and sends "/pay LIGHTNING:LNBC1EXAMPLE";
the invoice decodes to 10000 msat. The handler returns nil and stores one new `PayData`:
active, of 10 sat, for "lnbc1example", from `alice`. -/
theorem C29_pay_command_admission_witness :
    (payHandler (exampleEnv Scenario.allGood)
      { exampleCtx "" alice with Text := "/pay LIGHTNING:LNBC1EXAMPLE" } emptyWorld).1 =
        .value none ∧
    ∃ payData : PayData,
      (payHandler (exampleEnv Scenario.allGood)
        { exampleCtx "" alice with Text := "/pay LIGHTNING:LNBC1EXAMPLE" } emptyWorld).2.pays =
          emptyWorld.pays.put payData.ID payData ∧
      payData.Active = true ∧ payData.Amount = 10 ∧ payData.Invoice = "lnbc1example" ∧
      payData.From.Telegram = alice.Telegram :=
  have h := (C29_pay_command_admission (exampleEnv Scenario.allGood)
    { exampleCtx "" alice with Text := "/pay LIGHTNING:LNBC1EXAMPLE" } emptyWorld
    { ID := "alice", Adminkey := "key", Balance := 0 } "LIGHTNING:LNBC1EXAMPLE"
    { MSatoshi := 10000, Description := "" } rfl (by decide) (by decide) (by decide)).2.2.2.2
    (by decide) (by decide) (by decide)
  ⟨h.1, h.2.elim fun payData hp =>
    ⟨payData, hp.1.elim id (fun hf => hf.2.elim fun _ hl => absurd rfl hl),
      hp.2.2.1, hp.2.2.2.1, by rw [hp.2.2.2.2.1]; decide, hp.2.2.2.2.2.2⟩⟩

/-! ### faucet.go: creation -/

/-- For a share of at least 5 that divides the amount, Go's remainder is 0 and Go's
quotient is the exact quotient, without wrap-around. -/
theorem goQuo_exact (amount p : Int) (hp : 5 ≤ p) (hlo : -(2 ^ 63) ≤ amount)
    (hhi : amount < 2 ^ 63) (hdvd : p ∣ amount) :
    goRem amount p = .value 0 ∧ goQuo amount p = .value (amount / p) ∧
    amount / p * p = amount := by
  have hp0 : p ≠ 0 := by omega
  have hmul : amount / p * p = amount := Int.ediv_mul_cancel hdvd
  have hr : -(2 ^ 63) ≤ amount / p ∧ amount / p < 2 ^ 63 := by
    constructor <;> nlinarith
  refine ⟨?_, ?_, hmul⟩
  · unfold goRem
    rw [if_neg hp0, Int.tmod_eq_zero_of_dvd hdvd]
  · unfold goQuo
    rw [if_neg hp0, Int.tdiv_eq_ediv_of_dvd hdvd]
    have := wrapInt64_of_range (amount / p) hr.1 hr.2
    unfold wrapInt64 at this
    rw [this]

/-- With a share of at least 5 the remainder is computed (no division by zero), and it is
0 exactly when the share divides the amount. -/
theorem goRem_value (amount p : Int) (hp : 5 ≤ p) :
    goRem amount p = .value (Int.tmod amount p) ∧ (Int.tmod amount p = 0 ↔ p ∣ amount) := by
  refine ⟨?_, Int.dvd_of_tmod_eq_zero, Int.tmod_eq_zero_of_dvd⟩
  unfold goRem
  rw [if_neg (by omega)]

/-- What a faucet returned by `createFaucet` looks like: the decoders succeeded, the share
is at least 5 and leaves remainder 0, and the counters are at their start. -/
theorem createFaucet_ok {σ : Type} (env : Env σ) (ctx : Ctx) (text : String) (sender : TgUser)
    (w : World σ) (f : InlineFaucet)
    (h : (createFaucet env ctx text sender w).1 = .value (.ok f)) :
    ∃ amount p, env.decodeAmountFromCommand text = .ok amount ∧ 5 ≤ p ∧
      Int.tmod amount p = 0 ∧ goQuo amount p = .value f.NTotal ∧
      f.Amount = amount ∧ f.RemainingAmount = amount ∧ f.PerUserAmount = p ∧
      f.NTaken = 0 ∧ f.To = [] ∧ f.Active = true ∧ f.Canceled = false ∧
      f.From.Telegram = ctx.User.Telegram := by
  unfold createFaucet at h
  split at h
  · simp at h
  · rename_i amount hA
    split at h
    · simp at h
    · split at h
      · simp at h
      · rename_i p hP
        split at h
        · simp at h
        · rename_i hp
          split at h
          · simp at h
          · rename_i r hr
            split at h
            · simp at h
            · rename_i hr0
              split at h
              · simp at h
              · rename_i nTotal hq
                dsimp only at h
                split at h
                · simp at h
                · rename_i balance fromUser w1 heq
                  split at h
                  · simp at h
                  · simp only [Ret.value.injEq, Except.ok.injEq] at h
                    have hr1 : r = Int.tmod amount p := by
                      unfold goRem at hr
                      split at hr
                      · cases hr
                      · simp only [Ret.value.injEq] at hr
                        exact hr.symm
                    refine ⟨amount, p, hA, by omega, ?_, ?_, ?_, ?_, ?_, ?_, ?_, ?_, ?_, ?_⟩
                    · rw [← hr1]
                      simpa using hr0
                    · rw [hq, ← h]
                    all_goals rw [← h]
                    exact GetUserBalance_telegram_eq heq

/-- C23 (faucet creation): once the amount and the share are decoded, `createFaucet` does
not panic (the remainder is only taken by a share of at least 5). A share below 5 or not
dividing the amount gives `InvalidAmountPerUserError`; else a failed balance query gives
`GetBalanceError` and a freshly queried balance below the amount gives `BalanceToLowError`;
else a faucet is returned with `RemainingAmount = Amount = amount`, `NTaken = 0`, empty
`To`, and `NTotal = amount / perUserAmount`, so that `NTotal * PerUserAmount = Amount`. A
faucet is returned only in that last case. -/
theorem C23_faucet_creation {σ : Type} (env : Env σ) (ctx : Ctx) (text : String)
    (sender : TgUser) (w : World σ) (amount p : Int) (peruserStr : String)
    (hA : env.decodeAmountFromCommand text = .ok amount)
    (hS : env.getArgumentFromCommand text 2 = .ok peruserStr)
    (hP : env.GetAmount peruserStr = .ok p)
    (hlo : -(2 ^ 63) ≤ amount) (hhi : amount < 2 ^ 63) :
    (createFaucet env ctx text sender w).1 ≠ .panicked ∧
    ((p < 5 ∨ ¬ p ∣ amount) →
      (createFaucet env ctx text sender w).1 =
        .value (.error (.wrap .InvalidAmountPerUserError (.text "invalid amount per user")))) ∧
    (5 ≤ p → p ∣ amount → ∀ e, (GetUserBalance env ctx.User w).1.2 = some e →
      (createFaucet env ctx text sender w).1 = .value (.error (.wrap .GetBalanceError e))) ∧
    (5 ≤ p → p ∣ amount → (GetUserBalance env ctx.User w).1.2 = none →
      (GetUserBalance env ctx.User w).1.1 < amount →
      ∃ e, (createFaucet env ctx text sender w).1 =
        .value (.error (.wrap .BalanceToLowError e))) ∧
    (5 ≤ p → p ∣ amount → (GetUserBalance env ctx.User w).1.2 = none →
      amount ≤ (GetUserBalance env ctx.User w).1.1 →
      ∃ f, (createFaucet env ctx text sender w).1 = .value (.ok f) ∧
        f.RemainingAmount = amount ∧ f.Amount = amount ∧ f.NTaken = 0 ∧ f.To = [] ∧
        f.PerUserAmount = p ∧ f.NTotal = amount / p ∧
        f.NTotal * f.PerUserAmount = f.Amount ∧ f.Active = true ∧
        f.From = (GetUserBalance env ctx.User w).2.1) ∧
    (∀ f, (createFaucet env ctx text sender w).1 = .value (.ok f) →
      5 ≤ p ∧ p ∣ amount ∧ (GetUserBalance env ctx.User w).1.2 = none ∧
      amount ≤ (GetUserBalance env ctx.User w).1.1) := by
  have hbad : (p < 5 ∨ ¬ p ∣ amount) →
      (createFaucet env ctx text sender w).1 =
        .value (.error (.wrap .InvalidAmountPerUserError (.text "invalid amount per user"))) := by
    intro h
    unfold createFaucet
    simp only [hA, hS, hP]
    by_cases hp : p < 5
    · simp only [hp, if_true]
    · have hnd : ¬ p ∣ amount := by
        rcases h with h | h
        · exact absurd h hp
        · exact h
      obtain ⟨hr, hiff⟩ := goRem_value amount p (by omega)
      have hne : Int.tmod amount p ≠ 0 := fun h0 => hnd (hiff.1 h0)
      simp only [hp, if_false, hr, ne_eq, hne, not_false_eq_true, if_true]
  have hgood : 5 ≤ p → p ∣ amount →
      (createFaucet env ctx text sender w).1 =
        (match GetUserBalance env ctx.User w with
          | ((_, some e), _, _) => .value (.error (.wrap .GetBalanceError e))
          | ((balance, none), fromUser, w1) =>
            if balance < amount then
              .value (.error (.wrap .BalanceToLowError
                (.text ("[faucet] Balance of user " ++ GetUserStr sender ++ " too low"))))
            else
              .value (.ok
                { ID := "faucet:" ++ (env.RandStringRunes 10 w1.ext).1 ++ ":" ++ toString amount,
                  Active := true, Canceled := false,
                  Message :=
                    if (env.GetMemoFromCommand text 3).utf8ByteSize > 0 then
                      env.Render sender.LanguageCode "inlineFaucetMessage"
                        [toString p, GetUserStrMd env sender, toString amount, toString amount,
                         "0", toString (amount / p), env.MakeProgressbar amount amount] ++
                      env.Render sender.LanguageCode "inlineFaucetAppendMemo"
                        [env.GetMemoFromCommand text 3]
                    else
                      env.Render sender.LanguageCode "inlineFaucetMessage"
                        [toString p, GetUserStrMd env sender, toString amount, toString amount,
                         "0", toString (amount / p), env.MakeProgressbar amount amount],
                  Amount := amount, From := fromUser, Memo := env.GetMemoFromCommand text 3,
                  PerUserAmount := p, NTotal := amount / p, NTaken := 0,
                  RemainingAmount := amount, To := [], UserNeedsWallet := false,
                  LanguageCode := sender.LanguageCode })) := by
    intro hp hdvd
    obtain ⟨hr, hq, -⟩ := goQuo_exact amount p hp hlo hhi hdvd
    have hp5 : ¬ p < 5 := by omega
    unfold createFaucet
    simp only [hA, hS, hP, hp5, if_false, hr, hq, ne_eq, not_true_eq_false]
    generalize GetUserBalance env ctx.User w = q
    obtain ⟨⟨balance, err⟩, user1, w1⟩ := q
    cases err with
    | some e => rfl
    | none =>
      dsimp only
      split <;> rfl
  refine ⟨?_, hbad, ?_, ?_, ?_, ?_⟩
  · by_cases h : p < 5 ∨ ¬ p ∣ amount
    · rw [hbad h]
      simp
    · rw [hgood (by omega) (by tauto)]
      split
      · simp
      · split <;> simp
  · intro hp hdvd e he
    rw [hgood hp hdvd]
    generalize GetUserBalance env ctx.User w = q at he ⊢
    obtain ⟨⟨balance, err⟩, user1, w1⟩ := q
    dsimp only at he
    subst he
    rfl
  · intro hp hdvd he hlt
    rw [hgood hp hdvd]
    generalize GetUserBalance env ctx.User w = q at he hlt ⊢
    obtain ⟨⟨balance, err⟩, user1, w1⟩ := q
    dsimp only at he hlt
    subst he
    dsimp only
    rw [if_pos hlt]
    exact ⟨_, rfl⟩
  · intro hp hdvd he hge
    rw [hgood hp hdvd]
    generalize GetUserBalance env ctx.User w = q at he hge ⊢
    obtain ⟨⟨balance, err⟩, user1, w1⟩ := q
    dsimp only at he hge
    subst he
    dsimp only
    rw [if_neg (by omega)]
    exact ⟨_, rfl, rfl, rfl, rfl, rfl, rfl, rfl, Int.ediv_mul_cancel hdvd, rfl, rfl⟩
  · intro f hf
    by_cases h : p < 5 ∨ ¬ p ∣ amount
    · rw [hbad h] at hf
      simp at hf
    · have hp : 5 ≤ p := by omega
      have hdvd : p ∣ amount := by tauto
      rw [hgood hp hdvd] at hf
      generalize GetUserBalance env ctx.User w = q at hf ⊢
      obtain ⟨⟨balance, err⟩, user1, w1⟩ := q
      cases err with
      | some e => simp at hf
      | none =>
        dsimp only at hf ⊢
        by_cases hlt : balance < amount
        · rw [if_pos hlt] at hf
          simp at hf
        · exact ⟨hp, hdvd, rfl, by omega⟩

/-- C23, a worked example: `alice` holds 100 sat and sends "/faucet 30 10": a faucet of
30 sat in 3 shares of 10 sat is returned. -/
theorem C23_faucet_creation_witness :
    ∃ f, (createFaucet (exampleEnv Scenario.allGood) (exampleCtx "" alice) "/faucet 30 10"
        alice.Telegram emptyWorld).1 = .value (.ok f) ∧
      f.RemainingAmount = 30 ∧ f.Amount = 30 ∧ f.NTaken = 0 ∧ f.To = [] ∧
      f.PerUserAmount = 10 ∧ f.NTotal = 3 ∧ f.NTotal * f.PerUserAmount = f.Amount :=
  have h := (C23_faucet_creation (exampleEnv Scenario.allGood) (exampleCtx "" alice)
    "/faucet 30 10" alice.Telegram emptyWorld 30 10 "10" (by decide) (by decide) (by decide)
    (by decide) (by decide)).2.2.2.2.1 (by decide) (by decide) (by decide) (by decide)
  h.elim fun f hf =>
    ⟨f, hf.1, hf.2.1, hf.2.2.1, hf.2.2.2.1, hf.2.2.2.2.1, hf.2.2.2.2.2.1,
      by rw [hf.2.2.2.2.2.2.1]; decide, hf.2.2.2.2.2.2.2.1⟩

/-! ### faucet.go: what every state of a faucet keeps -/

/-- One claim leaves `Amount` and `NTotal` alone. -/
theorem faucet_claim_frame {σ : Type} (env : Env σ) (f : InlineFaucet) (dst : User)
    (w : World σ) :
    (acceptInlineFaucetHandler.claim env f dst w).2.1.Amount = f.Amount ∧
    (acceptInlineFaucetHandler.claim env f dst w).2.1.NTotal = f.NTotal := by
  unfold acceptInlineFaucetHandler.claim
  dsimp only
  have hg : (if (!dst.Initialized) = true then { f with UserNeedsWallet := true } else f).Amount =
        f.Amount ∧
      (if (!dst.Initialized) = true then { f with UserNeedsWallet := true } else f).NTotal =
        f.NTotal := by
    split <;> exact ⟨rfl, rfl⟩
  generalize ({ NewTransaction f.From dst
      (if (!dst.Initialized) = true then { f with UserNeedsWallet := true } else f).PerUserAmount
      "faucet" with
        Memo := "🚰 Faucet from " ++ GetUserStr f.From.Telegram ++ " to " ++
          GetUserStr dst.Telegram ++ "." } : Transaction) = t
  generalize (if (!dst.Initialized) = true then { f with UserNeedsWallet := true } else f) = g
    at hg ⊢
  generalize Send env t w = out
  obtain ⟨r, t1, w1⟩ := out
  cases r with
  | panicked => exact hg
  | value p =>
    obtain ⟨success, err⟩ := p
    cases success with
    | false =>
      cases err with
      | none => exact hg
      | some e => exact hg
    | true => exact hg

/-- The body of the accept handler leaves `Amount` and `NTotal` alone. -/
theorem faucet_body_frame {σ : Type} (env : Env σ) (ctx : Ctx) (f : InlineFaucet)
    (w : World σ) :
    (acceptInlineFaucetHandler.body env ctx f w).2.1.Amount = f.Amount ∧
    (acceptInlineFaucetHandler.body env ctx f w).2.1.NTotal = f.NTotal := by
  have hfin : ∀ (g : InlineFaucet) (w1 : World σ),
      (acceptInlineFaucetHandler.finish env g w1).2.1.Amount = g.Amount ∧
      (acceptInlineFaucetHandler.finish env g w1).2.1.NTotal = g.NTotal := by
    intro g w1
    unfold acceptInlineFaucetHandler.finish
    split <;> exact ⟨rfl, rfl⟩
  have hcf : ∀ (dst : User) (w1 : World σ),
      (acceptInlineFaucetHandler.claimAndFinish env f dst w1).2.1.Amount = f.Amount ∧
      (acceptInlineFaucetHandler.claimAndFinish env f dst w1).2.1.NTotal = f.NTotal := by
    intro dst w1
    unfold acceptInlineFaucetHandler.claimAndFinish
    have hc := faucet_claim_frame env f dst w1
    split
    · rename_i heq
      rw [heq] at hc
      obtain ⟨h1, h2⟩ := hfin _ _
      exact ⟨h1.trans hc.1, h2.trans hc.2⟩
    · exact hc
  unfold acceptInlineFaucetHandler.body
  dsimp only
  split
  · split
    · exact hcf _ _
    · split
      · exact ⟨rfl, rfl⟩
      · exact hcf _ _
  · exact hfin _ _

/-- One accept trigger leaves `Amount` and `NTotal` of the stored faucet alone. -/
theorem acceptInlineFaucet_frame {σ : Type} (env : Env σ) (ctx : Ctx) (w : World σ)
    (a n : Int) (h : ∀ v, w.faucets ctx.Data = some v → v.Amount = a ∧ v.NTotal = n) :
    ∀ v, (acceptInlineFaucetHandler env ctx w).2.faucets ctx.Data = some v →
      v.Amount = a ∧ v.NTotal = n := by
  unfold acceptInlineFaucetHandler
  dsimp only
  split
  · exact h
  · rename_i f hget
    have hf := h f (Store.Get_ok _ _ _ hget)
    split
    · rw [show ((finishFaucet env f (w.emit (.lock ctx.Data))).2.emit (.unlock ctx.Data)).faucets =
        w.faucets from intents_faucets (finishFaucet_spec env f (w.emit (.lock ctx.Data))).2.1]
      exact h
    · rename_i hact
      split
      · exact h
      · split
        · exact h
        · have b1 := faucet_body_frame env ctx f (w.emit (.lock ctx.Data))
          have b2 := (faucet_body_spec env ctx f (w.emit (.lock ctx.Data))
            (by simpa using hact)).1
          generalize acceptInlineFaucetHandler.body env ctx f (w.emit (.lock ctx.Data)) = q
            at b1 b2
          obtain ⟨r, f1, w1⟩ := q
          dsimp only at b1 b2 ⊢
          have b3 : w1.faucets = w.faucets := intents_faucets b2
          show ∀ v, (World.setFaucet env w1 f1).faucets ctx.Data = some v →
            v.Amount = a ∧ v.NTotal = n
          rcases setFaucet_store env w1 f1 with hst | hst
          · rw [hst, b3]
            exact Store.put_all _ _ _ _ _ h ⟨b1.1.trans hf.1, b1.2.trans hf.2⟩
          · rw [hst, b3]
            exact h

/-- Taking one share keeps the invariant. -/
theorem FaucetKept.taken {id : String} {creator who : TgUser} {f f1 : InlineFaucet}
    (hk : FaucetKept id creator f) (hid : f1.ID = id) (hfrom : f1.From.Telegram = f.From.Telegram)
    (hper : f1.PerUserAmount = f.PerUserAmount) (hamt : f1.Amount = f.Amount)
    (hnt : f1.NTotal = f.NTotal) (hle : f.PerUserAmount ≤ f.RemainingAmount)
    (hrem : f1.RemainingAmount = wrapInt64 (f.RemainingAmount - f.PerUserAmount))
    (htaken : f1.NTaken = wrapInt64 (f.NTaken + 1))
    (hto : ∃ u, f1.To = f.To ++ [u] ∧ u.Telegram = who)
    (hself : f.From.Telegram.ID ≠ who.ID) (hnew : ∀ a ∈ f.To, a.Telegram.ID ≠ who.ID) :
    FaucetKept id creator f1 := by
  obtain ⟨-, k2, k3, k4, k5, i1, i2, i3, i4, i5, i6, i7, i8⟩ := hk
  obtain ⟨u, hu, hwho⟩ := hto
  have hlen : (0 : Int) ≤ f.To.length := Int.ofNat_nonneg _
  have hmul : f.NTaken * f.PerUserAmount = f.Amount - f.RemainingAmount := by omega
  have hn1 : f.NTaken + 1 ≤ f.NTotal := by nlinarith
  have hn2 : f.NTotal < 2 ^ 63 := by nlinarith
  have h1 : wrapInt64 (f.RemainingAmount - f.PerUserAmount) =
      f.RemainingAmount - f.PerUserAmount := wrapInt64_of_range _ (by omega) (by omega)
  have h2 : wrapInt64 (f.NTaken + 1) = f.NTaken + 1 :=
    wrapInt64_of_range _ (by omega) (by omega)
  rw [h1] at hrem
  rw [h2] at htaken
  refine ⟨hid, hfrom.trans k2, by omega, by rw [hnt, hper, hamt]; exact k4, by omega,
    ?_, ?_, ?_, ?_, ?_, ?_, ?_, ?_⟩
  · rw [hrem, htaken, hper, hamt, i1]
    ring
  · omega
  · omega
  · rw [htaken, hu, i4]
    simp
  · omega
  · rw [hrem, hper]
    exact Int.dvd_sub i6 (dvd_refl _)
  · rw [hu, List.map_append, List.nodup_append]
    refine ⟨i7, by simp, ?_⟩
    intro x hx hx1
    simp only [List.map_cons, List.map_nil, List.mem_singleton] at hx1
    obtain ⟨a, ha, rfl⟩ := List.mem_map.1 hx
    exact hnew a ha (by rw [hx1, hwho])
  · intro a ha
    rw [hu, List.mem_append, List.mem_singleton] at ha
    rw [hfrom]
    rcases ha with ha | rfl
    · exact i8 a ha
    · rw [hwho]
      exact fun h => hself h.symm

/-- A state with the same counters, takers, amounts and creator keeps the invariant. -/
theorem FaucetKept.same {id : String} {creator : TgUser} {f f1 : InlineFaucet}
    (hk : FaucetKept id creator f) (hid : f1.ID = id) (hfrom : f1.From.Telegram = f.From.Telegram)
    (hper : f1.PerUserAmount = f.PerUserAmount) (hamt : f1.Amount = f.Amount)
    (hnt : f1.NTotal = f.NTotal) (hrem : f1.RemainingAmount = f.RemainingAmount)
    (htaken : f1.NTaken = f.NTaken) (hto : f1.To = f.To) : FaucetKept id creator f1 := by
  obtain ⟨-, k2, k3, k4, k5, hinv⟩ := hk
  unfold FaucetKept FaucetInv
  unfold FaucetInv at hinv
  rw [hfrom, hper, hamt, hnt, hrem, htaken, hto]
  exact ⟨hid, k2, k3, k4, k5, hinv⟩

/-- One accept trigger on a stored faucet keeps it stored, with the invariant, when the
writes under its ID succeed. -/
theorem accept_kept {σ : Type} (env : Env σ) (ctx : Ctx) (w : World σ) (creator : TgUser)
    (f : InlineFaucet) (hsave : ∀ l, env.StoreSet l ctx.Data = none)
    (hs : w.faucets ctx.Data = some f) (hk : FaucetKept ctx.Data creator f) :
    ∃ f1, (acceptInlineFaucetHandler env ctx w).2.faucets ctx.Data = some f1 ∧
      FaucetKept ctx.Data creator f1 := by
  have hid : f.ID = ctx.Data := hk.1
  obtain ⟨hinactive, hactive⟩ := faucet_step env ctx w f hs hid
  by_cases hact : f.Active = true
  · by_cases hrej : f.From.Telegram.ID = ctx.User.Telegram.ID ∨
        ∃ a ∈ f.To, a.Telegram.ID = ctx.User.Telegram.ID
    · obtain ⟨-, hw⟩ := faucet_reject env ctx w f hs hact hrej
      rw [hw]
      exact ⟨f, hs, hk⟩
    · have hself : f.From.Telegram.ID ≠ ctx.User.Telegram.ID := fun h => hrej (Or.inl h)
      have hnew : ∀ a ∈ f.To, a.Telegram.ID ≠ ctx.User.Telegram.ID :=
        fun a ha h => hrej (Or.inr ⟨a, ha, h⟩)
      obtain ⟨f1, n, hst, hid1, hper, hfrom, -, hout⟩ := hactive hact hself hnew hsave
      obtain ⟨hamt, hnt⟩ := acceptInlineFaucet_frame env ctx w f.Amount f.NTotal
        (fun v hv => by rw [hs] at hv; obtain rfl := Option.some.inj hv; exact ⟨rfl, rfl⟩) f1 hst
      refine ⟨f1, hst, ?_⟩
      rcases hout with ⟨-, hle, -, hrem, htaken, hto, -⟩ | ⟨-, -, hrem, htaken, hto, -⟩ |
        ⟨-, -, hrem, htaken, hto, -⟩ | ⟨-, -, hrem, htaken, hto, -⟩ |
        ⟨-, -, -, hrem, htaken, hto, -⟩
      · exact hk.taken hid1 hfrom hper hamt hnt hle hrem htaken hto hself hnew
      all_goals exact hk.same hid1 hfrom hper hamt hnt hrem htaken hto
  · have hf : f.Active = false := by simpa using hact
    rw [(hinactive hf).2.1]
    exact ⟨f, hs, hk⟩

/-- One cancel trigger on a stored faucet keeps it stored, with the invariant, whether or
not its write succeeds. -/
theorem cancel_kept {σ : Type} (env : Env σ) (ctx : Ctx) (ignoreID : Bool) (w : World σ)
    (creator : TgUser) (f : InlineFaucet) (hs : w.faucets ctx.Data = some f)
    (hk : FaucetKept ctx.Data creator f) :
    ∃ f1, (cancelInlineFaucet env ctx ignoreID w).2.faucets ctx.Data = some f1 ∧
      FaucetKept ctx.Data creator f1 := by
  have hget : (w.emit (.lock ctx.Data)).faucets.Get ctx.Data = .ok f := Store.Get_some _ _ _ hs
  unfold cancelInlineFaucet
  simp only [hget]
  split
  · show ∃ f1, (World.setFaucet env _ { f with Active := false, Canceled := true }).faucets
        ctx.Data = some f1 ∧ FaucetKept ctx.Data creator f1
    rcases setFaucet_store env ((w.emit (.lock ctx.Data)).emit
      (.edit "inlineFaucetCancelledMessage")) { f with Active := false, Canceled := true }
      with hst | hst
    · refine ⟨{ f with Active := false, Canceled := true }, ?_, ?_⟩
      · rw [hst]
        simp [World.emit, hk.1, Store.put]
      · exact hk.same hk.1 rfl rfl rfl rfl rfl rfl rfl
    · rw [hst]
      exact ⟨f, hs, hk⟩
  · exact ⟨f, hs, hk⟩

/-- Any sequence of triggers on a stored faucet keeps it stored, with the invariant, when
the writes under its ID succeed. -/
theorem run_kept {σ : Type} (env : Env σ) (id : String) (creator : TgUser)
    (hsave : ∀ l, env.StoreSet l id = none) (ts : List FaucetTrigger) :
    ∀ (w : World σ) (f : InlineFaucet), w.faucets id = some f → FaucetKept id creator f →
      (∀ t ∈ ts, t.ctx.Data = id) →
      ∃ f1, (runFaucetTriggers env ts w).faucets id = some f1 ∧ FaucetKept id creator f1 := by
  induction ts with
  | nil =>
    intro w f hs hk _
    exact ⟨f, hs, hk⟩
  | cons t ts ih =>
    intro w f hs hk hts
    have ht : t.ctx.Data = id := hts t (List.mem_cons_self _ _)
    have hrest : ∀ t1 ∈ ts, t1.ctx.Data = id := fun t1 h1 => hts t1 (List.mem_cons_of_mem _ h1)
    have hstep : ∃ f1, (runFaucetTrigger env t w).faucets id = some f1 ∧
        FaucetKept id creator f1 := by
      cases t with
      | accept c =>
        have hc : c.Data = id := ht
        subst hc
        exact accept_kept env c w creator f hsave hs hk
      | cancel c =>
        have hc : c.Data = id := ht
        subst hc
        exact cancel_kept env c false w creator f hs hk
    obtain ⟨f1, hs1, hk1⟩ := hstep
    exact ih _ f1 hs1 hk1 hrest

/-- A faucet returned by `createFaucet` from a non-negative `int64` amount starts with the
invariant. -/
theorem createFaucet_kept {σ : Type} (env : Env σ) (ctx : Ctx) (text : String)
    (sender : TgUser) (w : World σ) (f : InlineFaucet)
    (hdec : ∀ a, env.decodeAmountFromCommand text = .ok a → 0 ≤ a ∧ a < 2 ^ 63)
    (h : (createFaucet env ctx text sender w).1 = .value (.ok f)) :
    FaucetKept f.ID ctx.User.Telegram f := by
  obtain ⟨amount, p, hA, hp, hmod, hq, h1, h2, h3, h4, h5, -, -, h8⟩ :=
    createFaucet_ok env ctx text sender w f h
  obtain ⟨hlo, hhi⟩ := hdec amount hA
  have hdvd : p ∣ amount := Int.dvd_of_tmod_eq_zero hmod
  obtain ⟨-, hq1, hmul⟩ := goQuo_exact amount p hp (by omega) hhi hdvd
  rw [hq1] at hq
  have hn : f.NTotal = amount / p := by
    simp only [Ret.value.injEq] at hq
    exact hq.symm
  have hn0 : 0 ≤ amount / p := Int.ediv_nonneg hlo (by omega)
  refine ⟨rfl, h8, by omega, by rw [hn, h3, h1]; exact hmul, by omega, ?_⟩
  unfold FaucetInv
  rw [h1, h2, h3, h4, h5, hn]
  refine ⟨by ring, hlo, le_refl _, by simp, hn0, hdvd, by simp, by simp⟩

/-- A faucet returned by `createFaucet` from a decoded amount that is a non-negative
`int64` satisfies the invariant, and so does what is stored under its ID after any sequence
of accept and cancel triggers on it, when the writes under its ID succeed:
`RemainingAmount = Amount - NTaken * PerUserAmount`, `0 <= RemainingAmount <= Amount`,
`NTaken = len(To) <= NTotal`, `PerUserAmount` divides `RemainingAmount`, the Telegram IDs
in `To` are pairwise distinct, and none of them is the creator's. -/
theorem faucet_invariant_of_nonneg_amount {σ : Type} (env : Env σ) (ctx0 : Ctx) (text : String)
    (sender : TgUser) (w0 w : World σ) (f0 : InlineFaucet) (amount : Int)
    (ts : List FaucetTrigger)
    (hsave : ∀ l, env.StoreSet l f0.ID = none)
    (hA : env.decodeAmountFromCommand text = .ok amount)
    (h0 : 0 ≤ amount) (hhi : amount < 2 ^ 63)
    (hcreate : (createFaucet env ctx0 text sender w0).1 = .value (.ok f0))
    (hstored : w.faucets f0.ID = some f0)
    (hts : ∀ t ∈ ts, t.ctx.Data = f0.ID) :
    FaucetInv f0 ∧
    ∃ f, (runFaucetTriggers env ts w).faucets f0.ID = some f ∧ FaucetInv f := by
  have hk : FaucetKept f0.ID ctx0.User.Telegram f0 :=
    createFaucet_kept env ctx0 text sender w0 f0
      (fun a ha => by
        rw [hA] at ha
        obtain rfl := Except.ok.inj ha
        exact ⟨h0, hhi⟩) hcreate
  refine ⟨hk.2.2.2.2.2, ?_⟩
  obtain ⟨f, hs, hf⟩ := run_kept env f0.ID ctx0.User.Telegram hsave ts w f0 hstored hk hts
  exact ⟨f, hs, hf.2.2.2.2.2⟩

/-- A worked example: the faucet `alice` creates with "/faucet 30 10" is stored; after the
example triggers (two takers, three rejected claims, a refused and an accepted cancel) the
stored faucet satisfies the invariant, with 10 sat left and two takers. -/
theorem faucet_invariant_example :
    (FaucetInv createdFaucet ∧
      ∃ f, (runFaucetTriggers (exampleEnv Scenario.allGood) exampleFaucetTriggers
          (worldWithFaucet createdFaucet)).faucets createdFaucet.ID = some f ∧ FaucetInv f) ∧
    ((runFaucetTriggers (exampleEnv Scenario.allGood) exampleFaucetTriggers
        (worldWithFaucet createdFaucet)).faucets "faucet:abcde:30").map
      (fun f => (f.RemainingAmount, f.NTaken, f.To.map (fun a => a.Telegram.ID), f.Active)) =
      some (10, 2, [2, 3], false) :=
  ⟨faucet_invariant_of_nonneg_amount (exampleEnv Scenario.allGood) (exampleCtx "" alice)
    "/faucet 30 10" alice.Telegram emptyWorld (worldWithFaucet createdFaucet) createdFaucet 30
    exampleFaucetTriggers (fun _ => rfl) (by decide) (by decide) (by decide) (by decide)
    (by decide) (by decide), by decide⟩

/-- C22 fails on the code: `createFaucet` checks the amount per user and the balance, but
not the amount itself, which the inline send and inline receive queries reject below 1.
When the amount of "/faucet -10 5" is decoded as -10, `alice` (who holds 100 sat) gets a
faucet with `Amount = -10`, `RemainingAmount = -10` and `NTotal = -2`: it does not satisfy
the invariant (`0 <= RemainingAmount` and `NTaken <= NTotal` fail). After a claim by `bob`,
which sends nothing and finishes the faucet, the stored state still does not. -/
theorem C22_negative_amount_breaks_invariant :
    (exampleEnv Scenario.allGood).decodeAmountFromCommand "/faucet -10 5" = .ok (-10) ∧
    (createFaucet (exampleEnv Scenario.allGood) (exampleCtx "" alice) "/faucet -10 5"
      alice.Telegram emptyWorld).1 = .value (.ok createdNegativeFaucet) ∧
    (createdNegativeFaucet.Amount, createdNegativeFaucet.RemainingAmount,
      createdNegativeFaucet.PerUserAmount, createdNegativeFaucet.NTotal,
      createdNegativeFaucet.NTaken) = (-10, -10, 5, -2, 0) ∧
    ¬ FaucetInv createdNegativeFaucet ∧
    ((runFaucetTriggers (exampleEnv Scenario.allGood)
        [.accept (exampleCtx "faucet:abcde:-10" bob)]
        (worldWithFaucet createdNegativeFaucet)).faucets "faucet:abcde:-10").map
      (fun f => (f.RemainingAmount, f.NTotal, f.NTaken, f.Active, decide (FaucetInv f))) =
      some (-10, -2, 0, false, false) := by
  decide

/-! ### transaction.go on the exact wallet service -/

/-- On the exact wallet service a balance query answers with the books, and leaves them
alone. -/
theorem ledger_balance (user : User) (wal : Wallet) (w : World Ledger)
    (h : user.Wallet = some wal) :
    (GetUserBalance ledgerEnv user w).1 = (w.ext.balance wal.ID, none) ∧
    (GetUserBalance ledgerEnv user w).2.1 =
      { user with Wallet := some { wal with Balance := w.ext.balance wal.ID * 1000 } } ∧
    (GetUserBalance ledgerEnv user w).2.2.ext = w.ext ∧
    walletMoves (GetUserBalance ledgerEnv user w).2.2.log = walletMoves w.log := by
  refine ⟨?_, ?_, ?_, (GetUserBalance_quiet ledgerEnv user w).walletMoves⟩
  · unfold GetUserBalance
    simp [h, ledgerEnv, World.emit, World.withExt, Int.mul_tdiv_cancel]
  · unfold GetUserBalance
    simp [h, ledgerEnv, World.emit, World.withExt]
  · unfold GetUserBalance
    simp [h, ledgerEnv, World.emit, World.withExt]

/-- The transfer part on the exact wallet service, when the payer can afford the amount. -/
theorem ledger_transfer (t : Transaction) (src dst : User) (fw tw : Wallet) (amount : Int)
    (memo : String) (w : World Ledger) (hs : src.Wallet = some fw) (hd : dst.Wallet = some tw)
    (hne : fw.ID ≠ tw.ID) (hle : amount ≤ w.ext.balance fw.ID) :
    ((amount ≤ 0 ∨ tw.ID ∈ w.ext.closed) →
      (∃ e, (SendTransaction.transfer ledgerEnv t src dst fw amount memo w).1 =
        .value (false, some e)) ∧
      (SendTransaction.transfer ledgerEnv t src dst fw amount memo w).2.2.2.2.ext = w.ext ∧
      walletMoves (SendTransaction.transfer ledgerEnv t src dst fw amount memo w).2.2.2.2.log =
        walletMoves w.log ++ [.invoice tw.ID { Amount := amount, Out := false, Memo := memo }]) ∧
    (0 < amount → tw.ID ∉ w.ext.closed →
      (SendTransaction.transfer ledgerEnv t src dst fw amount memo w).1 = .value (true, none) ∧
      (SendTransaction.transfer ledgerEnv t src dst fw amount memo w).2.2.2.2.ext.balance fw.ID =
        w.ext.balance fw.ID - amount ∧
      (SendTransaction.transfer ledgerEnv t src dst fw amount memo w).2.2.2.2.ext.balance tw.ID =
        w.ext.balance tw.ID + amount ∧
      (∀ k, k ≠ fw.ID → k ≠ tw.ID →
        (SendTransaction.transfer ledgerEnv t src dst fw amount memo w).2.2.2.2.ext.balance k =
          w.ext.balance k) ∧
      walletMoves (SendTransaction.transfer ledgerEnv t src dst fw amount memo w).2.2.2.2.log =
        walletMoves w.log ++
          [.invoice tw.ID { Amount := amount, Out := false, Memo := memo },
           .pay fw.ID { Out := true, Bolt11 :=
             (SendTransaction.transfer ledgerEnv t src dst fw amount memo w).2.1.Invoice.PaymentRequest }]) := by
  constructor
  · intro hbad
    unfold SendTransaction.transfer
    simp only [hd]
    by_cases h0 : amount ≤ 0
    · simp [ledgerEnv, h0, World.emit, World.withExt, walletMoves, List.filter_append,
        Event.isInvoice, Event.isPay]
    · have hc : tw.ID ∈ w.ext.closed := by
        rcases hbad with h | h
        · exact absurd h h0
        · exact h
      simp [ledgerEnv, h0, hc, World.emit, World.withExt, walletMoves, List.filter_append,
        Event.isInvoice, Event.isPay]
  · intro hpos hopen
    have h0 : ¬ amount ≤ 0 := by omega
    have hlt : ¬ w.ext.balance fw.ID < amount := by omega
    unfold SendTransaction.transfer
    simp only [hd]
    simp [ledgerEnv, h0, hopen, hlt, World.emit, World.withExt, GetUserBalance, hs, hd,
      walletMoves, List.filter_append, Event.isInvoice, Event.isPay, hne]
    have hne1 : ¬ tw.ID = fw.ID := fun h => hne h.symm
    refine ⟨by rw [if_neg hne1]; omega, ?_⟩
    intro k h1 h2
    rw [if_neg h1, if_neg h2]
    omega

/-- Go `SendTransaction` on the exact wallet service. -/
theorem ledger_SendTransaction (t : Transaction) (src dst : User) (fw tw : Wallet)
    (amount : Int) (memo : String) (w : World Ledger) (hs : src.Wallet = some fw)
    (hd : dst.Wallet = some tw) (hne : fw.ID ≠ tw.ID) :
    (w.ext.balance fw.ID < amount →
      (SendTransaction ledgerEnv t src dst amount memo w).1 =
        .value (false, some (.text "balance too low.")) ∧
      (SendTransaction ledgerEnv t src dst amount memo w).2.2.2.2.ext = w.ext ∧
      walletMoves (SendTransaction ledgerEnv t src dst amount memo w).2.2.2.2.log =
        walletMoves w.log) ∧
    (amount ≤ w.ext.balance fw.ID → (amount ≤ 0 ∨ tw.ID ∈ w.ext.closed) →
      (∃ e, (SendTransaction ledgerEnv t src dst amount memo w).1 = .value (false, some e)) ∧
      (SendTransaction ledgerEnv t src dst amount memo w).2.2.2.2.ext = w.ext ∧
      walletMoves (SendTransaction ledgerEnv t src dst amount memo w).2.2.2.2.log =
        walletMoves w.log ++ [.invoice tw.ID { Amount := amount, Out := false, Memo := memo }]) ∧
    (amount ≤ w.ext.balance fw.ID → 0 < amount → tw.ID ∉ w.ext.closed →
      (SendTransaction ledgerEnv t src dst amount memo w).1 = .value (true, none) ∧
      (SendTransaction ledgerEnv t src dst amount memo w).2.2.2.2.ext.balance fw.ID =
        w.ext.balance fw.ID - amount ∧
      (SendTransaction ledgerEnv t src dst amount memo w).2.2.2.2.ext.balance tw.ID =
        w.ext.balance tw.ID + amount ∧
      (∀ k, k ≠ fw.ID → k ≠ tw.ID →
        (SendTransaction ledgerEnv t src dst amount memo w).2.2.2.2.ext.balance k =
          w.ext.balance k) ∧
      walletMoves (SendTransaction ledgerEnv t src dst amount memo w).2.2.2.2.log =
        walletMoves w.log ++
          [.invoice tw.ID { Amount := amount, Out := false, Memo := memo },
           .pay fw.ID { Out := true, Bolt11 :=
             (SendTransaction ledgerEnv t src dst amount memo w).2.1.Invoice.PaymentRequest }]) := by
  obtain ⟨b1, b2, b3, b4⟩ := ledger_balance src fw w hs
  unfold SendTransaction
  simp only [hs]
  generalize GetUserBalance ledgerEnv src w = q at b1 b2 b3 b4
  obtain ⟨⟨balance, err⟩, src1, w1⟩ := q
  dsimp only at b1 b2 b3 b4
  simp only [Prod.mk.injEq] at b1
  obtain ⟨rfl, rfl⟩ := b1
  have hs1 : src1.Wallet = some { fw with Balance := w.ext.balance fw.ID * 1000 } := by
    rw [b2]
  dsimp only
  refine ⟨?_, ?_, ?_⟩
  · intro hlt
    rw [if_pos hlt]
    exact ⟨rfl, b3, b4⟩
  · intro hle hbad
    rw [if_neg (by omega), hs1]
    have h := (ledger_transfer { t with FromWallet := fw.ID, FromLNbitsID := src.ID } src1 dst
      { fw with Balance := w.ext.balance fw.ID * 1000 } tw amount memo w1 hs1 hd hne
      (by rw [b3]; exact hle)).1 (by rw [b3]; exact hbad)
    rw [b3, b4] at h
    exact h
  · intro hle hpos hopen
    rw [if_neg (by omega), hs1]
    have h := (ledger_transfer { t with FromWallet := fw.ID, FromLNbitsID := src.ID } src1 dst
      { fw with Balance := w.ext.balance fw.ID * 1000 } tw amount memo w1 hs1 hd hne
      (by rw [b3]; exact hle)).2 hpos (by rw [b3]; exact hopen)
    rw [b3, b4] at h
    exact h

/-- C21 (balance movement): on the exact wallet service without fees, between two
different wallets, `Send` asks the wallet of `To` for an invoice over exactly `Amount` with
the memo and pays exactly that invoice from the wallet of `From`. If the payer holds the
amount and the invoice is issued, `Send` succeeds, the payer's balance goes down by exactly
`Amount`, the receiver's goes up by exactly `Amount`, and no other balance moves. If the
payer's balance is below `Amount`, or the invoice is refused, `Send` returns
`success = false` with an error and the books are unchanged. -/
theorem C21_balance_movement (t : Transaction) (fw tw : Wallet) (w : World Ledger)
    (hs : t.From.Wallet = some fw) (hd : t.To.Wallet = some tw) (hne : fw.ID ≠ tw.ID) :
    (t.Amount ≤ w.ext.balance fw.ID → 0 < t.Amount → tw.ID ∉ w.ext.closed →
      (Send ledgerEnv t w).1 = .value (true, none) ∧
      (Send ledgerEnv t w).2.2.ext.balance fw.ID = w.ext.balance fw.ID - t.Amount ∧
      (Send ledgerEnv t w).2.2.ext.balance tw.ID = w.ext.balance tw.ID + t.Amount ∧
      (∀ k, k ≠ fw.ID → k ≠ tw.ID →
        (Send ledgerEnv t w).2.2.ext.balance k = w.ext.balance k) ∧
      walletMoves (Send ledgerEnv t w).2.2.log =
        walletMoves w.log ++
          [.invoice tw.ID { Amount := t.Amount, Out := false, Memo := t.Memo },
           .pay fw.ID { Out := true,
                        Bolt11 := (Send ledgerEnv t w).2.1.Invoice.PaymentRequest }]) ∧
    (w.ext.balance fw.ID < t.Amount →
      (Send ledgerEnv t w).1 = .value (false, some (.text "balance too low.")) ∧
      (Send ledgerEnv t w).2.2.ext = w.ext ∧
      walletMoves (Send ledgerEnv t w).2.2.log = walletMoves w.log) ∧
    (t.Amount ≤ w.ext.balance fw.ID → (t.Amount ≤ 0 ∨ tw.ID ∈ w.ext.closed) →
      (∃ e, (Send ledgerEnv t w).1 = .value (false, some e)) ∧
      (Send ledgerEnv t w).2.2.ext = w.ext ∧
      walletMoves (Send ledgerEnv t w).2.2.log =
        walletMoves w.log ++
          [.invoice tw.ID { Amount := t.Amount, Out := false, Memo := t.Memo }]) := by
  obtain ⟨h1, h2, h3⟩ := ledger_SendTransaction t t.From t.To fw tw t.Amount t.Memo
    (w.emit (.send t)) hs hd hne
  have hm : walletMoves (w.emit (.send t)).log = walletMoves w.log := by
    simp [World.emit, walletMoves, List.filter_append, Event.isInvoice, Event.isPay]
  rw [hm] at h1 h2 h3
  simp only [emit_ext] at h1 h2 h3
  unfold Send
  generalize SendTransaction ledgerEnv t t.From t.To t.Amount t.Memo (w.emit (.send t)) = out
    at h1 h2 h3
  obtain ⟨r, t1, src1, dst1, w1⟩ := out
  dsimp only at h1 h2 h3
  have hsave : ∀ (x : Transaction) (l : List Event),
      walletMoves (l ++ [Event.txSave x]) = walletMoves l := by
    intro x l
    simp [walletMoves, List.filter_append, Event.isInvoice, Event.isPay]
  refine ⟨?_, ?_, ?_⟩
  · intro hle hpos hopen
    obtain ⟨a1, a2, a3, a4, a5⟩ := h3 hle hpos hopen
    subst a1
    simp only [ledgerEnv, World.emit, World.withExt, hsave, if_true]
    exact ⟨trivial, a2, a3, a4, a5⟩
  · intro hlt
    obtain ⟨a1, a2, a3⟩ := h1 hlt
    subst a1
    simp only [ledgerEnv, World.emit, World.withExt, hsave, Bool.false_eq_true, if_false]
    exact ⟨trivial, by rw [← a2], a3⟩
  · intro hle hbad
    obtain ⟨⟨e, a1⟩, a2, a3⟩ := h2 hle hbad
    subst a1
    simp only [ledgerEnv, World.emit, World.withExt, hsave, Bool.false_eq_true, if_false]
    exact ⟨⟨e, rfl⟩, by rw [← a2], a3⟩

/-- C21, a worked example: every wallet holds 100 sat; `alice` sends 10 sat to `bob`. The
transfer succeeds, `alice` is left with 90 sat and `bob` with 110 sat. -/
theorem C21_balance_movement_witness :
    (Send ledgerEnv (NewTransaction alice bob 10 "send") (ledgerWorld exampleLedger)).1 =
      .value (true, none) ∧
    (Send ledgerEnv (NewTransaction alice bob 10 "send")
      (ledgerWorld exampleLedger)).2.2.ext.balance "alice" = 100 - 10 ∧
    (Send ledgerEnv (NewTransaction alice bob 10 "send")
      (ledgerWorld exampleLedger)).2.2.ext.balance "bob" = 100 + 10 :=
  have h := (C21_balance_movement (NewTransaction alice bob 10 "send")
    { ID := "alice", Adminkey := "key", Balance := 0 }
    { ID := "bob", Adminkey := "key", Balance := 0 } (ledgerWorld exampleLedger) rfl rfl
    (by decide)).1 (by decide) (by decide) (by decide)
  ⟨h.1, h.2.1, h.2.2.1⟩

end LightningTipBot
